import Mathlib

/-!
# mesytec-mvlc: dialog utilities, USB connect and the error poller over a shallow embedding

Embedding of `mvlc_command_builders.h` (data model, `empty()`,
`get_encoded_stack_size`), `mvlc_dialog_util.h` (`read_stack_contents`,
`read_stack_info`, `disable_all_triggers_and_daq_mode`,
`setup_readout_stacks`, `setup_readout_triggers`), `mvlc_impl_usb.cc`
(`FTErrorCategory::default_error_condition`, `post_connect_cleanup`,
`usb::Impl::connect`, `disconnect`, `closeHandle` and the helpers they call),
`mvlc.cc` (`stack_error_poller`, the command-pipe methods of `MVLC`) and of
`calc_packet_loss` declared in `mvlc_impl_eth.h`.

Conventions
* Machine integers are `Nat`; every assignment to a `u8`, `u16` or `u32`
  variable or parameter is written with an explicit `% 256`, `% 65536` or
  `% 4294967296`.
* `std::error_code` is `ErrorCode`; `if (auto ec = ...)` is `ec.isError`.
* The template parameter `DIALOG_API` is a record of state-passing functions
  (`DialogAPI`).  `DialogAPI.recording` instruments such a device so that every
  call is appended to a log, which is how "which operations were issued" is
  observed.
* `mvlc_constants.h` is not part of the sources at hand: its constants and
  register-address helpers are the fields of `Constants` and every definition
  takes them as the parameter `K`.
* The calls of the vendor library `ftd3xx.h` are the fields of `FTDriver`, a
  record of state-passing functions; `FTDriver.recording` logs every call.
  A `void *` handle is a `Nat`, 0 the null pointer.
* The two threads of `post_connect_cleanup` are interleaved step by step under
  a schedule given as a parameter; in `stack_error_poller` the atomic flag, the
  read and the sleep are functions on a world state.
* A `std::unique_lock` guard is a pair of events of its thread, the guard taken
  and the guard destroyed (`PrivateAPI`, `ThreadOp`); `Threads` interleaves the
  steps of any number of threads under a schedule, a mutex having at most one
  owner and a thread waiting while the mutex it asks for is owned.
-/

namespace mesytec.mvlc

/-! ## Error codes -/

/-- The values of `_FT_STATUS`, the status type of the vendor library
`ftd3xx.h`, that `FTErrorCategory` in `mvlc_impl_usb.cc` names. -/
inductive FT_STATUS
  | FT_OK
  | FT_INVALID_HANDLE
  | FT_DEVICE_NOT_FOUND
  | FT_DEVICE_NOT_OPENED
  | FT_IO_ERROR
  | FT_INSUFFICIENT_RESOURCES
  | FT_INVALID_PARAMETER
  | FT_INVALID_BAUD_RATE
  | FT_DEVICE_NOT_OPENED_FOR_ERASE
  | FT_DEVICE_NOT_OPENED_FOR_WRITE
  | FT_FAILED_TO_WRITE_DEVICE
  | FT_EEPROM_READ_FAILED
  | FT_EEPROM_WRITE_FAILED
  | FT_EEPROM_ERASE_FAILED
  | FT_EEPROM_NOT_PRESENT
  | FT_EEPROM_NOT_PROGRAMMED
  | FT_INVALID_ARGS
  | FT_NOT_SUPPORTED
  | FT_NO_MORE_ITEMS
  | FT_TIMEOUT
  | FT_OPERATION_ABORTED
  | FT_RESERVED_PIPE
  | FT_INVALID_CONTROL_REQUEST_DIRECTION
  | FT_INVALID_CONTROL_REQUEST_TYPE
  | FT_IO_PENDING
  | FT_IO_INCOMPLETE
  | FT_HANDLE_EOF
  | FT_BUSY
  | FT_NO_SYSTEM_RESOURCES
  | FT_DEVICE_LIST_NOT_READY
  | FT_DEVICE_NOT_CONNECTED
  | FT_INCORRECT_DEVICE_PATH
  | FT_OTHER_ERROR
  deriving DecidableEq, Repr

/-- Values of `MVLCErrorCode` that the embedded functions produce themselves. -/
inductive MVLCErrorCode
  | IsConnected
  | IsDisconnected
  | InvalidStackHeader
  | StackMemoryExceeded
  | StackCountExceeded
  | USBChipConfigError
  | InvalidPipe
  deriving DecidableEq, Repr

/-- A `std::error_code`: the default constructed value `NoError`, one made by
`make_error_code(MVLCErrorCode::...)`, one made by
`usb::make_error_code(FT_STATUS)` in the category of the vendor library, or any
other non-zero code handed back by the device layer. -/
inductive ErrorCode
  | NoError
  | MVLC (e : MVLCErrorCode)
  | FT (st : FT_STATUS)
  | Other (code : Nat)
  deriving DecidableEq, Repr

/-- The `explicit operator bool` of `std::error_code`: true when the value of
the code is not zero, that is for every code but the default constructed one
and the one made from `FT_OK`. -/
def ErrorCode.isError : ErrorCode → Bool
  | ErrorCode.NoError => false
  | ErrorCode.FT FT_STATUS.FT_OK => false
  | _ => true

/-! ## Command model (`mvlc_command_builders.h`) -/

/-- Modelled from the spec: `SuperCommandType` is declared in
`mvlc_constants.h`; the spec lists its members. -/
inductive SuperCommandType
  | ReferenceWord
  | ReadLocal
  | ReadLocalBlock
  | WriteLocal
  | WriteReset
  deriving DecidableEq, Repr

/-- The struct `SuperCommand`. -/
structure SuperCommand where
  type : SuperCommandType
  address : Nat
  value : Nat
  deriving DecidableEq, Repr

/-- The class `SuperCommandBuilder`: its only data member is `m_commands`. -/
structure SuperCommandBuilder where
  m_commands : List SuperCommand := []
  deriving DecidableEq, Repr

/-- Modelled from the spec: `SuperCommandBuilder::addReferenceWord(u16 refValue)`
is defined outside the sources at hand; it appends the reference-word command
carrying `refValue` to the ordered command sequence. -/
def SuperCommandBuilder.addReferenceWord (sb : SuperCommandBuilder) (refValue : Nat) :
    SuperCommandBuilder :=
  { m_commands := sb.m_commands ++ [⟨SuperCommandType.ReferenceWord, 0, refValue % 65536⟩] }

/-- Modelled from the spec: `SuperCommandBuilder::addWriteLocal(u16 address, u32 value)`
is defined outside the sources at hand; it appends the `WriteLocal` command for
`address` and `value` to the ordered command sequence. -/
def SuperCommandBuilder.addWriteLocal (sb : SuperCommandBuilder) (address value : Nat) :
    SuperCommandBuilder :=
  { m_commands := sb.m_commands ++
      [⟨SuperCommandType.WriteLocal, address % 65536, value % 4294967296⟩] }

/-- The enum `StackCommand::CommandType`. -/
inductive StackCommand.CommandType
  | Invalid
  | StackStart
  | StackEnd
  | VMERead
  | VMEWrite
  | VMEMBLTSwapped
  | SignallingVMERead
  | WriteMarker
  | WriteSpecial
  | WriteSignalWord
  | SoftwareDelay
  deriving DecidableEq, Repr

/-- The struct `StackCommand`.  `dataWidth` and `rate` hold the underlying
integer of the enums `VMEDataWidth` and `Blk2eSSTRate`. -/
structure StackCommand where
  type : StackCommand.CommandType := StackCommand.CommandType.Invalid
  address : Nat := 0
  value : Nat := 0
  amod : Nat := 0
  dataWidth : Nat := 0
  transfers : Nat := 0
  rate : Nat := 0
  deriving DecidableEq, Repr

/-- The struct `StackCommandBuilder::Group`. -/
structure StackCommandBuilder.Group where
  name : String := ""
  commands : List StackCommand := []
  deriving DecidableEq, Repr

/-- The class `StackCommandBuilder` with its three data members. -/
structure StackCommandBuilder where
  m_name : String := ""
  m_groups : List StackCommandBuilder.Group := []
  m_suppressPipeOutput : Bool := false
  deriving DecidableEq, Repr

/-- The accessor `StackCommandBuilder::suppressPipeOutput()`. -/
def StackCommandBuilder.suppressPipeOutput (b : StackCommandBuilder) : Bool :=
  b.m_suppressPipeOutput

/-- Modelled from the spec: `StackCommandBuilder::getCommands()` is defined
outside the sources at hand; flattening yields the concatenation of all groups'
commands in group order. -/
def StackCommandBuilder.getCommands (b : StackCommandBuilder) : List StackCommand :=
  b.m_groups.flatMap (fun g => g.commands)

/-- The member `StackCommandBuilder::Group::empty()`. -/
def StackCommandBuilder.Group.empty (group : StackCommandBuilder.Group) : Bool :=
  group.commands.isEmpty

/-- The member `StackCommandBuilder::empty()`: `m_groups.empty()` or
`std::all_of` over the groups of `group.empty()`. -/
def StackCommandBuilder.empty (b : StackCommandBuilder) : Bool :=
  b.m_groups.isEmpty || b.m_groups.all (fun group => group.empty)

/-- Modelled from the spec:
`get_encoded_stack_size(const std::vector<StackCommand> &)` is defined outside
the sources at hand; it returns the sum of the sizes of the encoded commands
plus 2 for StackStart and StackEnd, as the specification and the comment on its
declaration both say.  The size of a single encoded command,
`get_encoded_size`, is a parameter. -/
def get_encoded_stack_size_of_commands (get_encoded_size : StackCommand → Nat)
    (commands : List StackCommand) : Nat :=
  (commands.map get_encoded_size).sum + 2

/-- The inline overload `get_encoded_stack_size(const StackCommandBuilder &sb)`. -/
def get_encoded_stack_size (get_encoded_size : StackCommand → Nat)
    (sb : StackCommandBuilder) : Nat :=
  get_encoded_stack_size_of_commands get_encoded_size sb.getCommands

/-! ## Constants (`mvlc_constants.h`, taken as a parameter) -/

/-- The constants and register-address helpers of `mvlc_constants.h` that the
embedded functions use. -/
structure Constants where
  AddressIncrement : Nat
  CmdShift : Nat
  CmdMask : Nat
  /-- The value `static_cast<u8>(StackCommandType::StackStart)`. -/
  StackStart : Nat
  /-- The value `static_cast<u8>(StackCommandType::StackEnd)`. -/
  StackEnd : Nat
  DataPipe : Nat
  SuppressPipeOutput : Nat
  DAQModeEnableRegister : Nat
  StackCount : Nat
  ReadoutStackCount : Nat
  ImmediateStackID : Nat
  ImmediateStackStartOffsetWords : Nat
  ImmediateStackReservedWords : Nat
  StackMemoryBegin : Nat
  StackMemoryEnd : Nat
  StackOffsetBitMaskBytes : Nat
  NoTrigger : Nat
  get_trigger_register : Nat → Nat
  get_offset_register : Nat → Nat

/-! ## The device (`DIALOG_API`) -/

/-- The operations of the template parameter `DIALOG_API` used by
`mvlc_dialog_util.h`, as functions on a device state `σ`.  The parameter widths
are those of the `MVLC` methods in `mvlc.cc` (`u16` addresses and offsets, `u8`
pipe, `u32` values); the callers truncate their arguments accordingly.
`readRegister` receives the current content of its reference parameter `value`
and returns the content after the call. -/
structure DialogAPI (σ : Type) where
  readRegister : σ → (address : Nat) → (value : Nat) → ErrorCode × Nat × σ
  writeRegister : σ → (address : Nat) → (value : Nat) → ErrorCode × σ
  uploadStack : σ → (stackOutputPipe : Nat) → (stackMemoryOffset : Nat) →
    StackCommandBuilder → ErrorCode × σ
  superTransaction : σ → SuperCommandBuilder → (responseBuffer : List Nat) →
    ErrorCode × List Nat × σ

/-- One call made on the device, with its arguments; a register read also
records the word the call left in `value`. -/
inductive DeviceOp
  | readRegister (address : Nat) (value : Nat)
  | writeRegister (address : Nat) (value : Nat)
  | uploadStack (stackOutputPipe : Nat) (stackMemoryOffset : Nat) (stack : StackCommandBuilder)
  | superTransaction (sb : SuperCommandBuilder)
  deriving DecidableEq, Repr

/-- The device `d` instrumented with a log: each call behaves as on `d` and is
appended, in call order, to the list kept next to the device state. -/
def DialogAPI.recording {σ : Type} (d : DialogAPI σ) : DialogAPI (σ × List DeviceOp) where
  readRegister := fun st address value =>
    let r := d.readRegister st.1 address value
    (r.1, r.2.1, (r.2.2, st.2 ++ [DeviceOp.readRegister address r.2.1]))
  writeRegister := fun st address value =>
    let r := d.writeRegister st.1 address value
    (r.1, (r.2, st.2 ++ [DeviceOp.writeRegister address value]))
  uploadStack := fun st stackOutputPipe stackMemoryOffset stack =>
    let r := d.uploadStack st.1 stackOutputPipe stackMemoryOffset stack
    (r.1, (r.2, st.2 ++ [DeviceOp.uploadStack stackOutputPipe stackMemoryOffset stack]))
  superTransaction := fun st sb responseBuffer =>
    let r := d.superTransaction st.1 sb responseBuffer
    (r.1, r.2.1, (r.2.2, st.2 ++ [DeviceOp.superTransaction sb]))

/-! ## `setup_readout_stacks` -/

/-- The body of the range-for loop of `setup_readout_stacks`, over the stacks
still to be processed, with the loop-carried `stackId` (`u8`) and
`uploadWordOffset` (`u16`).  `make_stack_buffer` is the encoder declared in
`mvlc_command_builders.h`, whose definition is outside the sources at hand. -/
def setup_readout_stacks_loop {σ : Type} (K : Constants)
    (make_stack_buffer : StackCommandBuilder → List Nat) (mvlc : DialogAPI σ) :
    List StackCommandBuilder → (stackId : Nat) → (uploadWordOffset : Nat) → σ → ErrorCode × σ
  | [], _, _, s => (ErrorCode.NoError, s)
  | stackBuilder :: rest, stackId, uploadWordOffset, s =>
    if stackId ≥ K.StackCount then
      (ErrorCode.MVLC MVLCErrorCode.StackCountExceeded, s)
    else
      let stackBuffer := make_stack_buffer stackBuilder
      let uploadAddress := (uploadWordOffset * K.AddressIncrement) % 65536
      let endAddress := (uploadAddress + stackBuffer.length * K.AddressIncrement) % 65536
      if endAddress ≥ K.StackMemoryEnd then
        (ErrorCode.MVLC MVLCErrorCode.StackMemoryExceeded, s)
      else
        let stackOutputPipe :=
          (if stackBuilder.suppressPipeOutput then K.SuppressPipeOutput else K.DataPipe) % 256
        let r1 := mvlc.uploadStack s stackOutputPipe uploadAddress stackBuilder
        if r1.1.isError then
          (r1.1, r1.2)
        else
          let offsetRegister := K.get_offset_register stackId % 65536
          let r2 := mvlc.writeRegister r1.2 offsetRegister
            ((uploadAddress &&& K.StackOffsetBitMaskBytes) % 4294967296)
          if r2.1.isError then
            (r2.1, r2.2)
          else
            setup_readout_stacks_loop K make_stack_buffer mvlc rest
              ((stackId + 1) % 256) ((uploadWordOffset + stackBuffer.length + 1) % 65536) r2.2

/-- The value `stackId` starts from in `setup_readout_stacks` and
`setup_readout_triggers`: `u8 stackId = stacks::ImmediateStackID + 1`. -/
def firstReadoutStackId (K : Constants) : Nat :=
  (K.ImmediateStackID + 1) % 256

/-- The value `uploadWordOffset` starts from in `setup_readout_stacks`. -/
def firstUploadWordOffset (K : Constants) : Nat :=
  (K.ImmediateStackStartOffsetWords + K.ImmediateStackReservedWords + 1) % 65536

/-- The function `setup_readout_stacks(mvlc, readoutStacks)`. -/
def setup_readout_stacks {σ : Type} (K : Constants)
    (make_stack_buffer : StackCommandBuilder → List Nat) (mvlc : DialogAPI σ) (s : σ)
    (readoutStacks : List StackCommandBuilder) : ErrorCode × σ :=
  setup_readout_stacks_loop K make_stack_buffer mvlc readoutStacks
    (firstReadoutStackId K) (firstUploadWordOffset K) s

/-! ## `read_stack_contents` -/

/-- The command tag of a stack word: `(w >> CmdShift) & CmdMask`. -/
def commandTag (K : Constants) (w : Nat) : Nat :=
  (w >>> K.CmdShift) &&& K.CmdMask

/-- The `do ... while` loop of `read_stack_contents`, with the loop-carried
`addr` and `value` (both `u32`) and the `contents` read so far.  The loop is
unbounded in the source; `fuel` bounds the number of iterations and running
out of it gives `none`. -/
def read_stack_contents_loop {σ : Type} (K : Constants) (mvlc : DialogAPI σ) :
    (fuel : Nat) → (addr : Nat) → (value : Nat) → (contents : List Nat) → σ →
      Option ((List Nat × ErrorCode) × σ)
  | 0, _, _, _, _ => none
  | fuel + 1, addr, value, contents, s =>
    if addr ≥ K.StackMemoryEnd then
      some ((contents, ErrorCode.MVLC MVLCErrorCode.StackMemoryExceeded), s)
    else
      let r := mvlc.readRegister s (addr % 65536) value
      if r.1.isError then
        some ((contents, r.1), r.2.2)
      else
        if commandTag K r.2.1 ≠ K.StackEnd then
          read_stack_contents_loop K mvlc fuel ((addr + K.AddressIncrement) % 4294967296)
            r.2.1 (contents ++ [r.2.1]) r.2.2
        else
          some ((contents ++ [r.2.1], ErrorCode.NoError), r.2.2)

/-- The function `read_stack_contents(mvlc, startAddress)`; `startAddress` is
the `u16` parameter. -/
def read_stack_contents {σ : Type} (K : Constants) (mvlc : DialogAPI σ) (s : σ)
    (startAddress : Nat) (fuel : Nat) : Option ((List Nat × ErrorCode) × σ) :=
  let r := mvlc.readRegister s startAddress 0
  if r.1.isError then
    some (([], r.1), r.2.2)
  else
    let stackHeader := r.2.1
    let headerType := commandTag K stackHeader % 256
    if headerType ≠ K.StackStart then
      some (([stackHeader], ErrorCode.MVLC MVLCErrorCode.InvalidStackHeader), r.2.2)
    else
      read_stack_contents_loop K mvlc fuel ((startAddress + K.AddressIncrement) % 4294967296)
        0 [stackHeader] r.2.2

/-! ## `read_stack_info` -/

/-- The struct `StackInfo`; the default value is the zero-initialised
`StackInfo result = {}`. -/
structure StackInfo where
  triggers : Nat := 0
  offset : Nat := 0
  startAddress : Nat := 0
  contents : List Nat := []
  deriving DecidableEq, Repr

/-- The function `read_stack_info(mvlc, id)`; `id` is the `u8` parameter and
`fuel` bounds the loop of `read_stack_contents`.  The reference parameters
`result.triggers` and `result.offset` hold what `readRegister` left in them,
also when the read failed. -/
def read_stack_info {σ : Type} (K : Constants) (mvlc : DialogAPI σ) (s : σ)
    (id : Nat) (fuel : Nat) : Option ((StackInfo × ErrorCode) × σ) :=
  let result : StackInfo := {}
  if id ≥ K.StackCount then
    some ((result, ErrorCode.MVLC MVLCErrorCode.StackCountExceeded), s)
  else
    let r1 := mvlc.readRegister s (K.get_trigger_register id % 65536) result.triggers
    let result := { result with triggers := r1.2.1 }
    if r1.1.isError then
      some ((result, r1.1), r1.2.2)
    else
      let r2 := mvlc.readRegister r1.2.2 (K.get_offset_register id % 65536) result.offset
      let result := { result with offset := r2.2.1 }
      if r2.1.isError then
        some ((result, r2.1), r2.2.2)
      else
        let result :=
          { result with startAddress := (K.StackMemoryBegin + result.offset) % 65536 }
        match read_stack_contents K mvlc r2.2.2 result.startAddress fuel with
        | none => none
        | some sc => some (({ result with contents := sc.1.1 }, sc.1.2), sc.2)

/-! ## `disable_all_triggers_and_daq_mode` -/

/-- The loop `for (u8 stackId = 0; stackId < stacks::StackCount; stackId++)` of
`disable_all_triggers_and_daq_mode`, adding one `WriteLocal` per stack to the
builder.  `fuel` bounds the number of iterations and running out of it gives
`none`. -/
def disable_all_triggers_loop (K : Constants) :
    (fuel : Nat) → (stackId : Nat) → SuperCommandBuilder → Option SuperCommandBuilder
  | 0, _, _ => none
  | fuel + 1, stackId, sb =>
    if stackId < K.StackCount then
      let addr := K.get_trigger_register stackId % 65536
      disable_all_triggers_loop K fuel ((stackId + 1) % 256) (sb.addWriteLocal addr K.NoTrigger)
    else
      some sb

/-- The function `disable_all_triggers_and_daq_mode(mvlc)`. -/
def disable_all_triggers_and_daq_mode {σ : Type} (K : Constants) (mvlc : DialogAPI σ) (s : σ)
    (fuel : Nat) : Option (ErrorCode × σ) :=
  let sb : SuperCommandBuilder := {}
  let sb := sb.addReferenceWord 0x1338
  let sb := sb.addWriteLocal K.DAQModeEnableRegister 0
  match disable_all_triggers_loop K fuel 0 sb with
  | none => none
  | some sb =>
    let r := mvlc.superTransaction s sb []
    some (r.1, r.2.2)

/-! ## `setup_readout_triggers` -/

/-- The struct `StackTrigger`; `triggerType` holds the underlying integer of
`stacks::TriggerType`. -/
structure StackTrigger where
  triggerType : Nat
  irqLevel : Nat := 0
  deriving DecidableEq, Repr

/-- The range-for loop of `setup_readout_triggers` over the trigger values still
to be added, with the loop-carried `stackId` (`u8`). -/
def setup_readout_triggers_loop (K : Constants) :
    List Nat → (stackId : Nat) → SuperCommandBuilder → SuperCommandBuilder
  | [], _, sb => sb
  | triggerVal :: rest, stackId, sb =>
    let triggerReg := K.get_trigger_register stackId % 65536
    setup_readout_triggers_loop K rest ((stackId + 1) % 256)
      (sb.addWriteLocal triggerReg triggerVal)

/-- The function `setup_readout_triggers(mvlc, triggerValues)` taking the
`std::array<u32, ReadoutStackCount>`. -/
def setup_readout_triggers {σ : Type} (K : Constants) (mvlc : DialogAPI σ) (s : σ)
    (triggerValues : List Nat) : ErrorCode × σ :=
  let sb : SuperCommandBuilder := {}
  let sb := sb.addReferenceWord 0x1337
  let sb := setup_readout_triggers_loop K triggerValues (firstReadoutStackId K) sb
  let r := mvlc.superTransaction s sb []
  (r.1, r.2.2)

/-- The overload `setup_readout_triggers(mvlc, triggers)` taking the
`std::array<StackTrigger, ReadoutStackCount>`.  `trigger_value` is the function
of `mvlc_util.h` (outside the sources at hand) mapping a trigger type and IRQ
level to the `u32` trigger word. -/
def setup_readout_triggers_StackTrigger {σ : Type} (K : Constants)
    (trigger_value : Nat → Nat → Nat) (mvlc : DialogAPI σ) (s : σ)
    (triggers : List StackTrigger) : ErrorCode × σ :=
  let triggerValues :=
    triggers.map (fun st => trigger_value st.triggerType st.irqLevel % 4294967296)
  setup_readout_triggers K mvlc s triggerValues

/-! ## Explicit constants, encoder and devices for evaluation -/

/-- Modelled from the spec: `mvlc_constants.h` is outside the sources at hand.
One explicit set of constants on which the functions are evaluated: words
addressed in increments of 4 bytes, the command tag in the top byte of a word
(`0xF3` StackStart and `0xF4` StackEnd, the values the comments of
`read_stack_contents` give), 8 stack slots with trigger registers from `0x1100`
and offset registers from `0x1200`, slot 0 the immediate stack with 1 + 127
words at the bottom of the stack memory `0x2000 .. 0x3000`. -/
def mvlcConstants : Constants where
  AddressIncrement := 4
  CmdShift := 24
  CmdMask := 0xFF
  StackStart := 0xF3
  StackEnd := 0xF4
  DataPipe := 1
  SuppressPipeOutput := 2
  DAQModeEnableRegister := 0x1300
  StackCount := 8
  ReadoutStackCount := 7
  ImmediateStackID := 0
  ImmediateStackStartOffsetWords := 1
  ImmediateStackReservedWords := 127
  StackMemoryBegin := 0x2000
  StackMemoryEnd := 0x3000
  StackOffsetBitMaskBytes := 0x0FFC
  NoTrigger := 0
  get_trigger_register := fun stackId => 0x1100 + stackId * 4
  get_offset_register := fun stackId => 0x1200 + stackId * 4

/-- Modelled from the spec: `make_stack_buffer(StackCommandBuilder)` is defined
outside the sources at hand; it flattens the groups and emits a StackStart
marker, the encoded commands and a StackEnd marker, as the specification says
(the comment on its declaration in `mvlc_command_builders.h` speaks of raw
stack commands not enclosed between the two markers; the body is not at hand).
The encoder of a single command is the parameter `encode`. -/
def make_stack_buffer (K : Constants) (encode : StackCommand → List Nat)
    (builder : StackCommandBuilder) : List Nat :=
  [K.StackStart <<< K.CmdShift] ++ builder.getCommands.flatMap encode ++
    [K.StackEnd <<< K.CmdShift]

/-- Modelled from the spec: the encoder of a single stack command is outside
the sources at hand and the spec gives its word counts no values.  For explicit
inputs every command is written as two words, its address and its value; only
the number of words enters `setup_readout_stacks`. -/
def encodeTwoWords (c : StackCommand) : List Nat :=
  [c.address % 4294967296, c.value % 4294967296]

/-- A readout stack of one unnamed group holding `n` marker commands. -/
def markerStack (n : Nat) : StackCommandBuilder :=
  let marker : StackCommand := { type := StackCommand.CommandType.WriteMarker, value := 0x87654321 }
  let group : StackCommandBuilder.Group := { commands := List.replicate n marker }
  { m_groups := [group] }

/-- A device without state that accepts every operation and answers a register
read with the word `mem address`. -/
def staticDevice (mem : Nat → Nat) : DialogAPI Unit where
  readRegister := fun _ address _ => (ErrorCode.NoError, mem address, ())
  writeRegister := fun _ _ _ => (ErrorCode.NoError, ())
  uploadStack := fun _ _ _ _ => (ErrorCode.NoError, ())
  superTransaction := fun _ _ responseBuffer => (ErrorCode.NoError, responseBuffer, ())

/-! ## Vocabulary for the statements about `setup_readout_stacks` -/

/-- The `u16 uploadAddress` computed for a stack processed with the given
`uploadWordOffset`. -/
def uploadAddressAt (K : Constants) (uploadWordOffset : Nat) : Nat :=
  (uploadWordOffset * K.AddressIncrement) % 65536

/-- The `u16 endAddress` computed for a stack of `n` encoded words processed
with the given `uploadWordOffset`. -/
def endAddressAt (K : Constants) (uploadWordOffset : Nat) (n : Nat) : Nat :=
  (uploadAddressAt K uploadWordOffset + n * K.AddressIncrement) % 65536

/-- The `u8 stackOutputPipe` chosen for a stack. -/
def outputPipeOf (K : Constants) (stackBuilder : StackCommandBuilder) : Nat :=
  (if stackBuilder.suppressPipeOutput then K.SuppressPipeOutput else K.DataPipe) % 256

/-- The two device calls of one completed loop iteration: the upload of the
stack and the write of its offset register. -/
def stackOps (K : Constants) (stackBuilder : StackCommandBuilder) (stackId : Nat)
    (uploadWordOffset : Nat) : List DeviceOp :=
  [DeviceOp.uploadStack (outputPipeOf K stackBuilder) (uploadAddressAt K uploadWordOffset)
      stackBuilder,
   DeviceOp.writeRegister (K.get_offset_register stackId % 65536)
      ((uploadAddressAt K uploadWordOffset &&& K.StackOffsetBitMaskBytes) % 4294967296)]

/-- The `uploadWordOffset` reached after the loop has completed the iterations
for the given stacks, starting from `uploadWordOffset`. -/
def wordOffsetAfter (make_stack_buffer : StackCommandBuilder → List Nat) :
    List StackCommandBuilder → (uploadWordOffset : Nat) → Nat
  | [], uploadWordOffset => uploadWordOffset
  | b :: rest, uploadWordOffset =>
    wordOffsetAfter make_stack_buffer rest
      ((uploadWordOffset + (make_stack_buffer b).length + 1) % 65536)

/-- The device calls of the completed loop iterations for the given stacks, in
call order, starting from `stackId` and `uploadWordOffset`. -/
def readoutOps (K : Constants) (make_stack_buffer : StackCommandBuilder → List Nat) :
    List StackCommandBuilder → (stackId : Nat) → (uploadWordOffset : Nat) → List DeviceOp
  | [], _, _ => []
  | b :: rest, stackId, uploadWordOffset =>
    stackOps K b stackId uploadWordOffset ++
      readoutOps K make_stack_buffer rest ((stackId + 1) % 256)
        ((uploadWordOffset + (make_stack_buffer b).length + 1) % 65536)

/-- The encoder used for explicit inputs: `make_stack_buffer` over
`mvlcConstants` with two words per command. -/
def mvlcStackBuffer : StackCommandBuilder → List Nat :=
  make_stack_buffer mvlcConstants encodeTwoWords

/-- The accepting device whose registers all read as zero. -/
def idleDevice : DialogAPI Unit :=
  staticDevice (fun _ => 0)

/-- A readout stack without commands whose `suppressPipeOutput` flag is set. -/
def quietStack : StackCommandBuilder :=
  { m_suppressPipeOutput := true }

/-- The command sequence of the transaction of `setup_readout_triggers` as the
specification words it: the reference word `0x1337`, then for
`i = 0 .. ReadoutStackCount - 1` the `WriteLocal` of `triggerValues[i]` to the
trigger register of stack `ImmediateStackID + 1 + i`. -/
def readoutTriggerCommands (K : Constants) (triggerValues : List Nat) : List SuperCommand :=
  ⟨SuperCommandType.ReferenceWord, 0, 0x1337⟩ ::
    (List.range K.ReadoutStackCount).map (fun i =>
      ⟨SuperCommandType.WriteLocal, K.get_trigger_register (K.ImmediateStackID + 1 + i),
        triggerValues.getD i 0⟩)

/-- The command sequence of the transaction of
`disable_all_triggers_and_daq_mode` as the specification words it: the
reference word `0x1338`, the `WriteLocal` of 0 to the DAQ mode register, then
the `WriteLocal` of `NoTrigger` to the trigger register of every stack id
`0 .. StackCount - 1` in increasing order. -/
def disableAllCommands (K : Constants) : List SuperCommand :=
  ⟨SuperCommandType.ReferenceWord, 0, 0x1338⟩ ::
    ⟨SuperCommandType.WriteLocal, K.DAQModeEnableRegister, 0⟩ ::
      (List.range K.StackCount).map (fun stackId =>
        ⟨SuperCommandType.WriteLocal, K.get_trigger_register stackId, K.NoTrigger⟩)

/-- A stack memory for explicit inputs: from address `0x2204` on it holds a
StackStart word, one data word and a StackEnd word; every other address reads
as zero. -/
def exampleStackMemory : Nat → Nat := fun address =>
  if address = 0x2204 then 0xF3010000
  else if address = 0x2208 then 0x12345678
  else if address = 0x220C then 0xF4000000
  else 0

/-- The number of addresses `addr`, `addr + AddressIncrement`, ... that lie below
`StackMemoryEnd`: the ceiling of `(StackMemoryEnd - addr) / AddressIncrement`,
zero when `addr` is not below `StackMemoryEnd`. -/
def wordsBelowEnd (K : Constants) (addr : Nat) : Nat :=
  (K.StackMemoryEnd - addr + (K.AddressIncrement - 1)) / K.AddressIncrement

/-- A stack memory for explicit inputs holding a StackStart word at `0x2FF8`
and zero everywhere else, so that no StackEnd word follows. -/
def unterminatedStackMemory : Nat → Nat := fun address =>
  if address = 0x2FF8 then 0xF3000000 else 0

/-- A register memory for explicit inputs: the offset register of stack 1
(`0x1204`) holds `0xE000`, every other address reads as zero. -/
def wideOffsetMemory : Nat → Nat := fun address =>
  if address = 0x1204 then 0xE000 else 0

/-- A register and stack memory for explicit inputs: the trigger register of
stack 1 (`0x1104`) holds `0x42`, its offset register (`0x1204`) holds `0x204`,
and the stack memory holds the words of `exampleStackMemory`. -/
def exampleDeviceMemory : Nat → Nat := fun address =>
  if address = 0x1104 then 0x42
  else if address = 0x1204 then 0x204
  else exampleStackMemory address

/-! ## Packet loss (`mvlc_impl_eth.h`) -/

/-- Modelled from the spec: `calc_packet_loss(u16 lastPacketNumber, u16
packetNumber)` is declared in `mvlc_impl_eth.h` and defined outside the sources
at hand.  The packet numbers are elements of the cyclic group of size 2^16;
the forward distance from `lastPacketNumber + 1` to `packetNumber` is computed
modulo 2^16 and returned as a signed count (`s32`), so that distances of 2^15
and more are the negative results which the specification names for duplicate
and out-of-order packets. -/
def calc_packet_loss (lastPacketNumber packetNumber : Nat) : Int :=
  let distance := (packetNumber + 65536 - (lastPacketNumber + 1) % 65536) % 65536
  if distance < 32768 then (distance : Int) else (distance : Int) - 65536

/-! ## USB implementation (`mvlc_impl_usb.cc`) -/

/-- The function `usb::make_error_code(FT_STATUS st)`. -/
def usb.make_error_code (st : FT_STATUS) : ErrorCode :=
  ErrorCode.FT st

/-- The enum `Pipe` with the two members the sources use. -/
inductive Pipe
  | Command
  | Data
  deriving DecidableEq, Repr

/-- The enum `usb::EndpointDirection`. -/
inductive usb.EndpointDirection
  | In
  | Out
  deriving DecidableEq, Repr

/-- The function `get_fifo_id(pipe)`. -/
def get_fifo_id : Pipe → Nat
  | Pipe.Command => 0
  | Pipe.Data => 1

/-- The function `get_endpoint(pipe, dir)`. -/
def get_endpoint (pipe : Pipe) (dir : usb.EndpointDirection) : Nat :=
  let result : Nat :=
    match pipe with
    | Pipe.Command => 0x2
    | Pipe.Data => 0x3
  if dir = usb.EndpointDirection.In then (result ||| 0x80) % 256 else result

/-- The struct `usb::DeviceInfo` with the members the sources use; the default
value stands for `DeviceInfo{}`.  `handle` is a `void *`, 0 the null pointer. -/
structure usb.DeviceInfo where
  index : Int := -1
  serial : String := ""
  description : String := ""
  flags : Nat := 0
  handle : Nat := 0
  deriving DecidableEq, Repr

/-- The struct `FT_60XCONFIGURATION` of the vendor library with the members
that `check_chip_configuration` inspects. -/
structure FT_60XCONFIGURATION where
  FIFOClock : Nat := 0
  FIFOMode : Nat := 0
  ChannelConfig : Nat := 0
  PowerAttributes : Nat := 0
  OptionalFeatureSupport : Nat := 0
  deriving DecidableEq, Repr

/-- The constants of the vendor library that `check_chip_configuration`
compares with. -/
structure FTConstants where
  CONFIGURATION_FIFO_CLK_100 : Nat
  CONFIGURATION_FIFO_MODE_600 : Nat
  CONFIGURATION_CHANNEL_CONFIG_2 : Nat
  CONFIGURATION_OPTIONAL_FEATURE_DISABLEALL : Nat

/-- The calls into the vendor library and the device enumeration that
`usb::Impl` makes, as functions on a driver state `δ`.  Handles are `void *`
values, 0 the null pointer; `FT_Create` receives the current content of
`m_handle` and returns the content after the call.  `get_device_info_list` is
the enumeration `get_device_info_list()` and `deviceInfoValid` the conversion
of a `DeviceInfo` to `bool`, declared in `mvlc_impl_usb.h`. -/
structure FTDriver (δ : Type) where
  FT_SetTransferParams : δ → (fifoId : Nat) → FT_STATUS × δ
  get_device_info_list : δ → List usb.DeviceInfo × δ
  deviceInfoValid : usb.DeviceInfo → Bool
  FT_Create : δ → (index : Int) → (handle : Nat) → FT_STATUS × Nat × δ
  FT_GetChipConfiguration : δ → (handle : Nat) → FT_STATUS × FT_60XCONFIGURATION × δ
  FT_SetPipeTimeout : δ → (handle : Nat) → (ep : Nat) → (ms : Nat) → FT_STATUS × δ
  FT_AbortPipe : δ → (handle : Nat) → (ep : Nat) → FT_STATUS × δ
  FT_SetStreamPipe : δ → (handle : Nat) → FT_STATUS × δ
  FT_Close : δ → (handle : Nat) → FT_STATUS × δ

/-- One call made on the driver, with its arguments. -/
inductive DriverOp
  | FT_SetTransferParams (fifoId : Nat)
  | get_device_info_list
  | FT_Create (index : Int)
  | FT_GetChipConfiguration (handle : Nat)
  | FT_SetPipeTimeout (handle : Nat) (ep : Nat) (ms : Nat)
  | FT_AbortPipe (handle : Nat) (ep : Nat)
  | FT_SetStreamPipe (handle : Nat)
  | FT_Close (handle : Nat)
  | post_connect_cleanup
  deriving DecidableEq, Repr

/-- The driver `f` instrumented with a log: each call behaves as on `f` and is
appended, in call order, to the list kept next to the driver state. -/
def FTDriver.recording {δ : Type} (f : FTDriver δ) : FTDriver (δ × List DriverOp) where
  FT_SetTransferParams := fun st fifoId =>
    let r := f.FT_SetTransferParams st.1 fifoId
    (r.1, (r.2, st.2 ++ [DriverOp.FT_SetTransferParams fifoId]))
  get_device_info_list := fun st =>
    let r := f.get_device_info_list st.1
    (r.1, (r.2, st.2 ++ [DriverOp.get_device_info_list]))
  deviceInfoValid := f.deviceInfoValid
  FT_Create := fun st index handle =>
    let r := f.FT_Create st.1 index handle
    (r.1, r.2.1, (r.2.2, st.2 ++ [DriverOp.FT_Create index]))
  FT_GetChipConfiguration := fun st handle =>
    let r := f.FT_GetChipConfiguration st.1 handle
    (r.1, r.2.1, (r.2.2, st.2 ++ [DriverOp.FT_GetChipConfiguration handle]))
  FT_SetPipeTimeout := fun st handle ep ms =>
    let r := f.FT_SetPipeTimeout st.1 handle ep ms
    (r.1, (r.2, st.2 ++ [DriverOp.FT_SetPipeTimeout handle ep ms]))
  FT_AbortPipe := fun st handle ep =>
    let r := f.FT_AbortPipe st.1 handle ep
    (r.1, (r.2, st.2 ++ [DriverOp.FT_AbortPipe handle ep]))
  FT_SetStreamPipe := fun st handle =>
    let r := f.FT_SetStreamPipe st.1 handle
    (r.1, (r.2, st.2 ++ [DriverOp.FT_SetStreamPipe handle]))
  FT_Close := fun st handle =>
    let r := f.FT_Close st.1 handle
    (r.1, (r.2, st.2 ++ [DriverOp.FT_Close handle]))

/-- The function `set_endpoint_timeout(handle, ep, ms)`. -/
def set_endpoint_timeout {δ : Type} (f : FTDriver δ) (x : δ) (handle ep ms : Nat) :
    ErrorCode × δ :=
  let r := f.FT_SetPipeTimeout x handle ep ms
  (usb.make_error_code r.1, r.2)

/-- The function `usb::get_device_info_by_serial(serial)`: the first entry of
the device list with that serial number, `DeviceInfo{}` when there is none. -/
def usb.get_device_info_by_serial {δ : Type} (f : FTDriver δ) (x : δ) (serial : String) :
    usb.DeviceInfo × δ :=
  let r := f.get_device_info_list x
  match r.1.find? (fun di => di.serial == serial) with
  | some di => (di, r.2)
  | none => ({}, r.2)

/-- The function `usb::check_chip_configuration(handle)`. -/
def usb.check_chip_configuration {δ : Type} (C : FTConstants) (f : FTDriver δ) (x : δ)
    (handle : Nat) : ErrorCode × δ :=
  let r := f.FT_GetChipConfiguration x handle
  let conf := r.2.1
  if r.1 ≠ FT_STATUS.FT_OK then
    (usb.make_error_code r.1, r.2.2)
  else if conf.FIFOClock ≠ C.CONFIGURATION_FIFO_CLK_100
      ∨ conf.FIFOMode ≠ C.CONFIGURATION_FIFO_MODE_600
      ∨ conf.ChannelConfig ≠ C.CONFIGURATION_CHANNEL_CONFIG_2
      ∨ conf.PowerAttributes &&& 0x40 = 0
      ∨ conf.PowerAttributes &&& 0x20 = 0
      ∨ conf.OptionalFeatureSupport ≠ C.CONFIGURATION_OPTIONAL_FEATURE_DISABLEALL then
    (ErrorCode.MVLC MVLCErrorCode.USBChipConfigError, r.2.2)
  else
    (ErrorCode.NoError, r.2.2)

/-- The enum `ConnectMode` of `usb::Impl`. -/
inductive usb.ConnectMode.Mode
  | First
  | ByIndex
  | BySerial
  deriving DecidableEq, Repr

/-- The member `m_connectMode` of `usb::Impl`: mode, index and serial. -/
structure usb.ConnectMode where
  mode : usb.ConnectMode.Mode := usb.ConnectMode.Mode.First
  index : Nat := 0
  serial : String := ""
  deriving DecidableEq, Repr

/-- The data members of `usb::Impl` that `connect`, `disconnect` and
`isConnected` use; `m_handle` is a `void *`, 0 the null pointer. -/
structure usb.Impl where
  m_connectMode : usb.ConnectMode := {}
  m_handle : Nat := 0
  m_deviceInfo : usb.DeviceInfo := {}
  m_disableTriggersOnConnect : Bool := false
  deriving DecidableEq, Repr

/-- The member `usb::Impl::isConnected()`. -/
def usb.Impl.isConnected (impl : usb.Impl) : Bool :=
  impl.m_handle ≠ 0

/-- The member `usb::Impl::disableTriggersOnConnect()`, declared in
`mvlc_impl_usb.h`; as in `eth::Impl` it returns the flag. -/
def usb.Impl.disableTriggersOnConnect (impl : usb.Impl) : Bool :=
  impl.m_disableTriggersOnConnect

/-- The member `usb::Impl::closeHandle()`. -/
def usb.Impl.closeHandle {δ : Type} (f : FTDriver δ) (impl : usb.Impl) (x : δ) :
    ErrorCode × usb.Impl × δ :=
  if impl.m_handle ≠ 0 then
    let r := f.FT_Close x impl.m_handle
    (usb.make_error_code r.1, { impl with m_handle := 0 }, r.2)
  else
    (usb.make_error_code FT_STATUS.FT_OK, impl, x)

/-- The member `usb::Impl::abortPipe(pipe, dir)`; `win32` tells whether the
sources are compiled with `__WIN32` defined. -/
def usb.Impl.abortPipe {δ : Type} (win32 : Bool) (f : FTDriver δ) (impl : usb.Impl) (x : δ)
    (pipe : Pipe) (dir : usb.EndpointDirection) : ErrorCode × δ :=
  if win32 then
    let r := f.FT_AbortPipe x impl.m_handle (get_endpoint pipe dir)
    if (usb.make_error_code r.1).isError then (usb.make_error_code r.1, r.2)
    else (ErrorCode.NoError, r.2)
  else
    (ErrorCode.NoError, x)

/-- The conversion `static_cast<int>` of an `unsigned`. -/
def staticCastInt (n : Nat) : Int :=
  if n % 4294967296 < 2147483648 then (n % 4294967296 : Nat)
  else ((n % 4294967296 : Nat) : Int) - 4294967296

/-- The `switch (m_connectMode.mode)` of `usb::Impl::connect()`: the status
`st`, the `DeviceInfo` chosen and the content of `m_handle` afterwards. -/
def usb.Impl.openDevice {δ : Type} (f : FTDriver δ) (impl : usb.Impl) (x : δ) :
    FT_STATUS × usb.DeviceInfo × Nat × δ :=
  match impl.m_connectMode.mode with
  | usb.ConnectMode.Mode.First =>
    let r := f.get_device_info_list x
    match r.1 with
    | [] => (FT_STATUS.FT_DEVICE_NOT_FOUND, {}, impl.m_handle, r.2)
    | devInfo :: _ =>
      let c := f.FT_Create r.2 devInfo.index impl.m_handle
      (c.1, devInfo, c.2.1, c.2.2)
  | usb.ConnectMode.Mode.ByIndex =>
    let r := f.get_device_info_list x
    match r.1.find? (fun info => info.index == staticCastInt impl.m_connectMode.index) with
    | none => (FT_STATUS.FT_DEVICE_NOT_FOUND, {}, impl.m_handle, r.2)
    | some devInfo =>
      let c := f.FT_Create r.2 devInfo.index impl.m_handle
      (c.1, devInfo, c.2.1, c.2.2)
  | usb.ConnectMode.Mode.BySerial =>
    let r := usb.get_device_info_by_serial f x impl.m_connectMode.serial
    if f.deviceInfoValid r.1 then
      let c := f.FT_Create r.2 r.1.index impl.m_handle
      (c.1, r.1, c.2.1, c.2.2)
    else
      (FT_STATUS.FT_DEVICE_NOT_FOUND, r.1, impl.m_handle, r.2)

/-- The loop `for (auto pipe: { Pipe::Command, Pipe::Data })` of
`usb::Impl::connect()` setting the read timeouts to 100 ms: the first error, if
any, and the driver state. -/
def usb.Impl.setReadTimeouts {δ : Type} (f : FTDriver δ) (impl : usb.Impl) :
    List Pipe → δ → ErrorCode × δ
  | [], x => (ErrorCode.NoError, x)
  | pipe :: rest, x =>
    let r := set_endpoint_timeout f x impl.m_handle
      (get_endpoint pipe usb.EndpointDirection.In) 100
    if r.1.isError then r else usb.Impl.setReadTimeouts f impl rest r.2

/-- The nested loops of `usb::Impl::connect()` over pipes and directions
calling `abortPipe` (compiled under `__WIN32`): the first error, if any, and
the driver state. -/
def usb.Impl.abortPipes {δ : Type} (win32 : Bool) (f : FTDriver δ) (impl : usb.Impl) :
    List (Pipe × usb.EndpointDirection) → δ → ErrorCode × δ
  | [], x => (ErrorCode.NoError, x)
  | (pipe, dir) :: rest, x =>
    let r := usb.Impl.abortPipe win32 f impl x pipe dir
    if r.1.isError then r else usb.Impl.abortPipes win32 f impl rest r.2

/-- The member `usb::Impl::connect()`.  `win32` tells whether the sources are
compiled with `__WIN32` defined (`USB_WIN_USE_STREAMPIPE` is 1);
`post_connect_cleanup` is the function of that name, entering as a parameter;
none of the members of `Impl` it calls assigns `m_handle`. -/
def usb.Impl.connect {δ : Type} (win32 : Bool) (C : FTConstants) (f : FTDriver δ)
    (post_connect_cleanup : usb.Impl → δ → ErrorCode × δ) (impl : usb.Impl) (x : δ) :
    ErrorCode × usb.Impl × δ :=
  if impl.isConnected then
    (ErrorCode.MVLC MVLCErrorCode.IsConnected, impl, x)
  else
    let r0 : FT_STATUS × δ :=
      if win32 then (FT_STATUS.FT_OK, x) else f.FT_SetTransferParams x (get_fifo_id Pipe.Data)
    if (usb.make_error_code r0.1).isError then
      (usb.make_error_code r0.1, impl, r0.2)
    else
      let o := usb.Impl.openDevice f impl r0.2
      let impl := { impl with m_handle := o.2.2.1 }
      if (usb.make_error_code o.1).isError then
        (usb.make_error_code o.1, impl, o.2.2.2)
      else
        let impl := { impl with m_deviceInfo := o.2.1 }
        let cc := usb.check_chip_configuration C f o.2.2.2 impl.m_handle
        if cc.1.isError then
          let cl := usb.Impl.closeHandle f impl cc.2
          (cc.1, cl.2.1, cl.2.2)
        else
          let t := usb.Impl.setReadTimeouts f impl [Pipe.Command, Pipe.Data] cc.2
          if t.1.isError then
            let cl := usb.Impl.closeHandle f impl t.2
            (t.1, cl.2.1, cl.2.2)
          else
            let a := usb.Impl.abortPipes win32 f impl
              [(Pipe.Command, usb.EndpointDirection.In), (Pipe.Command, usb.EndpointDirection.Out),
               (Pipe.Data, usb.EndpointDirection.In), (Pipe.Data, usb.EndpointDirection.Out)] t.2
            if a.1.isError then
              let cl := usb.Impl.closeHandle f impl a.2
              (a.1, cl.2.1, cl.2.2)
            else
              let sp : FT_STATUS × δ :=
                if win32 then f.FT_SetStreamPipe a.2 impl.m_handle else (FT_STATUS.FT_OK, a.2)
              if (usb.make_error_code sp.1).isError then
                let cl := usb.Impl.closeHandle f impl sp.2
                (usb.make_error_code sp.1, cl.2.1, cl.2.2)
              else
                let pc : ErrorCode × δ :=
                  if impl.disableTriggersOnConnect then post_connect_cleanup impl sp.2
                  else (ErrorCode.NoError, sp.2)
                if pc.1.isError then
                  (pc.1, impl, pc.2)
                else
                  let z : ErrorCode × δ :=
                    if win32 then (ErrorCode.NoError, pc.2)
                    else set_endpoint_timeout f pc.2 impl.m_handle
                      (get_endpoint Pipe.Command usb.EndpointDirection.In) 0
                  if z.1.isError then
                    let cl := usb.Impl.closeHandle f impl z.2
                    (z.1, cl.2.1, cl.2.2)
                  else
                    (ErrorCode.NoError, impl, z.2)

/-- The member `usb::Impl::disconnect()`. -/
def usb.Impl.disconnect {δ : Type} (f : FTDriver δ) (impl : usb.Impl) (x : δ) :
    ErrorCode × usb.Impl × δ :=
  if ¬ impl.isConnected then
    (ErrorCode.MVLC MVLCErrorCode.IsDisconnected, impl, x)
  else
    usb.Impl.closeHandle f impl x

/-- A driver without state and without devices whose calls all report
`FT_OK`. -/
def nullDriver : FTDriver Unit where
  FT_SetTransferParams := fun _ _ => (FT_STATUS.FT_OK, ())
  get_device_info_list := fun _ => ([], ())
  deviceInfoValid := fun di => decide (0 ≤ di.index)
  FT_Create := fun _ _ handle => (FT_STATUS.FT_OK, handle, ())
  FT_GetChipConfiguration := fun _ _ => (FT_STATUS.FT_OK, {}, ())
  FT_SetPipeTimeout := fun _ _ _ _ => (FT_STATUS.FT_OK, ())
  FT_AbortPipe := fun _ _ _ => (FT_STATUS.FT_OK, ())
  FT_SetStreamPipe := fun _ _ => (FT_STATUS.FT_OK, ())
  FT_Close := fun _ _ => (FT_STATUS.FT_OK, ())

/-- Explicit values for the constants of the vendor library. -/
def ftConstants : FTConstants where
  CONFIGURATION_FIFO_CLK_100 := 0
  CONFIGURATION_FIFO_MODE_600 := 1
  CONFIGURATION_CHANNEL_CONFIG_2 := 2
  CONFIGURATION_OPTIONAL_FEATURE_DISABLEALL := 0

/-- The function `post_connect_cleanup` instrumented with the log of
`FTDriver.recording`: the call behaves as `cleanup` on the driver state and is
appended to the log as one entry standing for all its device operations. -/
def recordCleanup {δ : Type} (cleanup : usb.Impl → δ → ErrorCode × δ) :
    usb.Impl → δ × List DriverOp → ErrorCode × (δ × List DriverOp) :=
  fun impl st =>
    let r := cleanup impl st.1
    (r.1, (r.2, st.2 ++ [DriverOp.post_connect_cleanup]))

/-- A `post_connect_cleanup` that succeeds without touching the driver. -/
def nullCleanup : usb.Impl → Unit → ErrorCode × Unit :=
  fun _ _ => (ErrorCode.NoError, ())

/-! ## Error classification (`FTErrorCategory`, `ErrorType`) -/

/-- Modelled from the spec: the enum `ErrorType` is declared in `mvlc_error.h`,
outside the sources at hand.  `Success`, `ConnectionError` and `Timeout` are the
members the sources name; `Other` stands for the members they do not name. -/
inductive ErrorType
  | Success
  | ConnectionError
  | Timeout
  | Other (n : Nat)
  deriving DecidableEq, Repr

/-- The member `FTErrorCategory::default_error_condition(ev)` on the enumerated
values of `_FT_STATUS`, case group by case group as in the source. -/
def FTErrorCategory.default_error_condition : FT_STATUS → ErrorType
  | FT_STATUS.FT_OK => ErrorType.Success
  | FT_STATUS.FT_INVALID_HANDLE => ErrorType.ConnectionError
  | FT_STATUS.FT_DEVICE_NOT_FOUND => ErrorType.ConnectionError
  | FT_STATUS.FT_DEVICE_NOT_OPENED => ErrorType.ConnectionError
  | FT_STATUS.FT_DEVICE_NOT_CONNECTED => ErrorType.ConnectionError
  | FT_STATUS.FT_IO_ERROR => ErrorType.ConnectionError
  | FT_STATUS.FT_INSUFFICIENT_RESOURCES => ErrorType.ConnectionError
  | FT_STATUS.FT_INVALID_PARAMETER => ErrorType.ConnectionError
  | FT_STATUS.FT_INVALID_BAUD_RATE => ErrorType.ConnectionError
  | FT_STATUS.FT_DEVICE_NOT_OPENED_FOR_ERASE => ErrorType.ConnectionError
  | FT_STATUS.FT_DEVICE_NOT_OPENED_FOR_WRITE => ErrorType.ConnectionError
  | FT_STATUS.FT_FAILED_TO_WRITE_DEVICE => ErrorType.ConnectionError
  | FT_STATUS.FT_EEPROM_READ_FAILED => ErrorType.ConnectionError
  | FT_STATUS.FT_EEPROM_WRITE_FAILED => ErrorType.ConnectionError
  | FT_STATUS.FT_EEPROM_ERASE_FAILED => ErrorType.ConnectionError
  | FT_STATUS.FT_EEPROM_NOT_PRESENT => ErrorType.ConnectionError
  | FT_STATUS.FT_EEPROM_NOT_PROGRAMMED => ErrorType.ConnectionError
  | FT_STATUS.FT_INVALID_ARGS => ErrorType.ConnectionError
  | FT_STATUS.FT_NOT_SUPPORTED => ErrorType.ConnectionError
  | FT_STATUS.FT_NO_MORE_ITEMS => ErrorType.ConnectionError
  | FT_STATUS.FT_TIMEOUT => ErrorType.Timeout
  | FT_STATUS.FT_OPERATION_ABORTED => ErrorType.ConnectionError
  | FT_STATUS.FT_RESERVED_PIPE => ErrorType.ConnectionError
  | FT_STATUS.FT_INVALID_CONTROL_REQUEST_DIRECTION => ErrorType.ConnectionError
  | FT_STATUS.FT_INVALID_CONTROL_REQUEST_TYPE => ErrorType.ConnectionError
  | FT_STATUS.FT_IO_PENDING => ErrorType.ConnectionError
  | FT_STATUS.FT_IO_INCOMPLETE => ErrorType.ConnectionError
  | FT_STATUS.FT_HANDLE_EOF => ErrorType.ConnectionError
  | FT_STATUS.FT_BUSY => ErrorType.ConnectionError
  | FT_STATUS.FT_NO_SYSTEM_RESOURCES => ErrorType.ConnectionError
  | FT_STATUS.FT_DEVICE_LIST_NOT_READY => ErrorType.ConnectionError
  | FT_STATUS.FT_INCORRECT_DEVICE_PATH => ErrorType.ConnectionError
  | FT_STATUS.FT_OTHER_ERROR => ErrorType.ConnectionError

/-- The error categories defined in `mvlc_error.cc`, outside the sources at
hand: the `ErrorType` of an `MVLCErrorCode` and of a code of any further
category. -/
structure ErrorCategories where
  mvlc : MVLCErrorCode → ErrorType
  other : Nat → ErrorType

/-- The `ErrorType` that a `std::error_code` compares equal to
(`ec == ErrorType::...`): the default error condition of its category.  The
default-constructed code belongs to the system category and compares equal to
no `ErrorType`. -/
def ErrorCode.errorType (E : ErrorCategories) : ErrorCode → Option ErrorType
  | ErrorCode.NoError => none
  | ErrorCode.MVLC e => some (E.mvlc e)
  | ErrorCode.FT st => some (FTErrorCategory.default_error_condition st)
  | ErrorCode.Other code => some (E.other code)

/-- The comparison `ec == ErrorType::ConnectionError`. -/
def ErrorCode.isConnectionError (E : ErrorCategories) (ec : ErrorCode) : Bool :=
  ec.errorType E = some ErrorType.ConnectionError

/-- Explicit error categories for evaluation: the two lifecycle codes
`IsConnected` and `IsDisconnected` are connection errors, every other code is
of a type the sources do not name. -/
def exampleCategories : ErrorCategories where
  mvlc := fun e =>
    if e = MVLCErrorCode.IsConnected ∨ e = MVLCErrorCode.IsDisconnected then
      ErrorType.ConnectionError
    else ErrorType.Other 0
  other := fun _ => ErrorType.Other 1

/-- A driver without state that lists one device, opens it with the handle 1
and reports the chip configuration `check_chip_configuration` asks for; every
call reports `FT_OK`. -/
def oneDeviceDriver : FTDriver Unit where
  FT_SetTransferParams := fun _ _ => (FT_STATUS.FT_OK, ())
  get_device_info_list := fun _ =>
    ([{ index := 0, serial := "0001", description := "MVLC" }], ())
  deviceInfoValid := fun di => decide (0 ≤ di.index)
  FT_Create := fun _ _ _ => (FT_STATUS.FT_OK, 1, ())
  FT_GetChipConfiguration := fun _ _ =>
    (FT_STATUS.FT_OK,
      { FIFOClock := 0, FIFOMode := 1, ChannelConfig := 2, PowerAttributes := 0x60,
        OptionalFeatureSupport := 0 }, ())
  FT_SetPipeTimeout := fun _ _ _ _ => (FT_STATUS.FT_OK, ())
  FT_AbortPipe := fun _ _ _ => (FT_STATUS.FT_OK, ())
  FT_SetStreamPipe := fun _ _ => (FT_STATUS.FT_OK, ())
  FT_Close := fun _ _ => (FT_STATUS.FT_OK, ())

/-- A `post_connect_cleanup` that fails with `FT_DEVICE_NOT_CONNECTED` without
touching the driver. -/
def failingCleanup : usb.Impl → Unit → ErrorCode × Unit :=
  fun _ _ => (ErrorCode.FT FT_STATUS.FT_DEVICE_NOT_CONNECTED, ())

/-! ## The stack error poller (`mvlc.cc`) -/

/-- What `stack_error_poller` uses of its surroundings, as functions on a world
state `σ` and on the counters `κ` (`StackErrorCounters`): the load of the
atomic flag `quit`, `MVLCDialog::readKnownBuffer` (receiving the current
content of `buffer` and returning the content after the call),
`update_stack_error_counters` and `std::this_thread::sleep_for` with its
duration in milliseconds.  The bodies of `readKnownBuffer` and
`update_stack_error_counters` are outside the sources at hand.  The two mutexes
have no effect on the values computed and do not appear. -/
structure PollerAPI (σ κ : Type) where
  quit : σ → Bool
  readKnownBuffer : σ → (buffer : List Nat) → ErrorCode × List Nat × σ
  update_stack_error_counters : κ → (buffer : List Nat) → κ
  sleep_for : σ → (ms : Nat) → σ

/-- The variables of `stack_error_poller` that live across iterations, the
world and the shared counters. -/
structure PollerState (σ κ : Type) where
  world : σ
  counters : κ
  buffer : List Nat := []
  ec : ErrorCode := ErrorCode.NoError

/-- The constant `Default_PollInterval`, in milliseconds. -/
def Default_PollInterval : Nat := 1000

/-- The body of the `while (!quit)` loop of `stack_error_poller`. -/
def stack_error_poller_iteration {σ κ : Type} (E : ErrorCategories) (P : PollerAPI σ κ)
    (st : PollerState σ κ) : PollerState σ κ :=
  let r := P.readKnownBuffer st.world st.buffer
  let ec := r.1
  let buffer := r.2.1
  let counters :=
    if ¬ buffer.isEmpty then P.update_stack_error_counters st.counters buffer
    else st.counters
  let world :=
    if ec.isConnectionError E ∨ buffer.isEmpty then P.sleep_for r.2.2 Default_PollInterval
    else r.2.2
  { world := world, counters := counters, buffer := buffer, ec := ec }

/-- The loop `while (!quit)` of `stack_error_poller`.  The loop is unbounded in
the source; `fuel` bounds the number of evaluations of the loop condition and
running out of it gives `none`. -/
def stack_error_poller_loop {σ κ : Type} (E : ErrorCategories) (P : PollerAPI σ κ) :
    (fuel : Nat) → PollerState σ κ → Option (PollerState σ κ)
  | 0, _ => none
  | fuel + 1, st =>
    if ¬ P.quit st.world then
      stack_error_poller_loop E P fuel (stack_error_poller_iteration E P st)
    else
      some st

/-- The function `stack_error_poller`, started with the world `world` and the
counters `counters`: the empty `buffer` and `ec = {}`, then the loop. -/
def stack_error_poller {σ κ : Type} (E : ErrorCategories) (P : PollerAPI σ κ)
    (fuel : Nat) (world : σ) (counters : κ) : Option (PollerState σ κ) :=
  stack_error_poller_loop E P fuel { world := world, counters := counters }

/-- One call made by the poller on its surroundings; a read also records the
error code and the buffer the call left. -/
inductive PollerOp
  | readKnownBuffer (ec : ErrorCode) (buffer : List Nat)
  | sleep_for (ms : Nat)
  deriving DecidableEq, Repr

/-- The surroundings `P` instrumented with logs: each read and each sleep is
appended, in call order, to the list kept next to the world, and each update of
the counters appends the buffer it was given to the list kept next to the
counters. -/
def PollerAPI.recording {σ κ : Type} (P : PollerAPI σ κ) :
    PollerAPI (σ × List PollerOp) (κ × List (List Nat)) where
  quit := fun w => P.quit w.1
  readKnownBuffer := fun w buffer =>
    let r := P.readKnownBuffer w.1 buffer
    (r.1, r.2.1, (r.2.2, w.2 ++ [PollerOp.readKnownBuffer r.1 r.2.1]))
  update_stack_error_counters := fun c buffer =>
    (P.update_stack_error_counters c.1 buffer, c.2 ++ [buffer])
  sleep_for := fun w ms => (P.sleep_for w.1 ms, w.2 ++ [PollerOp.sleep_for ms])

/-- Surroundings for explicit inputs.  The world counts the reads made so far;
the first read times out with an empty buffer, the second fails with
`FT_DEVICE_NOT_CONNECTED` and leaves one word, the third fails with the timeout
code and leaves one word, the fourth succeeds with two words; the quit flag
reads as set from then on.  The counters are the number of words folded in so
far. -/
def scriptedPoller : PollerAPI Nat Nat where
  quit := fun w => decide (4 ≤ w)
  readKnownBuffer := fun w _ =>
    if w = 0 then (ErrorCode.FT FT_STATUS.FT_TIMEOUT, [], w + 1)
    else if w = 1 then (ErrorCode.FT FT_STATUS.FT_DEVICE_NOT_CONNECTED, [0xF7000001], w + 1)
    else if w = 2 then (ErrorCode.FT FT_STATUS.FT_TIMEOUT, [0xF7000002], w + 1)
    else (ErrorCode.NoError, [0xF7000003, 0xF7000004], w + 1)
  update_stack_error_counters := fun c buffer => c + buffer.length
  sleep_for := fun w _ => w

/-! ## `post_connect_cleanup` (`mvlc_impl_usb.cc`) -/

/-- The constant `DisableTriggerRetryCount` of `post_connect_cleanup`. -/
def DisableTriggerRetryCount : Nat := 5

/-- The constant `ReadDataPipeMaxWait` of `post_connect_cleanup`, ten seconds,
in nanoseconds. -/
def ReadDataPipeMaxWait : Int := 10000000000

/-- What `post_connect_cleanup` uses of the `Impl` it is given, as functions on
a state `σ` shared by its two threads: the dialog `MVLCDialog_internal dlg(&impl)`
(its class is outside the sources at hand), `Impl::read_unbuffered` returning
the error code and `bytesTransferred`, and `Clock::now()` in nanoseconds. -/
structure CleanupAPI (σ : Type) where
  dlg : DialogAPI σ
  read_unbuffered : σ → (pipe : Pipe) → (size : Nat) → ErrorCode × Nat × σ
  now : σ → Int × σ

/-- Where the thread started by `std::async` stands: in the `for` loop with
the counter `try_`, or returned from the lambda with an error code. -/
inductive TaskState
  | running (try_ : Nat)
  | returned (ec : ErrorCode)
  deriving DecidableEq, Repr

/-- One round of the `for` loop of the lambda of `post_connect_cleanup`: the
loop condition, the body and the increment.  `fuel` bounds the loop of
`disable_all_triggers_and_daq_mode`. -/
def disableTriggersStep {σ : Type} (K : Constants) (E : ErrorCategories) (dlg : DialogAPI σ)
    (fuel : Nat) (try_ : Nat) (s : σ) : Option (TaskState × σ) :=
  if try_ < DisableTriggerRetryCount then
    match disable_all_triggers_and_daq_mode K dlg s fuel with
    | none => none
    | some r =>
      if r.1.isError then
        if r.1.isConnectionError E then some (TaskState.returned r.1, r.2)
        else some (TaskState.running (try_ + 1), r.2)
      else some (TaskState.returned ErrorCode.NoError, r.2)
  else some (TaskState.returned ErrorCode.NoError, s)

/-- The rounds of the lambda from a given point on, run without interruption;
`steps` bounds their number and running out of it gives `none`. -/
def disableTriggersTask_loop {σ : Type} (K : Constants) (E : ErrorCategories)
    (dlg : DialogAPI σ) (fuel : Nat) : (steps : Nat) → TaskState → σ → Option (ErrorCode × σ)
  | _, TaskState.returned ec, s => some (ec, s)
  | 0, TaskState.running _, _ => none
  | steps + 1, TaskState.running try_, s =>
    match disableTriggersStep K E dlg fuel try_ s with
    | none => none
    | some r => disableTriggersTask_loop K E dlg fuel steps r.1 r.2

/-- The lambda of `post_connect_cleanup` that disables the triggers, run on its
own: at most `DisableTriggerRetryCount` rounds with a call and the round that
finds the loop condition false. -/
def disableTriggersTask {σ : Type} (K : Constants) (E : ErrorCategories) (dlg : DialogAPI σ)
    (fuel : Nat) (s : σ) : Option (ErrorCode × σ) :=
  disableTriggersTask_loop K E dlg fuel (DisableTriggerRetryCount + 1) (TaskState.running 0) s

/-- The variables of the thread of `post_connect_cleanup` that drains the data
pipe: `ec`, `totalBytesTransferred` and `bytesTransferred` (`size_t`), `tStart`
once it has been read, and whether the `do ... while` loop has been left. -/
structure DrainState where
  ec : ErrorCode := ErrorCode.NoError
  totalBytesTransferred : Nat := 0
  bytesTransferred : Nat := 0
  tStart : Option Int := none
  finished : Bool := false
  deriving DecidableEq, Repr

/-- One step of the draining thread: the read of `tStart`, or one round of the
`do ... while` loop.  `DataBufferSize` is `usb::USBStreamPipeReadSize`, a
constant of `mvlc_impl_usb.h`. -/
def drainStep {σ : Type} (E : ErrorCategories) (A : CleanupAPI σ) (DataBufferSize : Nat)
    (m : DrainState) (s : σ) : DrainState × σ :=
  match m.tStart with
  | none =>
    let t := A.now s
    ({ m with tStart := some t.1 }, t.2)
  | some tStart =>
    let r := A.read_unbuffered s Pipe.Data DataBufferSize
    let m := { m with
      bytesTransferred := r.2.1
      ec := r.1
      totalBytesTransferred := (m.totalBytesTransferred + r.2.1) % 18446744073709551616 }
    let t := A.now r.2.2
    let elapsed := t.1 - tStart
    if elapsed > ReadDataPipeMaxWait then
      ({ m with finished := true }, t.2)
    else if m.ec.isConnectionError E then
      ({ m with finished := true }, t.2)
    else if m.bytesTransferred > 0 then
      (m, t.2)
    else
      ({ m with finished := true }, t.2)

/-- The two threads of `post_connect_cleanup` interleaved step by step.  While
both threads have steps left, the head of `schedule` chooses the one to step
(`true` the lambda, `false` or an exhausted schedule the draining thread);
a thread that has none left waits for the other.  When the draining loop has
been left and the lambda has returned, `ec = f.get()` is returned.  `steps`
bounds the number of steps and running out of it gives `none`. -/
def post_connect_cleanup_run {σ : Type} (K : Constants) (E : ErrorCategories)
    (A : CleanupAPI σ) (DataBufferSize : Nat) (fuel : Nat) :
    (steps : Nat) → (schedule : List Bool) → TaskState → DrainState → σ →
      Option (ErrorCode × σ)
  | 0, _, _, _, _ => none
  | steps + 1, schedule, task, m, s =>
    match task with
    | TaskState.returned ec =>
      if m.finished then some (ec, s)
      else
        let r := drainStep E A DataBufferSize m s
        post_connect_cleanup_run K E A DataBufferSize fuel steps schedule.tail task r.1 r.2
    | TaskState.running try_ =>
      if m.finished ∨ schedule.headD false then
        match disableTriggersStep K E A.dlg fuel try_ s with
        | none => none
        | some r =>
          post_connect_cleanup_run K E A DataBufferSize fuel steps schedule.tail r.1 m r.2
      else
        let r := drainStep E A DataBufferSize m s
        post_connect_cleanup_run K E A DataBufferSize fuel steps schedule.tail task r.1 r.2

/-- The function `post_connect_cleanup(impl)` under the interleaving
`schedule` of its two threads. -/
def post_connect_cleanup {σ : Type} (K : Constants) (E : ErrorCategories)
    (A : CleanupAPI σ) (DataBufferSize : Nat) (fuel steps : Nat) (schedule : List Bool)
    (s : σ) : Option (ErrorCode × σ) :=
  post_connect_cleanup_run K E A DataBufferSize fuel steps schedule (TaskState.running 0) {} s

/-- The state left by `k` consecutive calls of
`disable_all_triggers_and_daq_mode` on the device `d`, starting from `s`: each
call is the one transaction of `disableAllCommands`. -/
def attemptState {σ : Type} (K : Constants) (d : DialogAPI σ) (s : σ) : Nat → σ
  | 0 => s
  | k + 1 => (d.superTransaction (attemptState K d s k) ⟨disableAllCommands K⟩ []).2.2

/-- The error code of the `k`-th (counted from 0) of consecutive calls of
`disable_all_triggers_and_daq_mode` on the device `d`, starting from `s`. -/
def attemptResult {σ : Type} (K : Constants) (d : DialogAPI σ) (s : σ) (k : Nat) : ErrorCode :=
  (d.superTransaction (attemptState K d s k) ⟨disableAllCommands K⟩ []).1

/-- An attempt that failed with an error of type `ConnectionError`. -/
def ErrorCode.isFatal (E : ErrorCategories) (ec : ErrorCode) : Bool :=
  ec.isError && ec.isConnectionError E

/-- An attempt that failed with an error of another type. -/
def ErrorCode.isIgnored (E : ErrorCategories) (ec : ErrorCode) : Bool :=
  ec.isError && !ec.isConnectionError E

/-- One call made by `post_connect_cleanup` on a recording `Impl`. -/
inductive CleanupOp
  | superTransaction (ec : ErrorCode)
  | read_unbuffered (pipe : Pipe) (ec : ErrorCode) (bytesTransferred : Nat)
  | now
  deriving DecidableEq, Repr

/-- An `Impl` for explicit inputs whose state is the list of the calls made on
it.  Every dialog operation answers with `command`, every read of a pipe fails
with `FT_IO_ERROR` and transfers nothing, the clock stands still. -/
def dataPipeFailingImpl (command : ErrorCode) : CleanupAPI (List CleanupOp) where
  dlg :=
    { readRegister := fun s _ value => (command, value, s)
      writeRegister := fun s _ _ => (command, s)
      uploadStack := fun s _ _ _ => (command, s)
      superTransaction := fun s _ responseBuffer =>
        (command, responseBuffer, s ++ [CleanupOp.superTransaction command]) }
  read_unbuffered := fun s pipe _ =>
    (ErrorCode.FT FT_STATUS.FT_IO_ERROR, 0,
      s ++ [CleanupOp.read_unbuffered pipe (ErrorCode.FT FT_STATUS.FT_IO_ERROR) 0])
  now := fun s => (0, s ++ [CleanupOp.now])

/-- A device for explicit inputs whose state counts the super transactions made
so far: the first `failures` of them time out, the later ones succeed. -/
def timeoutDevice (failures : Nat) : DialogAPI Nat where
  readRegister := fun s _ value => (ErrorCode.NoError, value, s)
  writeRegister := fun s _ _ => (ErrorCode.NoError, s)
  uploadStack := fun s _ _ _ => (ErrorCode.NoError, s)
  superTransaction := fun s _ responseBuffer =>
    (if s < failures then ErrorCode.FT FT_STATUS.FT_TIMEOUT else ErrorCode.NoError,
      responseBuffer, s + 1)

/-! ## Vocabulary for the statements about the stack ids of `setup_readout_stacks` -/

/-- The device calls of the loop iterations for the given stacks as the
specification words them: the stack counted `k` from the start of the input is
uploaded and its upload address, masked, is written to
`get_offset_register(ImmediateStackID + 1 + k)`. -/
def consecutiveOps (K : Constants) (make_stack_buffer : StackCommandBuilder → List Nat) :
    List StackCommandBuilder → (k : Nat) → (uploadWordOffset : Nat) → List DeviceOp
  | [], _, _ => []
  | b :: rest, k, uploadWordOffset =>
    [DeviceOp.uploadStack (outputPipeOf K b) (uploadAddressAt K uploadWordOffset) b,
     DeviceOp.writeRegister (K.get_offset_register (K.ImmediateStackID + 1 + k))
       ((uploadAddressAt K uploadWordOffset &&& K.StackOffsetBitMaskBytes) % 4294967296)] ++
      consecutiveOps K make_stack_buffer rest (k + 1)
        ((uploadWordOffset + (make_stack_buffer b).length + 1) % 65536)

/-- Whether the loop iterations for the given stacks all run to their end on the
device `d` from the state `s`: each stack finds a free slot, passes the check
against `StackMemoryEnd`, and its upload and the write of its offset register
succeed. -/
def iterationsComplete {σ : Type} (K : Constants)
    (make_stack_buffer : StackCommandBuilder → List Nat) (d : DialogAPI σ) :
    List StackCommandBuilder → (stackId : Nat) → (uploadWordOffset : Nat) → σ → Bool
  | [], _, _, _ => true
  | b :: rest, stackId, uploadWordOffset, s =>
    let r1 := d.uploadStack s (outputPipeOf K b) (uploadAddressAt K uploadWordOffset) b
    let r2 := d.writeRegister r1.2 (K.get_offset_register stackId % 65536)
      ((uploadAddressAt K uploadWordOffset &&& K.StackOffsetBitMaskBytes) % 4294967296)
    decide (stackId < K.StackCount) &&
      decide (endAddressAt K uploadWordOffset (make_stack_buffer b).length < K.StackMemoryEnd) &&
      !r1.1.isError && !r2.1.isError &&
      iterationsComplete K make_stack_buffer d rest ((stackId + 1) % 256)
        ((uploadWordOffset + (make_stack_buffer b).length + 1) % 65536) r2.2

/-- The state of the device `d` after the loop iterations for the given stacks,
run from the state `s`. -/
def stateAfterIterations {σ : Type} (K : Constants)
    (make_stack_buffer : StackCommandBuilder → List Nat) (d : DialogAPI σ) :
    List StackCommandBuilder → (stackId : Nat) → (uploadWordOffset : Nat) → σ → σ
  | [], _, _, s => s
  | b :: rest, stackId, uploadWordOffset, s =>
    let r1 := d.uploadStack s (outputPipeOf K b) (uploadAddressAt K uploadWordOffset) b
    let r2 := d.writeRegister r1.2 (K.get_offset_register stackId % 65536)
      ((uploadAddressAt K uploadWordOffset &&& K.StackOffsetBitMaskBytes) % 4294967296)
    stateAfterIterations K make_stack_buffer d rest ((stackId + 1) % 256)
      ((uploadWordOffset + (make_stack_buffer b).length + 1) % 65536) r2.2

/-- The upload of the stack `b` that follows the stacks `front` of the input,
on the state the iterations for `front` left. -/
def pendingUpload {σ : Type} (K : Constants)
    (make_stack_buffer : StackCommandBuilder → List Nat) (d : DialogAPI σ)
    (front : List StackCommandBuilder) (b : StackCommandBuilder)
    (stackId : Nat) (uploadWordOffset : Nat) (s : σ) : ErrorCode × σ :=
  d.uploadStack (stateAfterIterations K make_stack_buffer d front stackId uploadWordOffset s)
    (outputPipeOf K b)
    (uploadAddressAt K (wordOffsetAfter make_stack_buffer front uploadWordOffset)) b

/-- The write of the offset register of the stack `b` that follows the stacks
`front` of the input, on the state its upload left. -/
def pendingWrite {σ : Type} (K : Constants)
    (make_stack_buffer : StackCommandBuilder → List Nat) (d : DialogAPI σ)
    (front : List StackCommandBuilder) (b : StackCommandBuilder)
    (stackId : Nat) (uploadWordOffset : Nat) (s : σ) : ErrorCode × σ :=
  d.writeRegister (pendingUpload K make_stack_buffer d front b stackId uploadWordOffset s).2
    (K.get_offset_register (stackId + front.length) % 65536)
    ((uploadAddressAt K (wordOffsetAfter make_stack_buffer front uploadWordOffset)
        &&& K.StackOffsetBitMaskBytes) % 4294967296)

/-! ## Locks and the command-pipe methods of `MVLC` (`mvlc.cc`) -/

/-- The mutexes of `MVLC::Private`: the command-pipe and data-pipe mutexes of
`locks` and `errorPollerSuspendMutex`. -/
inductive MutexId
  | cmd
  | data
  | suspend
  deriving DecidableEq, Repr

/-- The methods of `MVLCDialog` that the methods of `MVLC` delegate to. -/
inductive DialogMethod
  | readRegister
  | writeRegister
  | vmeRead
  | vmeWrite
  | vmeBlockRead
  | uploadStack
  | execImmediateStack
  | readResponse
  | mirrorTransaction
  | stackTransaction
  | readKnownBuffer
  | getResponseBuffer
  deriving DecidableEq, Repr

/-- A call of a method of `MVLCDialog` with the arguments it is given;
reference parameters enter with their current content. -/
inductive DialogCall
  | readRegister (address : Nat) (value : Nat)
  | writeRegister (address : Nat) (value : Nat)
  | vmeRead (address : Nat) (value : Nat) (amod : Nat) (dataWidth : Nat)
  | vmeWrite (address : Nat) (value : Nat) (amod : Nat) (dataWidth : Nat)
  | vmeBlockRead (address : Nat) (amod : Nat) (maxTransfers : Nat) (dest : List Nat)
  | uploadStack (stackOutputPipe : Nat) (stackMemoryOffset : Nat)
      (commands : List StackCommand) (responseDest : List Nat)
  | execImmediateStack (stackMemoryOffset : Nat) (responseDest : List Nat)
  | readResponse (bhv : Nat → Bool) (dest : List Nat)
  | mirrorTransaction (cmdBuffer : List Nat) (responseDest : List Nat)
  | stackTransaction (stackUploadData : List Nat) (responseDest : List Nat)
  | readKnownBuffer (dest : List Nat)
  | getResponseBuffer

/-- The method of `MVLCDialog` that a call goes to. -/
def DialogCall.method : DialogCall → DialogMethod
  | DialogCall.readRegister _ _ => DialogMethod.readRegister
  | DialogCall.writeRegister _ _ => DialogMethod.writeRegister
  | DialogCall.vmeRead _ _ _ _ => DialogMethod.vmeRead
  | DialogCall.vmeWrite _ _ _ _ => DialogMethod.vmeWrite
  | DialogCall.vmeBlockRead _ _ _ _ => DialogMethod.vmeBlockRead
  | DialogCall.uploadStack _ _ _ _ => DialogMethod.uploadStack
  | DialogCall.execImmediateStack _ _ => DialogMethod.execImmediateStack
  | DialogCall.readResponse _ _ => DialogMethod.readResponse
  | DialogCall.mirrorTransaction _ _ => DialogMethod.mirrorTransaction
  | DialogCall.stackTransaction _ _ => DialogMethod.stackTransaction
  | DialogCall.readKnownBuffer _ => DialogMethod.readKnownBuffer
  | DialogCall.getResponseBuffer => DialogMethod.getResponseBuffer

/-- What `MVLC::Private` gives the methods of `MVLC`, as functions on a world
state `σ`: `lock m` is the construction of a `std::unique_lock` on the mutex
`m`, which returns once the mutex is owned, `unlock m` the destruction of that
guard, and `dialog` the call of a method of `MVLCDialog`, whose class is outside
the sources at hand; a call returns the error code and the words it left in its
reference parameter. -/
structure PrivateAPI (σ : Type) where
  lock : σ → MutexId → σ
  unlock : σ → MutexId → σ
  dialog : σ → DialogCall → (ErrorCode × List Nat) × σ

/-- The method `MVLC::readRegister(address, value)`: the guard of `lockCmd()`
is taken, the dialog is called, and the guard is destroyed on return. -/
def MVLC.readRegister {σ : Type} (P : PrivateAPI σ) (w : σ) (address value : Nat) :
    (ErrorCode × List Nat) × σ :=
  let w := P.lock w MutexId.cmd
  let r := P.dialog w (DialogCall.readRegister address value)
  (r.1, P.unlock r.2 MutexId.cmd)

/-- The method `MVLC::writeRegister(address, value)`. -/
def MVLC.writeRegister {σ : Type} (P : PrivateAPI σ) (w : σ) (address value : Nat) :
    (ErrorCode × List Nat) × σ :=
  let w := P.lock w MutexId.cmd
  let r := P.dialog w (DialogCall.writeRegister address value)
  (r.1, P.unlock r.2 MutexId.cmd)

/-- The method `MVLC::vmeRead(address, value, amod, dataWidth)`. -/
def MVLC.vmeRead {σ : Type} (P : PrivateAPI σ) (w : σ) (address value amod dataWidth : Nat) :
    (ErrorCode × List Nat) × σ :=
  let w := P.lock w MutexId.cmd
  let r := P.dialog w (DialogCall.vmeRead address value amod dataWidth)
  (r.1, P.unlock r.2 MutexId.cmd)

/-- The method `MVLC::vmeWrite(address, value, amod, dataWidth)`. -/
def MVLC.vmeWrite {σ : Type} (P : PrivateAPI σ) (w : σ) (address value amod dataWidth : Nat) :
    (ErrorCode × List Nat) × σ :=
  let w := P.lock w MutexId.cmd
  let r := P.dialog w (DialogCall.vmeWrite address value amod dataWidth)
  (r.1, P.unlock r.2 MutexId.cmd)

/-- The method `MVLC::vmeBlockRead(address, amod, maxTransfers, dest)`. -/
def MVLC.vmeBlockRead {σ : Type} (P : PrivateAPI σ) (w : σ) (address amod maxTransfers : Nat)
    (dest : List Nat) : (ErrorCode × List Nat) × σ :=
  let w := P.lock w MutexId.cmd
  let r := P.dialog w (DialogCall.vmeBlockRead address amod maxTransfers dest)
  (r.1, P.unlock r.2 MutexId.cmd)

/-- The method `MVLC::uploadStack(stackOutputPipe, stackMemoryOffset, commands,
responseDest)`. -/
def MVLC.uploadStack {σ : Type} (P : PrivateAPI σ) (w : σ)
    (stackOutputPipe stackMemoryOffset : Nat) (commands : List StackCommand)
    (responseDest : List Nat) : (ErrorCode × List Nat) × σ :=
  let w := P.lock w MutexId.cmd
  let r := P.dialog w
    (DialogCall.uploadStack stackOutputPipe stackMemoryOffset commands responseDest)
  (r.1, P.unlock r.2 MutexId.cmd)

/-- The method `MVLC::execImmediateStack(stackMemoryOffset, responseDest)`. -/
def MVLC.execImmediateStack {σ : Type} (P : PrivateAPI σ) (w : σ) (stackMemoryOffset : Nat)
    (responseDest : List Nat) : (ErrorCode × List Nat) × σ :=
  let w := P.lock w MutexId.cmd
  let r := P.dialog w (DialogCall.execImmediateStack stackMemoryOffset responseDest)
  (r.1, P.unlock r.2 MutexId.cmd)

/-- The method `MVLC::readResponse(bhv, dest)`. -/
def MVLC.readResponse {σ : Type} (P : PrivateAPI σ) (w : σ) (bhv : Nat → Bool)
    (dest : List Nat) : (ErrorCode × List Nat) × σ :=
  let w := P.lock w MutexId.cmd
  let r := P.dialog w (DialogCall.readResponse bhv dest)
  (r.1, P.unlock r.2 MutexId.cmd)

/-- The method `MVLC::mirrorTransaction(cmdBuffer, responseDest)`. -/
def MVLC.mirrorTransaction {σ : Type} (P : PrivateAPI σ) (w : σ) (cmdBuffer : List Nat)
    (responseDest : List Nat) : (ErrorCode × List Nat) × σ :=
  let w := P.lock w MutexId.cmd
  let r := P.dialog w (DialogCall.mirrorTransaction cmdBuffer responseDest)
  (r.1, P.unlock r.2 MutexId.cmd)

/-- The method `MVLC::stackTransaction(stackUploadData, responseDest)`. -/
def MVLC.stackTransaction {σ : Type} (P : PrivateAPI σ) (w : σ) (stackUploadData : List Nat)
    (responseDest : List Nat) : (ErrorCode × List Nat) × σ :=
  let w := P.lock w MutexId.cmd
  let r := P.dialog w (DialogCall.stackTransaction stackUploadData responseDest)
  (r.1, P.unlock r.2 MutexId.cmd)

/-- The method `MVLC::readKnownBuffer(dest)`. -/
def MVLC.readKnownBuffer {σ : Type} (P : PrivateAPI σ) (w : σ) (dest : List Nat) :
    (ErrorCode × List Nat) × σ :=
  let w := P.lock w MutexId.cmd
  let r := P.dialog w (DialogCall.readKnownBuffer dest)
  (r.1, P.unlock r.2 MutexId.cmd)

/-- The method `MVLC::getResponseBuffer()`. -/
def MVLC.getResponseBuffer {σ : Type} (P : PrivateAPI σ) (w : σ) :
    (ErrorCode × List Nat) × σ :=
  let w := P.lock w MutexId.cmd
  let r := P.dialog w DialogCall.getResponseBuffer
  (r.1, P.unlock r.2 MutexId.cmd)

/-- The method of `MVLC` of the same name as the dialog method of `c`, called
with the arguments of `c`. -/
def MVLC.perform {σ : Type} (P : PrivateAPI σ) (w : σ) : DialogCall → (ErrorCode × List Nat) × σ
  | DialogCall.readRegister address value => MVLC.readRegister P w address value
  | DialogCall.writeRegister address value => MVLC.writeRegister P w address value
  | DialogCall.vmeRead address value amod dataWidth =>
    MVLC.vmeRead P w address value amod dataWidth
  | DialogCall.vmeWrite address value amod dataWidth =>
    MVLC.vmeWrite P w address value amod dataWidth
  | DialogCall.vmeBlockRead address amod maxTransfers dest =>
    MVLC.vmeBlockRead P w address amod maxTransfers dest
  | DialogCall.uploadStack stackOutputPipe stackMemoryOffset commands responseDest =>
    MVLC.uploadStack P w stackOutputPipe stackMemoryOffset commands responseDest
  | DialogCall.execImmediateStack stackMemoryOffset responseDest =>
    MVLC.execImmediateStack P w stackMemoryOffset responseDest
  | DialogCall.readResponse bhv dest => MVLC.readResponse P w bhv dest
  | DialogCall.mirrorTransaction cmdBuffer responseDest =>
    MVLC.mirrorTransaction P w cmdBuffer responseDest
  | DialogCall.stackTransaction stackUploadData responseDest =>
    MVLC.stackTransaction P w stackUploadData responseDest
  | DialogCall.readKnownBuffer dest => MVLC.readKnownBuffer P w dest
  | DialogCall.getResponseBuffer => MVLC.getResponseBuffer P w

/-- One event of a thread: a guard taken or destroyed, a call of the dialog
from its start to its return, or a sleep. -/
inductive ThreadOp
  | lock (m : MutexId)
  | unlock (m : MutexId)
  | dialog (method : DialogMethod)
  | sleep_for (ms : Nat)
  deriving DecidableEq, Repr

/-- The surroundings `P` instrumented with a log: each guard taken or destroyed
and each dialog call is appended, in program order, to the list kept next to the
world. -/
def PrivateAPI.recording {σ : Type} (P : PrivateAPI σ) : PrivateAPI (σ × List ThreadOp) where
  lock := fun w m => (P.lock w.1 m, w.2 ++ [ThreadOp.lock m])
  unlock := fun w m => (P.unlock w.1 m, w.2 ++ [ThreadOp.unlock m])
  dialog := fun w c =>
    let r := P.dialog w.1 c
    (r.1, (r.2, w.2 ++ [ThreadOp.dialog c.method]))

/-- The body of the `while (!quit)` loop of `stack_error_poller` with its two
guards: `suspendGuard` is taken at the start of the body and destroyed at its
end, `cmdGuard` is taken in the inner block around `readKnownBuffer` and
destroyed at the end of that block.  `L` gives the guards and `P` the rest of
the surroundings. -/
def stack_error_poller_iteration_guarded {σ κ : Type} (E : ErrorCategories)
    (L : PrivateAPI σ) (P : PollerAPI σ κ) (st : PollerState σ κ) : PollerState σ κ :=
  let w := L.lock st.world MutexId.suspend
  let w := L.lock w MutexId.cmd
  let r := P.readKnownBuffer w st.buffer
  let w := L.unlock r.2.2 MutexId.cmd
  let ec := r.1
  let buffer := r.2.1
  let counters :=
    if ¬ buffer.isEmpty then P.update_stack_error_counters st.counters buffer
    else st.counters
  let w :=
    if ec.isConnectionError E ∨ buffer.isEmpty then P.sleep_for w Default_PollInterval
    else w
  let w := L.unlock w MutexId.suspend
  { world := w, counters := counters, buffer := buffer, ec := ec }

/-- Guards without effect on the world. -/
def noLocks {σ : Type} (dialog : σ → DialogCall → (ErrorCode × List Nat) × σ) :
    PrivateAPI σ where
  lock := fun w _ => w
  unlock := fun w _ => w
  dialog := dialog

/-- The surroundings of the poller instrumented with the log of
`PrivateAPI.recording`: the read is logged as the dialog call
`readKnownBuffer`, the sleep with its duration. -/
def PollerAPI.threadRecording {σ κ : Type} (P : PollerAPI σ κ) :
    PollerAPI (σ × List ThreadOp) κ where
  quit := fun w => P.quit w.1
  readKnownBuffer := fun w buffer =>
    let r := P.readKnownBuffer w.1 buffer
    (r.1, r.2.1, (r.2.2, w.2 ++ [ThreadOp.dialog DialogMethod.readKnownBuffer]))
  update_stack_error_counters := P.update_stack_error_counters
  sleep_for := fun w ms => (P.sleep_for w.1 ms, w.2 ++ [ThreadOp.sleep_for ms])

/-! ## Threads interleaved on mutexes -/

/-- An atomic step of a thread: a guard taken (the thread waits while another
thread owns the mutex) or destroyed, the start of a dialog call, its return, or
a sleep. -/
inductive Action
  | lock (m : MutexId)
  | unlock (m : MutexId)
  | call (method : DialogMethod)
  | ret (method : DialogMethod)
  | sleep
  deriving DecidableEq, Repr

/-- The steps of an event: a dialog call is its start and its return. -/
def ThreadOp.actions : ThreadOp → List Action
  | ThreadOp.lock m => [Action.lock m]
  | ThreadOp.unlock m => [Action.unlock m]
  | ThreadOp.dialog method => [Action.call method, Action.ret method]
  | ThreadOp.sleep_for _ => [Action.sleep]

/-- What a thread does, piece by piece: a command-pipe method of `MVLC`, an
iteration of `stack_error_poller` (with or without the sleep), or a stretch of
command-pipe methods made while holding the guard returned by
`MVLC::suspendStackErrorPolling()`. -/
inductive ThreadItem
  | method (m : DialogMethod)
  | pollerIteration (sleeps : Bool)
  | suspended (methods : List DialogMethod)
  deriving DecidableEq, Repr

/-- The steps of a command-pipe method of `MVLC`. -/
def methodActions (m : DialogMethod) : List Action :=
  [Action.lock MutexId.cmd, Action.call m, Action.ret m, Action.unlock MutexId.cmd]

/-- The steps of an iteration of `stack_error_poller`. -/
def pollerActions (sleeps : Bool) : List Action :=
  [Action.lock MutexId.suspend, Action.lock MutexId.cmd,
   Action.call DialogMethod.readKnownBuffer, Action.ret DialogMethod.readKnownBuffer,
   Action.unlock MutexId.cmd] ++ (if sleeps then [Action.sleep] else []) ++
  [Action.unlock MutexId.suspend]

/-- The steps of a piece of a thread. -/
def ThreadItem.actions : ThreadItem → List Action
  | ThreadItem.method m => methodActions m
  | ThreadItem.pollerIteration sleeps => pollerActions sleeps
  | ThreadItem.suspended methods =>
    [Action.lock MutexId.suspend] ++ methods.flatMap methodActions ++
      [Action.unlock MutexId.suspend]

/-- The threads of a process: the owner of each mutex and the steps each thread
has left. -/
structure Threads where
  owner : MutexId → Option Nat
  programs : Nat → List Action

/-- The function `f` changed at the point `a` to the value `b`. -/
def setAt {α β : Type} [DecidableEq α] (f : α → β) (a : α) (b : β) : α → β :=
  fun x => if x = a then b else f x

/-- One turn of the thread `t`: it makes its next step; a thread whose next
step takes a guard on a mutex that is owned waits, and its turn changes
nothing. -/
def Threads.step (T : Threads) (t : Nat) : Threads :=
  match T.programs t with
  | [] => T
  | Action.lock m :: rest =>
    if T.owner m = none then
      { owner := setAt T.owner m (some t), programs := setAt T.programs t rest }
    else T
  | Action.unlock m :: rest =>
    { owner := setAt T.owner m none, programs := setAt T.programs t rest }
  | _ :: rest => { T with programs := setAt T.programs t rest }

/-- The turns of a schedule, one after the other. -/
def Threads.run (T : Threads) (schedule : List Nat) : Threads :=
  schedule.foldl Threads.step T

/-- The threads at their start: no mutex is owned and the thread `t` has the
steps of its pieces `items t` before it. -/
def Threads.start (items : Nat → List ThreadItem) : Threads where
  owner := fun _ => none
  programs := fun t => (items t).flatMap ThreadItem.actions

/-- Whether the steps `p` of a thread respect the guards, given the mutexes
`held` the thread owns: a guard is taken only on a mutex the thread does not
own, destroyed only on one it owns, and a dialog call starts and returns only
while the thread owns every mutex that `req` asks for. -/
def guarded (req : MutexId → Bool) : (MutexId → Bool) → List Action → Prop
  | _, [] => True
  | held, Action.lock m :: p => held m = false ∧ guarded req (setAt held m true) p
  | held, Action.unlock m :: p => held m = true ∧ guarded req (setAt held m false) p
  | held, Action.call _ :: p => (∀ m, req m = true → held m = true) ∧ guarded req held p
  | held, Action.ret _ :: p => (∀ m, req m = true → held m = true) ∧ guarded req held p
  | held, Action.sleep :: p => guarded req held p

/-- The mutexes a thread owns after the steps `p`. -/
def heldAfter : (MutexId → Bool) → List Action → (MutexId → Bool)
  | held, [] => held
  | held, Action.lock m :: p => heldAfter (setAt held m true) p
  | held, Action.unlock m :: p => heldAfter (setAt held m false) p
  | held, _ :: p => heldAfter held p

/-- The mutexes that the thread `t` owns. -/
def Threads.heldBy (T : Threads) (t : Nat) : MutexId → Bool :=
  fun m => decide (T.owner m = some t)

/-- The dialog calls of every thread need the command-pipe mutex. -/
def needsCmd : MutexId → Bool :=
  fun m => decide (m = MutexId.cmd)

/-- The read of the poller needs the command-pipe mutex and the suspend
mutex. -/
def needsCmdAndSuspend : MutexId → Bool :=
  fun m => decide (m = MutexId.cmd ∨ m = MutexId.suspend)

/-- The threads respect the guards: the steps each thread has left respect them
given the mutexes the thread owns, with `req t` the mutexes that the dialog
calls of the thread `t` need. -/
def Threads.guardedAll (req : Nat → MutexId → Bool) (T : Threads) : Prop :=
  ∀ t, guarded (req t) (T.heldBy t) (T.programs t)

/-- Surroundings for explicit inputs: guards without effect and a dialog that
answers every call with no error and no words. -/
def idleSurroundings : PrivateAPI Nat :=
  noLocks (fun w _ => ((ErrorCode.NoError, []), w))

/-- Threads for explicit inputs: thread 0 calls `MVLC::readRegister`, thread 1
runs one iteration of the poller that sleeps, thread 2 calls
`MVLC::writeRegister` while holding the guard of `suspendStackErrorPolling()`,
the other threads do nothing. -/
def exampleThreads : Nat → List ThreadItem := fun t =>
  if t = 0 then [ThreadItem.method DialogMethod.readRegister]
  else if t = 1 then [ThreadItem.pollerIteration true]
  else if t = 2 then [ThreadItem.suspended [DialogMethod.writeRegister]]
  else []

/-! ## Lemmas on error codes and on the loop of `setup_readout_stacks` -/

section
variable {σ : Type}

theorem ErrorCode.isError_eq_false_iff (ec : ErrorCode) :
    ec.isError = false ↔ ec = ErrorCode.NoError ∨ ec = ErrorCode.FT FT_STATUS.FT_OK := by
  cases ec with
  | NoError => simp [ErrorCode.isError]
  | MVLC e => simp [ErrorCode.isError]
  | FT st => cases st <;> simp [ErrorCode.isError]
  | Other code => simp [ErrorCode.isError]

/-- One iteration of the loop of `setup_readout_stacks`, written with the
vocabulary of the statements. -/
theorem setup_readout_stacks_loop_cons (K : Constants)
    (msb : StackCommandBuilder → List Nat) (mvlc : DialogAPI σ)
    (b : StackCommandBuilder) (rest : List StackCommandBuilder) (stackId off : Nat) (s : σ) :
    setup_readout_stacks_loop K msb mvlc (b :: rest) stackId off s =
      if K.StackCount ≤ stackId then
        (ErrorCode.MVLC MVLCErrorCode.StackCountExceeded, s)
      else if K.StackMemoryEnd ≤ endAddressAt K off (msb b).length then
        (ErrorCode.MVLC MVLCErrorCode.StackMemoryExceeded, s)
      else if (mvlc.uploadStack s (outputPipeOf K b) (uploadAddressAt K off) b).1.isError then
        mvlc.uploadStack s (outputPipeOf K b) (uploadAddressAt K off) b
      else if (mvlc.writeRegister
          (mvlc.uploadStack s (outputPipeOf K b) (uploadAddressAt K off) b).2
          (K.get_offset_register stackId % 65536)
          ((uploadAddressAt K off &&& K.StackOffsetBitMaskBytes) % 4294967296)).1.isError then
        mvlc.writeRegister
          (mvlc.uploadStack s (outputPipeOf K b) (uploadAddressAt K off) b).2
          (K.get_offset_register stackId % 65536)
          ((uploadAddressAt K off &&& K.StackOffsetBitMaskBytes) % 4294967296)
      else
        setup_readout_stacks_loop K msb mvlc rest ((stackId + 1) % 256)
          ((off + (msb b).length + 1) % 65536)
          (mvlc.writeRegister
            (mvlc.uploadStack s (outputPipeOf K b) (uploadAddressAt K off) b).2
            (K.get_offset_register stackId % 65536)
            ((uploadAddressAt K off &&& K.StackOffsetBitMaskBytes) % 4294967296)).2 := by
  rfl

/-- One iteration of the loop of `setup_readout_stacks` on an instrumented
device: what is returned and what is appended to the log. -/
theorem setup_readout_stacks_loop_recording_cons (K : Constants)
    (msb : StackCommandBuilder → List Nat) (d : DialogAPI σ)
    (b : StackCommandBuilder) (rest : List StackCommandBuilder) (stackId off : Nat) (s : σ)
    (log : List DeviceOp) :
    setup_readout_stacks_loop K msb d.recording (b :: rest) stackId off (s, log) =
      if K.StackCount ≤ stackId then
        (ErrorCode.MVLC MVLCErrorCode.StackCountExceeded, (s, log))
      else if K.StackMemoryEnd ≤ endAddressAt K off (msb b).length then
        (ErrorCode.MVLC MVLCErrorCode.StackMemoryExceeded, (s, log))
      else if (d.uploadStack s (outputPipeOf K b) (uploadAddressAt K off) b).1.isError then
        ((d.uploadStack s (outputPipeOf K b) (uploadAddressAt K off) b).1,
          ((d.uploadStack s (outputPipeOf K b) (uploadAddressAt K off) b).2,
            log ++ (stackOps K b stackId off).take 1))
      else if (d.writeRegister
          (d.uploadStack s (outputPipeOf K b) (uploadAddressAt K off) b).2
          (K.get_offset_register stackId % 65536)
          ((uploadAddressAt K off &&& K.StackOffsetBitMaskBytes) % 4294967296)).1.isError then
        ((d.writeRegister
            (d.uploadStack s (outputPipeOf K b) (uploadAddressAt K off) b).2
            (K.get_offset_register stackId % 65536)
            ((uploadAddressAt K off &&& K.StackOffsetBitMaskBytes) % 4294967296)).1,
          ((d.writeRegister
            (d.uploadStack s (outputPipeOf K b) (uploadAddressAt K off) b).2
            (K.get_offset_register stackId % 65536)
            ((uploadAddressAt K off &&& K.StackOffsetBitMaskBytes) % 4294967296)).2,
            log ++ stackOps K b stackId off))
      else
        setup_readout_stacks_loop K msb d.recording rest ((stackId + 1) % 256)
          ((off + (msb b).length + 1) % 65536)
          ((d.writeRegister
            (d.uploadStack s (outputPipeOf K b) (uploadAddressAt K off) b).2
            (K.get_offset_register stackId % 65536)
            ((uploadAddressAt K off &&& K.StackOffsetBitMaskBytes) % 4294967296)).2,
            log ++ stackOps K b stackId off) := by
  rw [setup_readout_stacks_loop_cons]
  simp only [DialogAPI.recording, stackOps, List.take, List.append_assoc, List.singleton_append,
    List.cons_append, List.nil_append]

/-- A run of the loop that ends in `StackMemoryExceeded`, on a device that does
not report that code itself, has completed the iterations of the stacks before
the one that failed the window check and has issued nothing else. -/
theorem setup_readout_stacks_loop_memory_exceeded (K : Constants)
    (msb : StackCommandBuilder → List Nat) (d : DialogAPI σ)
    (hup : ∀ s p a b,
      (d.uploadStack s p a b).1 ≠ ErrorCode.MVLC MVLCErrorCode.StackMemoryExceeded)
    (hwr : ∀ s a v,
      (d.writeRegister s a v).1 ≠ ErrorCode.MVLC MVLCErrorCode.StackMemoryExceeded)
    (rs : List StackCommandBuilder) :
    ∀ (stackId off : Nat) (s : σ) (log : List DeviceOp),
      (setup_readout_stacks_loop K msb d.recording rs stackId off (s, log)).1
          = ErrorCode.MVLC MVLCErrorCode.StackMemoryExceeded →
      ∃ front b rest, rs = front ++ b :: rest ∧
        (setup_readout_stacks_loop K msb d.recording rs stackId off (s, log)).2.2
          = log ++ readoutOps K msb front stackId off ∧
        K.StackMemoryEnd ≤ endAddressAt K (wordOffsetAfter msb front off) (msb b).length := by
  induction rs with
  | nil => intro stackId off s log h; simp [setup_readout_stacks_loop] at h
  | cons b rest ih =>
    intro stackId off s log h
    rw [setup_readout_stacks_loop_recording_cons] at h ⊢
    by_cases hcount : K.StackCount ≤ stackId
    · simp [hcount] at h
    · simp only [hcount, if_false] at h ⊢
      by_cases hmem : K.StackMemoryEnd ≤ endAddressAt K off (msb b).length
      · simp only [hmem, if_true]
        exact ⟨[], b, rest, rfl, by simp [readoutOps], by simpa [wordOffsetAfter] using hmem⟩
      · simp only [hmem, if_false] at h ⊢
        by_cases hu : (d.uploadStack s (outputPipeOf K b) (uploadAddressAt K off) b).1.isError
        · simp only [hu, if_true] at h
          exact absurd h (hup _ _ _ _)
        · simp only [hu] at h ⊢
          by_cases hw : (d.writeRegister
              (d.uploadStack s (outputPipeOf K b) (uploadAddressAt K off) b).2
              (K.get_offset_register stackId % 65536)
              ((uploadAddressAt K off &&& K.StackOffsetBitMaskBytes) % 4294967296)).1.isError
          · simp only [hw, if_true] at h
            exact absurd h (hwr _ _ _)
          · simp only [hw] at h ⊢
            obtain ⟨front, b2, rest2, hst, htr, hend⟩ := ih _ _ _ _ h
            refine ⟨b :: front, b2, rest2, by simp [hst], ?_, ?_⟩
            · simp only [Bool.false_eq_true, if_false]
              rw [htr]
              simp [readoutOps]
            · simpa [wordOffsetAfter] using hend

/-- A run of the loop that ends in `StackCountExceeded`, on a device that does
not report that code itself, has completed the iterations of the stacks that
found a free slot and has issued nothing else; with a `u8` slot count these are
`StackCount - stackId` stacks. -/
theorem setup_readout_stacks_loop_count_exceeded (K : Constants)
    (msb : StackCommandBuilder → List Nat) (d : DialogAPI σ)
    (hcnt : K.StackCount ≤ 255)
    (hup : ∀ s p a b,
      (d.uploadStack s p a b).1 ≠ ErrorCode.MVLC MVLCErrorCode.StackCountExceeded)
    (hwr : ∀ s a v,
      (d.writeRegister s a v).1 ≠ ErrorCode.MVLC MVLCErrorCode.StackCountExceeded)
    (rs : List StackCommandBuilder) :
    ∀ (stackId off : Nat) (s : σ) (log : List DeviceOp),
      (setup_readout_stacks_loop K msb d.recording rs stackId off (s, log)).1
          = ErrorCode.MVLC MVLCErrorCode.StackCountExceeded →
      ∃ front rest, rs = front ++ rest ∧ rest ≠ [] ∧
        front.length = K.StackCount - stackId ∧
        (setup_readout_stacks_loop K msb d.recording rs stackId off (s, log)).2.2
          = log ++ readoutOps K msb front stackId off := by
  induction rs with
  | nil => intro stackId off s log h; simp [setup_readout_stacks_loop] at h
  | cons b rest ih =>
    intro stackId off s log h
    rw [setup_readout_stacks_loop_recording_cons] at h ⊢
    by_cases hcount : K.StackCount ≤ stackId
    · simp only [hcount, if_true]
      exact ⟨[], b :: rest, rfl, by simp, by simp; omega, by simp [readoutOps]⟩
    · simp only [hcount, if_false] at h ⊢
      by_cases hmem : K.StackMemoryEnd ≤ endAddressAt K off (msb b).length
      · simp [hmem] at h
      · simp only [hmem, if_false] at h ⊢
        by_cases hu : (d.uploadStack s (outputPipeOf K b) (uploadAddressAt K off) b).1.isError
        · simp only [hu, if_true] at h
          exact absurd h (hup _ _ _ _)
        · simp only [hu] at h ⊢
          by_cases hw : (d.writeRegister
              (d.uploadStack s (outputPipeOf K b) (uploadAddressAt K off) b).2
              (K.get_offset_register stackId % 65536)
              ((uploadAddressAt K off &&& K.StackOffsetBitMaskBytes) % 4294967296)).1.isError
          · simp only [hw, if_true] at h
            exact absurd h (hwr _ _ _)
          · simp only [hw] at h ⊢
            obtain ⟨front, rest2, hst, hne, hlen, htr⟩ := ih _ _ _ _ h
            have hid : (stackId + 1) % 256 = stackId + 1 := by
              apply Nat.mod_eq_of_lt; omega
            refine ⟨b :: front, rest2, by simp [hst], hne, ?_, ?_⟩
            · simp only [List.length_cons, hlen, hid]; omega
            · simp only [Bool.false_eq_true, if_false]
              rw [htr]
              simp [readoutOps]

end


/-- A run of the loop that ends without error has completed the iteration of
every stack: the log grows by the upload and the offset-register write of each
stack, in list order. -/
theorem setup_readout_stacks_loop_success {σ : Type} (K : Constants)
    (msb : StackCommandBuilder → List Nat) (d : DialogAPI σ)
    (rs : List StackCommandBuilder) :
    ∀ (stackId off : Nat) (s : σ) (log : List DeviceOp),
      (setup_readout_stacks_loop K msb d.recording rs stackId off (s, log)).1
          = ErrorCode.NoError →
      (setup_readout_stacks_loop K msb d.recording rs stackId off (s, log)).2.2
          = log ++ readoutOps K msb rs stackId off := by
  induction rs with
  | nil => intro stackId off s log _; simp [setup_readout_stacks_loop, readoutOps]
  | cons b rest ih =>
    intro stackId off s log h
    rw [setup_readout_stacks_loop_recording_cons] at h ⊢
    by_cases hcount : K.StackCount ≤ stackId
    · simp [hcount] at h
    · simp only [hcount, if_false] at h ⊢
      by_cases hmem : K.StackMemoryEnd ≤ endAddressAt K off (msb b).length
      · simp [hmem] at h
      · simp only [hmem, if_false] at h ⊢
        by_cases hu : (d.uploadStack s (outputPipeOf K b) (uploadAddressAt K off) b).1.isError
        · simp only [hu, if_true] at h
          rw [h] at hu
          simp [ErrorCode.isError] at hu
        · simp only [hu] at h ⊢
          by_cases hw : (d.writeRegister
              (d.uploadStack s (outputPipeOf K b) (uploadAddressAt K off) b).2
              (K.get_offset_register stackId % 65536)
              ((uploadAddressAt K off &&& K.StackOffsetBitMaskBytes) % 4294967296)).1.isError
          · simp only [hw, if_true, Bool.false_eq_true, if_false] at h
            rw [h] at hw
            simp [ErrorCode.isError] at hw
          · simp only [hw] at h ⊢
            simp only [Bool.false_eq_true, if_false]
            rw [ih _ _ _ _ h]
            simp [readoutOps]

/-- The operations of a successful `setup_readout_stacks`: for each stack of
the list, in order, its upload and the write of its offset register, with the
stack ids and upload offsets of the 8-bit and 16-bit loop variables. -/
theorem setup_readout_stacks_success_trace {σ : Type} (K : Constants)
    (msb : StackCommandBuilder → List Nat) (d : DialogAPI σ) (s : σ)
    (readoutStacks : List StackCommandBuilder)
    (h : (setup_readout_stacks K msb d.recording (s, []) readoutStacks).1
      = ErrorCode.NoError) :
    (setup_readout_stacks K msb d.recording (s, []) readoutStacks).2.2
      = readoutOps K msb readoutStacks (firstReadoutStackId K) (firstUploadWordOffset K) := by
  have := setup_readout_stacks_loop_success K msb d readoutStacks _ _ s [] h
  simpa [setup_readout_stacks] using this

/-- Instrumenting the device does not change what the loop of
`setup_readout_stacks` returns nor the device state it leaves. -/
theorem setup_readout_stacks_loop_recording_result {σ : Type} (K : Constants)
    (msb : StackCommandBuilder → List Nat) (d : DialogAPI σ)
    (rs : List StackCommandBuilder) :
    ∀ (stackId off : Nat) (s : σ) (log : List DeviceOp),
      ((setup_readout_stacks_loop K msb d.recording rs stackId off (s, log)).1,
        (setup_readout_stacks_loop K msb d.recording rs stackId off (s, log)).2.1)
        = setup_readout_stacks_loop K msb d rs stackId off s := by
  induction rs with
  | nil => intro stackId off s log; simp [setup_readout_stacks_loop]
  | cons b rest ih =>
    intro stackId off s log
    rw [setup_readout_stacks_loop_recording_cons, setup_readout_stacks_loop_cons]
    by_cases hcount : K.StackCount ≤ stackId
    · simp [hcount]
    · by_cases hmem : K.StackMemoryEnd ≤ endAddressAt K off (msb b).length
      · simp [hcount, hmem]
      · by_cases hu : (d.uploadStack s (outputPipeOf K b) (uploadAddressAt K off) b).1.isError
        · simp [hcount, hmem, hu]
        · by_cases hw : (d.writeRegister
              (d.uploadStack s (outputPipeOf K b) (uploadAddressAt K off) b).2
              (K.get_offset_register stackId % 65536)
              ((uploadAddressAt K off &&& K.StackOffsetBitMaskBytes) % 4294967296)).1.isError
          · simp [hcount, hmem, hu, hw]
          · simp only [hcount, hmem, hu, hw, if_false, Bool.false_eq_true]
            exact ih _ _ _ _

/-- Instrumenting the device does not change what `setup_readout_stacks`
returns nor the device state it leaves. -/
theorem setup_readout_stacks_recording_result {σ : Type} (K : Constants)
    (msb : StackCommandBuilder → List Nat) (d : DialogAPI σ) (s : σ)
    (readoutStacks : List StackCommandBuilder) :
    ((setup_readout_stacks K msb d.recording (s, []) readoutStacks).1,
      (setup_readout_stacks K msb d.recording (s, []) readoutStacks).2.1)
      = setup_readout_stacks K msb d s readoutStacks :=
  setup_readout_stacks_loop_recording_result K msb d readoutStacks _ _ s []

/-- Instrumenting the device does not change what the loop of
`read_stack_contents` returns nor the device state it leaves. -/
theorem read_stack_contents_loop_recording_result {σ : Type} (K : Constants)
    (d : DialogAPI σ) :
    ∀ (fuel addr value : Nat) (contents : List Nat) (s : σ) (log : List DeviceOp),
      (read_stack_contents_loop K d.recording fuel addr value contents (s, log)).map
          (fun r => (r.1, r.2.1))
        = read_stack_contents_loop K d fuel addr value contents s := by
  intro fuel
  induction fuel with
  | zero => intro addr value contents s log; simp [read_stack_contents_loop]
  | succ fuel ih =>
    intro addr value contents s log
    rw [read_stack_contents_loop, read_stack_contents_loop]
    by_cases hge : addr ≥ K.StackMemoryEnd
    · simp [hge]
    · by_cases herr : (d.readRegister s (addr % 65536) value).1.isError
      · simp [hge, herr, DialogAPI.recording]
      · by_cases htag : commandTag K (d.readRegister s (addr % 65536) value).2.1 = K.StackEnd
        · simp [hge, herr, htag, DialogAPI.recording]
        · simp only [hge, if_false, DialogAPI.recording, herr, htag, ne_eq, not_false_eq_true,
            if_true, Bool.false_eq_true]
          exact ih _ _ _ _ _

/-- Instrumenting the device does not change what `read_stack_contents` returns
nor the device state it leaves. -/
theorem read_stack_contents_recording_result {σ : Type} (K : Constants)
    (d : DialogAPI σ) (s : σ) (startAddress fuel : Nat) :
    (read_stack_contents K d.recording (s, []) startAddress fuel).map
        (fun r => (r.1, r.2.1))
      = read_stack_contents K d s startAddress fuel := by
  unfold read_stack_contents
  by_cases herr : (d.readRegister s startAddress 0).1.isError
  · simp [herr, DialogAPI.recording]
  · by_cases hhdr : commandTag K (d.readRegister s startAddress 0).2.1 % 256 = K.StackStart
    · simp only [DialogAPI.recording, herr, hhdr, ne_eq, not_true_eq_false, if_false,
        Bool.false_eq_true]
      exact read_stack_contents_loop_recording_result K d _ _ _ _ _ _
    · simp [herr, hhdr, DialogAPI.recording]

/-! ## Evaluation on explicit inputs -/

theorem length_mvlcStackBuffer_markerStack (n : Nat) :
    (mvlcStackBuffer (markerStack n)).length = 2 * n + 2 := by
  have h : ∀ (c : StackCommand) (m : Nat),
      ((List.replicate m c).flatMap encodeTwoWords).length = 2 * m := by
    intro c m
    induction m with
    | zero => simp
    | succ m ih => simp [List.replicate_succ, List.flatMap_cons, ih, encodeTwoWords]; omega
  simp [mvlcStackBuffer, make_stack_buffer, markerStack, StackCommandBuilder.getCommands, h]

theorem markerStack_suppressPipeOutput (n : Nat) :
    (markerStack n).suppressPipeOutput = false := rfl

/-- A stack of two words followed by one of 3002 words: the first is uploaded and its
offset register written, then the window check of the second fails. -/
theorem setup_readout_stacks_eval_memory_exceeded :
    setup_readout_stacks mvlcConstants mvlcStackBuffer idleDevice.recording ((), [])
        [markerStack 0, markerStack 1500]
      = (ErrorCode.MVLC MVLCErrorCode.StackMemoryExceeded,
          ((), [DeviceOp.uploadStack 1 516 (markerStack 0), DeviceOp.writeRegister 0x1204 516])) := by
  unfold setup_readout_stacks
  rw [setup_readout_stacks_loop_recording_cons]
  simp [setup_readout_stacks_loop_recording_cons,
    length_mvlcStackBuffer_markerStack, firstReadoutStackId, firstUploadWordOffset,
    endAddressAt, uploadAddressAt, outputPipeOf, stackOps, idleDevice, staticDevice, mvlcConstants,
    ErrorCode.isError, markerStack_suppressPipeOutput]
  decide


/-- The device `idleDevice` reports no error from `uploadStack`. -/
theorem idleDevice_uploadStack (s : Unit) (p a : Nat) (b : StackCommandBuilder) :
    (idleDevice.uploadStack s p a b).1 = ErrorCode.NoError := rfl

/-- The device `idleDevice` reports no error from `writeRegister`. -/
theorem idleDevice_writeRegister (s : Unit) (a v : Nat) :
    (idleDevice.writeRegister s a v).1 = ErrorCode.NoError := rfl

/-- Eight stacks of two words: the seven that find a slot are uploaded and their offset
registers written, then the slot check of the eighth fails. -/
theorem setup_readout_stacks_eval_count_exceeded :
    setup_readout_stacks mvlcConstants mvlcStackBuffer idleDevice.recording ((), [])
        (List.replicate 8 (markerStack 0))
      = (ErrorCode.MVLC MVLCErrorCode.StackCountExceeded,
          ((), [DeviceOp.uploadStack 1 516 (markerStack 0), DeviceOp.writeRegister 0x1204 516,
                DeviceOp.uploadStack 1 528 (markerStack 0), DeviceOp.writeRegister 0x1208 528,
                DeviceOp.uploadStack 1 540 (markerStack 0), DeviceOp.writeRegister 0x120C 540,
                DeviceOp.uploadStack 1 552 (markerStack 0), DeviceOp.writeRegister 0x1210 552,
                DeviceOp.uploadStack 1 564 (markerStack 0), DeviceOp.writeRegister 0x1214 564,
                DeviceOp.uploadStack 1 576 (markerStack 0), DeviceOp.writeRegister 0x1218 576,
                DeviceOp.uploadStack 1 588 (markerStack 0), DeviceOp.writeRegister 0x121C 588])) := by
  unfold setup_readout_stacks
  simp [List.replicate, setup_readout_stacks_loop_recording_cons,
    length_mvlcStackBuffer_markerStack, firstReadoutStackId, firstUploadWordOffset,
    endAddressAt, uploadAddressAt, outputPipeOf, stackOps, idleDevice, staticDevice, mvlcConstants,
    ErrorCode.isError, markerStack_suppressPipeOutput]
  decide

/-! ## C1 -/

/-- C1 as stated does not hold: for the stacks `[markerStack 0, markerStack 1500]`
(2 and 3002 encoded words) `setup_readout_stacks` returns `StackMemoryExceeded`
although the first stack has been uploaded and its offset register written. -/
theorem setup_readout_stacks_memory_exceeded_after_upload :
    (setup_readout_stacks mvlcConstants mvlcStackBuffer idleDevice.recording ((), [])
        [markerStack 0, markerStack 1500]).1
      = ErrorCode.MVLC MVLCErrorCode.StackMemoryExceeded ∧
    DeviceOp.uploadStack 1 516 (markerStack 0) ∈
      (setup_readout_stacks mvlcConstants mvlcStackBuffer idleDevice.recording ((), [])
        [markerStack 0, markerStack 1500]).2.2 ∧
    DeviceOp.writeRegister 0x1204 516 ∈
      (setup_readout_stacks mvlcConstants mvlcStackBuffer idleDevice.recording ((), [])
        [markerStack 0, markerStack 1500]).2.2 := by
  rw [setup_readout_stacks_eval_memory_exceeded]
  simp

/-- C1 (amended): if `setup_readout_stacks` returns `StackMemoryExceeded`, on a
device that does not report that code itself, then the list splits into the
stacks before the one that failed the window check, that stack, and the rest;
the operations issued are exactly the upload and offset-register write of each
stack before the failing one, so neither the failing stack nor a later one is
uploaded, and nothing at all is issued when the first stack fails. -/
theorem setup_readout_stacks_memory_exceeded {σ : Type} (K : Constants)
    (msb : StackCommandBuilder → List Nat) (d : DialogAPI σ) (s : σ)
    (readoutStacks : List StackCommandBuilder)
    (hup : ∀ s p a b,
      (d.uploadStack s p a b).1 ≠ ErrorCode.MVLC MVLCErrorCode.StackMemoryExceeded)
    (hwr : ∀ s a v,
      (d.writeRegister s a v).1 ≠ ErrorCode.MVLC MVLCErrorCode.StackMemoryExceeded)
    (h : (setup_readout_stacks K msb d.recording (s, []) readoutStacks).1
      = ErrorCode.MVLC MVLCErrorCode.StackMemoryExceeded) :
    ∃ front b rest, readoutStacks = front ++ b :: rest ∧
      (setup_readout_stacks K msb d.recording (s, []) readoutStacks).2.2
        = readoutOps K msb front (firstReadoutStackId K) (firstUploadWordOffset K) ∧
      K.StackMemoryEnd ≤
        endAddressAt K (wordOffsetAfter msb front (firstUploadWordOffset K)) (msb b).length ∧
      (front = [] →
        (setup_readout_stacks K msb d.recording (s, []) readoutStacks).2.2 = []) := by
  obtain ⟨front, b, rest, hsplit, htrace, hend⟩ :=
    setup_readout_stacks_loop_memory_exceeded K msb d hup hwr readoutStacks _ _ s [] h
  refine ⟨front, b, rest, hsplit, ?_, hend, ?_⟩
  · simpa [setup_readout_stacks] using htrace
  · intro hfront
    subst hfront
    simpa [setup_readout_stacks, readoutOps] using htrace

/-- C1 (amended) applies to the stacks `[markerStack 0, markerStack 1500]` on
`idleDevice`. -/
theorem setup_readout_stacks_memory_exceeded_witness :
    (setup_readout_stacks mvlcConstants mvlcStackBuffer idleDevice.recording ((), [])
        [markerStack 0, markerStack 1500]).1
      = ErrorCode.MVLC MVLCErrorCode.StackMemoryExceeded ∧
    ∃ front b rest, [markerStack 0, markerStack 1500] = front ++ b :: rest ∧
      (setup_readout_stacks mvlcConstants mvlcStackBuffer idleDevice.recording ((), [])
          [markerStack 0, markerStack 1500]).2.2
        = readoutOps mvlcConstants mvlcStackBuffer front (firstReadoutStackId mvlcConstants)
            (firstUploadWordOffset mvlcConstants) ∧
      mvlcConstants.StackMemoryEnd ≤
        endAddressAt mvlcConstants
          (wordOffsetAfter mvlcStackBuffer front (firstUploadWordOffset mvlcConstants))
          (mvlcStackBuffer b).length ∧
      (front = [] →
        (setup_readout_stacks mvlcConstants mvlcStackBuffer idleDevice.recording ((), [])
          [markerStack 0, markerStack 1500]).2.2 = []) :=
  ⟨by rw [setup_readout_stacks_eval_memory_exceeded],
   setup_readout_stacks_memory_exceeded mvlcConstants mvlcStackBuffer idleDevice ()
    [markerStack 0, markerStack 1500]
    (by intro s p a b; rw [idleDevice_uploadStack]; decide)
    (by intro s a v; rw [idleDevice_writeRegister]; decide)
    (by rw [setup_readout_stacks_eval_memory_exceeded])⟩

/-! ## C2 -/

/-- C2 as stated does not hold: for eight stacks of two words `setup_readout_stacks`
returns `StackCountExceeded` although stacks have been uploaded and offset
registers written. -/
theorem setup_readout_stacks_count_exceeded_after_upload :
    (setup_readout_stacks mvlcConstants mvlcStackBuffer idleDevice.recording ((), [])
        (List.replicate 8 (markerStack 0))).1
      = ErrorCode.MVLC MVLCErrorCode.StackCountExceeded ∧
    DeviceOp.uploadStack 1 516 (markerStack 0) ∈
      (setup_readout_stacks mvlcConstants mvlcStackBuffer idleDevice.recording ((), [])
        (List.replicate 8 (markerStack 0))).2.2 ∧
    DeviceOp.writeRegister 0x1204 516 ∈
      (setup_readout_stacks mvlcConstants mvlcStackBuffer idleDevice.recording ((), [])
        (List.replicate 8 (markerStack 0))).2.2 := by
  rw [setup_readout_stacks_eval_count_exceeded]
  simp

/-- C2 (amended): if `setup_readout_stacks` returns `StackCountExceeded`, on a
device that does not report that code itself and with a `u8` slot count, then
more stacks were given than there are readout slots: the list splits into the
`StackCount - (ImmediateStackID + 1)` stacks that found a slot and a non-empty
rest; the operations issued are exactly the upload and offset-register write of
each stack that found a slot, and nothing is issued for the rest. -/
theorem setup_readout_stacks_count_exceeded {σ : Type} (K : Constants)
    (msb : StackCommandBuilder → List Nat) (d : DialogAPI σ) (s : σ)
    (readoutStacks : List StackCommandBuilder)
    (hcnt : K.StackCount ≤ 255)
    (hup : ∀ s p a b,
      (d.uploadStack s p a b).1 ≠ ErrorCode.MVLC MVLCErrorCode.StackCountExceeded)
    (hwr : ∀ s a v,
      (d.writeRegister s a v).1 ≠ ErrorCode.MVLC MVLCErrorCode.StackCountExceeded)
    (h : (setup_readout_stacks K msb d.recording (s, []) readoutStacks).1
      = ErrorCode.MVLC MVLCErrorCode.StackCountExceeded) :
    ∃ front rest, readoutStacks = front ++ rest ∧ rest ≠ [] ∧
      front.length = K.StackCount - firstReadoutStackId K ∧
      (setup_readout_stacks K msb d.recording (s, []) readoutStacks).2.2
        = readoutOps K msb front (firstReadoutStackId K) (firstUploadWordOffset K) := by
  obtain ⟨front, rest, hsplit, hne, hlen, htrace⟩ :=
    setup_readout_stacks_loop_count_exceeded K msb d hcnt hup hwr readoutStacks _ _ s [] h
  exact ⟨front, rest, hsplit, hne, hlen, by simpa [setup_readout_stacks] using htrace⟩

/-- C2 (amended) applies to eight stacks of two words on `idleDevice`. -/
theorem setup_readout_stacks_count_exceeded_witness :
    (setup_readout_stacks mvlcConstants mvlcStackBuffer idleDevice.recording ((), [])
        (List.replicate 8 (markerStack 0))).1
      = ErrorCode.MVLC MVLCErrorCode.StackCountExceeded ∧
    ∃ front rest, List.replicate 8 (markerStack 0) = front ++ rest ∧ rest ≠ [] ∧
      front.length = mvlcConstants.StackCount - firstReadoutStackId mvlcConstants ∧
      (setup_readout_stacks mvlcConstants mvlcStackBuffer idleDevice.recording ((), [])
          (List.replicate 8 (markerStack 0))).2.2
        = readoutOps mvlcConstants mvlcStackBuffer front (firstReadoutStackId mvlcConstants)
            (firstUploadWordOffset mvlcConstants) :=
  ⟨by rw [setup_readout_stacks_eval_count_exceeded],
   setup_readout_stacks_count_exceeded mvlcConstants mvlcStackBuffer idleDevice ()
    (List.replicate 8 (markerStack 0))
    (by decide)
    (by intro s p a b; rw [idleDevice_uploadStack]; decide)
    (by intro s a v; rw [idleDevice_writeRegister]; decide)
    (by rw [setup_readout_stacks_eval_count_exceeded])⟩


/-- Two stacks without the suppress flag on `idleDevice`, both passing the
window check: each is uploaded and its offset register written. -/
theorem setup_readout_stacks_eval_pair (b1 b2 : StackCommandBuilder) (n1 n2 a2 v2 : Nat)
    (h1 : (mvlcStackBuffer b1).length = n1) (h2 : (mvlcStackBuffer b2).length = n2)
    (hf1 : b1.suppressPipeOutput = false) (hf2 : b2.suppressPipeOutput = false)
    (hc1 : (516 + n1 * 4) % 65536 < 12288)
    (ha2 : ((129 + n1 + 1) % 65536 * 4) % 65536 = a2)
    (hc2 : (a2 + n2 * 4) % 65536 < 12288)
    (hv2 : (a2 &&& 4092) % 4294967296 = v2) :
    setup_readout_stacks mvlcConstants mvlcStackBuffer idleDevice.recording ((), []) [b1, b2]
      = (ErrorCode.NoError,
          ((), [DeviceOp.uploadStack 1 516 b1, DeviceOp.writeRegister 0x1204 516,
                DeviceOp.uploadStack 1 a2 b2, DeviceOp.writeRegister 0x1208 v2])) := by
  have hm : (516 &&& 4092) % 4294967296 = 516 := by decide
  unfold setup_readout_stacks
  rw [setup_readout_stacks_loop_recording_cons, setup_readout_stacks_loop_recording_cons]
  simp [setup_readout_stacks_loop, h1, h2, hf1, hf2, firstReadoutStackId, firstUploadWordOffset,
    endAddressAt, uploadAddressAt, outputPipeOf, stackOps, idleDevice, staticDevice,
    mvlcConstants, ErrorCode.isError, hc1, ha2, hc2, hv2, hm, Nat.not_le.2 hc1, Nat.not_le.2 hc2]

/-! ## C3 -/

/-- C3 fails on the code (the window check compares the 16-bit offset
`endAddress`, which is relative to `StackMemoryBegin`, with the absolute
address `StackMemoryEnd`): a single stack of 2500 encoded words is accepted
and uploaded at offset 516, although its absolute end address
`StackMemoryBegin + 516 + 2500 * AddressIncrement` is not below
`StackMemoryEnd`. -/
theorem setup_readout_stacks_accepts_stack_beyond_window :
    setup_readout_stacks mvlcConstants mvlcStackBuffer idleDevice.recording ((), [])
        [markerStack 1249]
      = (ErrorCode.NoError,
          ((), [DeviceOp.uploadStack 1 516 (markerStack 1249),
                DeviceOp.writeRegister 0x1204 516])) ∧
    (mvlcStackBuffer (markerStack 1249)).length = 2500 ∧
    ¬ (mvlcConstants.StackMemoryBegin + 516 + 2500 * mvlcConstants.AddressIncrement
        < mvlcConstants.StackMemoryEnd) := by
  refine ⟨?_, ?_, by decide⟩
  · unfold setup_readout_stacks
    rw [setup_readout_stacks_loop_recording_cons]
    simp [setup_readout_stacks_loop,
      length_mvlcStackBuffer_markerStack, firstReadoutStackId, firstUploadWordOffset,
      endAddressAt, uploadAddressAt, outputPipeOf, stackOps, idleDevice, staticDevice,
      mvlcConstants, ErrorCode.isError, markerStack_suppressPipeOutput]
    decide
  · rw [length_mvlcStackBuffer_markerStack]

/-- The window check of `setup_readout_stacks` is blind to whole multiples of
the 16-bit range, whatever the constants: on an accepting device with a free
slot, if a stack without words would pass the check at the first upload
address, then a stack of 65536 encoded words passes it too and is uploaded
there, although its end lies beyond every 16-bit `StackMemoryEnd`. -/
theorem setup_readout_stacks_accepts_oversize_stack {σ : Type} (K : Constants)
    (msb : StackCommandBuilder → List Nat) (d : DialogAPI σ) (s : σ) (b : StackCommandBuilder)
    (hslot : firstReadoutStackId K < K.StackCount)
    (hfirst : uploadAddressAt K (firstUploadWordOffset K) < K.StackMemoryEnd)
    (hEnd : K.StackMemoryEnd ≤ 65536)
    (hAI : 0 < K.AddressIncrement)
    (hn : (msb b).length = 65536)
    (hup : ∀ s p a b, (d.uploadStack s p a b).1 = ErrorCode.NoError)
    (hwr : ∀ s a v, (d.writeRegister s a v).1 = ErrorCode.NoError) :
    (setup_readout_stacks K msb d.recording (s, []) [b]).1 = ErrorCode.NoError ∧
    (setup_readout_stacks K msb d.recording (s, []) [b]).2.2
      = stackOps K b (firstReadoutStackId K) (firstUploadWordOffset K) ∧
    ¬ (K.StackMemoryBegin + uploadAddressAt K (firstUploadWordOffset K)
        + (msb b).length * K.AddressIncrement < K.StackMemoryEnd) := by
  have hend : endAddressAt K (firstUploadWordOffset K) (msb b).length
      = uploadAddressAt K (firstUploadWordOffset K) := by
    have hlt : uploadAddressAt K (firstUploadWordOffset K) < 65536 :=
      Nat.mod_lt _ (by decide)
    rw [endAddressAt, hn, Nat.add_mul_mod_self_left]
    exact Nat.mod_eq_of_lt hlt
  have hrun : setup_readout_stacks K msb d.recording (s, []) [b]
      = (ErrorCode.NoError,
          ((d.writeRegister
            (d.uploadStack s (outputPipeOf K b)
              (uploadAddressAt K (firstUploadWordOffset K)) b).2
            (K.get_offset_register (firstReadoutStackId K) % 65536)
            ((uploadAddressAt K (firstUploadWordOffset K) &&& K.StackOffsetBitMaskBytes)
              % 4294967296)).2,
           stackOps K b (firstReadoutStackId K) (firstUploadWordOffset K))) := by
    unfold setup_readout_stacks
    rw [setup_readout_stacks_loop_recording_cons]
    simp [hend, Nat.not_le.2 hslot, Nat.not_le.2 hfirst, hup, hwr, ErrorCode.isError,
      setup_readout_stacks_loop]
  refine ⟨by rw [hrun], by rw [hrun], ?_⟩
  rw [hn]
  have : 65536 ≤ 65536 * K.AddressIncrement := Nat.le_mul_of_pos_right _ hAI
  omega

/-! ## C4 -/

/-- C4 fails on the code (the window check is made on 16-bit truncated
values): a stack of 16384 encoded words followed by one of two words is accepted;
the first is uploaded at offset 516 and the second at offset 520, which lies
inside the range `[516, 516 + 16384 * AddressIncrement)` of the first. -/
theorem setup_readout_stacks_uploads_overlapping_stacks :
    setup_readout_stacks mvlcConstants mvlcStackBuffer idleDevice.recording ((), [])
        [markerStack 8191, markerStack 0]
      = (ErrorCode.NoError,
          ((), [DeviceOp.uploadStack 1 516 (markerStack 8191),
                DeviceOp.writeRegister 0x1204 516,
                DeviceOp.uploadStack 1 520 (markerStack 0),
                DeviceOp.writeRegister 0x1208 520])) ∧
    (mvlcStackBuffer (markerStack 8191)).length = 16384 ∧
    (mvlcStackBuffer (markerStack 0)).length = 2 ∧
    (516 ≤ 520 ∧ 520 < 516 + 16384 * mvlcConstants.AddressIncrement) := by
  refine ⟨?_, ?_, ?_, by decide⟩
  · exact setup_readout_stacks_eval_pair (markerStack 8191) (markerStack 0) 16384 2 520 520
      (by rw [length_mvlcStackBuffer_markerStack]) (by rw [length_mvlcStackBuffer_markerStack])
      (markerStack_suppressPipeOutput _) (markerStack_suppressPipeOutput _)
      (by decide) (by decide) (by decide) (by decide)
  · rw [length_mvlcStackBuffer_markerStack]
  · rw [length_mvlcStackBuffer_markerStack]

/-! ## C5 -/

/-- C5 fails on the code (16-bit truncation of the upload offsets, which the
window check does not catch): a stack of 16382 encoded words followed by one
of two words is accepted; the first is uploaded at word offset 129 (byte offset
516) and the second at byte offset 512, not at the byte offset of word
`129 + 16382 + 1`. -/
theorem setup_readout_stacks_next_offset_wraps :
    setup_readout_stacks mvlcConstants mvlcStackBuffer idleDevice.recording ((), [])
        [markerStack 8190, markerStack 0]
      = (ErrorCode.NoError,
          ((), [DeviceOp.uploadStack 1 516 (markerStack 8190),
                DeviceOp.writeRegister 0x1204 516,
                DeviceOp.uploadStack 1 512 (markerStack 0),
                DeviceOp.writeRegister 0x1208 512])) ∧
    (mvlcStackBuffer (markerStack 8190)).length = 16382 ∧
    516 = (mvlcConstants.ImmediateStackStartOffsetWords
            + mvlcConstants.ImmediateStackReservedWords + 1) * mvlcConstants.AddressIncrement ∧
    512 ≠ 516 + (16382 + 1) * mvlcConstants.AddressIncrement := by
  refine ⟨?_, ?_, by decide, by decide⟩
  · exact setup_readout_stacks_eval_pair (markerStack 8190) (markerStack 0) 16382 2 512 512
      (by rw [length_mvlcStackBuffer_markerStack]) (by rw [length_mvlcStackBuffer_markerStack])
      (markerStack_suppressPipeOutput _) (markerStack_suppressPipeOutput _)
      (by decide) (by decide) (by decide) (by decide)
  · rw [length_mvlcStackBuffer_markerStack]

/-! ## C6 -/

/-- Every upload that a run of the loop appends to the log carries the pipe
chosen from the flag of the uploaded builder. -/
theorem setup_readout_stacks_loop_pipes {σ : Type} (K : Constants)
    (msb : StackCommandBuilder → List Nat) (d : DialogAPI σ)
    (rs : List StackCommandBuilder) :
    ∀ (stackId off : Nat) (s : σ) (log : List DeviceOp) (p a : Nat) (x : StackCommandBuilder),
      DeviceOp.uploadStack p a x ∈
          (setup_readout_stacks_loop K msb d.recording rs stackId off (s, log)).2.2 →
      DeviceOp.uploadStack p a x ∈ log ∨ p = outputPipeOf K x := by
  induction rs with
  | nil => intro stackId off s log p a x h; left; simpa [setup_readout_stacks_loop] using h
  | cons b rest ih =>
    intro stackId off s log p a x h
    rw [setup_readout_stacks_loop_recording_cons] at h
    have hops : ∀ n, DeviceOp.uploadStack p a x ∈ log ++ (stackOps K b stackId off).take n →
        DeviceOp.uploadStack p a x ∈ log ∨ p = outputPipeOf K x := by
      intro n hn
      rcases List.mem_append.1 hn with hl | hr
      · exact Or.inl hl
      · have hr2 := List.mem_of_mem_take hr
        simp only [stackOps, List.mem_cons, DeviceOp.uploadStack.injEq, List.mem_singleton,
          reduceCtorEq, or_false, List.not_mem_nil] at hr2
        obtain ⟨hp, _, hx⟩ := hr2
        right; rw [hp, hx]
    by_cases hcount : K.StackCount ≤ stackId
    · simp only [hcount, if_true] at h; exact Or.inl h
    · simp only [hcount, if_false] at h
      by_cases hmem : K.StackMemoryEnd ≤ endAddressAt K off (msb b).length
      · simp only [hmem, if_true] at h; exact Or.inl h
      · simp only [hmem, if_false] at h
        by_cases hu : (d.uploadStack s (outputPipeOf K b) (uploadAddressAt K off) b).1.isError
        · simp only [hu, if_true] at h
          exact hops 1 h
        · simp only [hu] at h
          by_cases hw : (d.writeRegister
              (d.uploadStack s (outputPipeOf K b) (uploadAddressAt K off) b).2
              (K.get_offset_register stackId % 65536)
              ((uploadAddressAt K off &&& K.StackOffsetBitMaskBytes) % 4294967296)).1.isError
          · simp only [hw, if_true] at h
            exact hops 2 (by simpa [stackOps] using h)
          · simp only [hw] at h
            rcases ih _ _ _ _ p a x h with hl | hr
            · exact hops 2 (by simpa [stackOps] using hl)
            · exact Or.inr hr

/-- C6: in every run of `setup_readout_stacks`, on any device and whatever the
outcome, each `uploadStack` call carries the `SuppressPipeOutput` sentinel if
and only if the uploaded builder has its `suppressPipeOutput` flag set, and the
data pipe otherwise; in particular a default constructed builder is uploaded
with the data pipe.  The two pipe constants are distinct `u8` values. -/
theorem setup_readout_stacks_output_pipe {σ : Type} (K : Constants)
    (msb : StackCommandBuilder → List Nat) (d : DialogAPI σ) (s : σ)
    (readoutStacks : List StackCommandBuilder)
    (hS : K.SuppressPipeOutput < 256) (hD : K.DataPipe < 256)
    (hne : K.SuppressPipeOutput ≠ K.DataPipe)
    (p a : Nat) (b : StackCommandBuilder)
    (h : DeviceOp.uploadStack p a b ∈
      (setup_readout_stacks K msb d.recording (s, []) readoutStacks).2.2) :
    (p = K.SuppressPipeOutput ↔ b.suppressPipeOutput = true) ∧
    (b.suppressPipeOutput = false → p = K.DataPipe) ∧
    (b = {} → p = K.DataPipe) := by
  have hp : p = outputPipeOf K b := by
    rcases setup_readout_stacks_loop_pipes K msb d readoutStacks _ _ s [] p a b h with hl | hr
    · simp at hl
    · exact hr
  have hflag : ∀ f : Bool, b.suppressPipeOutput = f →
      p = if f then K.SuppressPipeOutput else K.DataPipe := by
    intro f hf
    rw [hp, outputPipeOf, hf]
    cases f
    · simpa using Nat.mod_eq_of_lt hD
    · simpa using Nat.mod_eq_of_lt hS
  refine ⟨?_, ?_, ?_⟩
  · cases hb : b.suppressPipeOutput
    · have := hflag false hb
      simp only [Bool.false_eq_true, if_false] at this
      simp [this, hne.symm]
    · have := hflag true hb
      simpa using this
  · intro hb
    simpa using hflag false hb
  · intro hb
    subst hb
    simpa using hflag false rfl

/-- A single stack with the suppress flag set, on `idleDevice`: it is uploaded
with the sentinel pipe 2. -/
theorem setup_readout_stacks_eval_quiet :
    setup_readout_stacks mvlcConstants mvlcStackBuffer idleDevice.recording ((), []) [quietStack]
      = (ErrorCode.NoError,
          ((), [DeviceOp.uploadStack 2 516 quietStack, DeviceOp.writeRegister 0x1204 516])) := by
  decide

/-- C6 applies to the upload of `quietStack` on `idleDevice`. -/
theorem setup_readout_stacks_output_pipe_witness :
    DeviceOp.uploadStack 2 516 quietStack ∈
      (setup_readout_stacks mvlcConstants mvlcStackBuffer idleDevice.recording ((), [])
        [quietStack]).2.2 ∧
    ((2 = mvlcConstants.SuppressPipeOutput ↔ quietStack.suppressPipeOutput = true) ∧
     (quietStack.suppressPipeOutput = false → 2 = mvlcConstants.DataPipe) ∧
     (quietStack = {} → 2 = mvlcConstants.DataPipe)) :=
  ⟨by rw [setup_readout_stacks_eval_quiet]; simp,
   setup_readout_stacks_output_pipe mvlcConstants mvlcStackBuffer idleDevice ()
    [quietStack] (by decide) (by decide) (by decide) 2 516 quietStack
    (by rw [setup_readout_stacks_eval_quiet]; simp)⟩


/-! ## C7 -/

/-- The trigger loop appends one `WriteLocal` per trigger value, for consecutive
stack ids, as long as the `u8` stack id does not wrap. -/
theorem setup_readout_triggers_loop_commands (K : Constants)
    (hreg : ∀ id, id < 256 → K.get_trigger_register id < 65536)
    (triggerValues : List Nat) :
    ∀ (stackId : Nat) (sb : SuperCommandBuilder),
      stackId + triggerValues.length ≤ 256 →
      (∀ v ∈ triggerValues, v < 4294967296) →
      (setup_readout_triggers_loop K triggerValues stackId sb).m_commands =
        sb.m_commands ++ (List.range triggerValues.length).map (fun i =>
          (⟨SuperCommandType.WriteLocal, K.get_trigger_register (stackId + i),
            triggerValues.getD i 0⟩ : SuperCommand)) := by
  induction triggerValues with
  | nil => intro stackId sb _ _; simp [setup_readout_triggers_loop]
  | cons v rest ih =>
    intro stackId sb hlen hv
    simp only [List.length_cons] at hlen
    have hid : (stackId + 1) % 256 = stackId + 1 ∨ rest = [] := by
      by_cases hr : rest = []
      · exact Or.inr hr
      · left
        have : 0 < rest.length := List.length_pos.2 hr
        apply Nat.mod_eq_of_lt; omega
    have hv0 : v % 4294967296 = v := Nat.mod_eq_of_lt (hv v (by simp))
    have hr0 : K.get_trigger_register stackId % 65536 = K.get_trigger_register stackId :=
      Nat.mod_eq_of_lt (hreg stackId (by omega))
    rcases hid with hid | hnil
    · rw [setup_readout_triggers_loop, hid, ih (stackId + 1) _ (by omega)
        (fun w hw => hv w (by simp [hw]))]
      simp only [SuperCommandBuilder.addWriteLocal, hv0, hr0, List.append_assoc,
        List.singleton_append, List.length_cons, List.range_succ_eq_map, List.map_cons,
        List.map_map, Nat.add_zero, List.getD_cons_zero]
      congr 2
      apply List.map_congr_left
      intro i _
      simp [Nat.add_assoc, Nat.add_comm 1 i]
    · subst hnil
      have hone : List.range 1 = [0] := rfl
      simp [setup_readout_triggers_loop, SuperCommandBuilder.addWriteLocal, hv0, hr0, hone]

/-- C7: `setup_readout_triggers` issues exactly one `superTransaction` and no
other device operation; its command sequence is the reference word `0x1337`
followed, for `i = 0 .. ReadoutStackCount - 1` in order, by
`WriteLocal(get_trigger_register(ImmediateStackID + 1 + i), triggerValues[i])`;
the function returns the error code of that transaction.  The overload taking
`StackTrigger`s does the same with the trigger words computed by
`trigger_value`.  The array has `ReadoutStackCount` entries of type `u32`, the
stack ids fit a `u8` and the register addresses a `u16`. -/
theorem setup_readout_triggers_single_transaction {σ : Type} (K : Constants)
    (d : DialogAPI σ) (s : σ) (triggerValues : List Nat)
    (hlen : triggerValues.length = K.ReadoutStackCount)
    (hvals : ∀ v ∈ triggerValues, v < 4294967296)
    (hid : K.ImmediateStackID + K.ReadoutStackCount < 256)
    (hreg : ∀ id, id < 256 → K.get_trigger_register id < 65536) :
    setup_readout_triggers K d.recording (s, []) triggerValues
      = ((d.superTransaction s ⟨readoutTriggerCommands K triggerValues⟩ []).1,
         ((d.superTransaction s ⟨readoutTriggerCommands K triggerValues⟩ []).2.2,
          [DeviceOp.superTransaction ⟨readoutTriggerCommands K triggerValues⟩])) ∧
    (setup_readout_triggers K d s triggerValues).1
      = (d.superTransaction s ⟨readoutTriggerCommands K triggerValues⟩ []).1 ∧
    ∀ (trigger_value : Nat → Nat → Nat) (triggers : List StackTrigger),
      triggers.map (fun st => trigger_value st.triggerType st.irqLevel % 4294967296)
          = triggerValues →
      setup_readout_triggers_StackTrigger K trigger_value d.recording (s, []) triggers
        = ((d.superTransaction s ⟨readoutTriggerCommands K triggerValues⟩ []).1,
           ((d.superTransaction s ⟨readoutTriggerCommands K triggerValues⟩ []).2.2,
            [DeviceOp.superTransaction ⟨readoutTriggerCommands K triggerValues⟩])) := by
  have hsb : setup_readout_triggers_loop K triggerValues (firstReadoutStackId K)
      (SuperCommandBuilder.addReferenceWord {} 0x1337)
        = ⟨readoutTriggerCommands K triggerValues⟩ := by
    have hcmd : ∀ x y : SuperCommandBuilder, x.m_commands = y.m_commands → x = y := by
      intro x y hxy; cases x; cases y; simpa using hxy
    apply hcmd
    by_cases hnil : triggerValues = []
    · subst hnil
      simp only [List.length_nil] at hlen
      simp [setup_readout_triggers_loop, readoutTriggerCommands, ← hlen,
        SuperCommandBuilder.addReferenceWord]
    · have hpos : 0 < triggerValues.length := List.length_pos.2 hnil
      have hfirst : firstReadoutStackId K = K.ImmediateStackID + 1 := by
        unfold firstReadoutStackId
        apply Nat.mod_eq_of_lt; omega
      rw [setup_readout_triggers_loop_commands K hreg triggerValues _ _
        (by rw [hfirst]; omega) hvals, hfirst, hlen]
      simp [readoutTriggerCommands, SuperCommandBuilder.addReferenceWord]
  have hrec : setup_readout_triggers K d.recording (s, []) triggerValues
      = ((d.superTransaction s ⟨readoutTriggerCommands K triggerValues⟩ []).1,
         ((d.superTransaction s ⟨readoutTriggerCommands K triggerValues⟩ []).2.2,
          [DeviceOp.superTransaction ⟨readoutTriggerCommands K triggerValues⟩])) := by
    simp only [setup_readout_triggers, hsb]
    simp [DialogAPI.recording]
  refine ⟨hrec, ?_, ?_⟩
  · simp only [setup_readout_triggers, hsb]
  · intro trigger_value triggers hmap
    simp only [setup_readout_triggers_StackTrigger, hmap]
    exact hrec

/-- C7 applies to the trigger values `1 .. 7` on `idleDevice`. -/
theorem setup_readout_triggers_single_transaction_witness :
    setup_readout_triggers mvlcConstants idleDevice.recording ((), []) [1, 2, 3, 4, 5, 6, 7]
      = (ErrorCode.NoError, ((), [DeviceOp.superTransaction ⟨
          [⟨SuperCommandType.ReferenceWord, 0, 0x1337⟩,
           ⟨SuperCommandType.WriteLocal, 0x1104, 1⟩, ⟨SuperCommandType.WriteLocal, 0x1108, 2⟩,
           ⟨SuperCommandType.WriteLocal, 0x110C, 3⟩, ⟨SuperCommandType.WriteLocal, 0x1110, 4⟩,
           ⟨SuperCommandType.WriteLocal, 0x1114, 5⟩, ⟨SuperCommandType.WriteLocal, 0x1118, 6⟩,
           ⟨SuperCommandType.WriteLocal, 0x111C, 7⟩]⟩])) :=
  (setup_readout_triggers_single_transaction mvlcConstants idleDevice ()
    [1, 2, 3, 4, 5, 6, 7] (by decide) (by decide) (by decide)
    (by intro id hid; simp only [mvlcConstants]; omega)).1


/-! ## C8 -/

/-- With a `u8` stack count and enough fuel the loop of
`disable_all_triggers_and_daq_mode` ends, having appended one `WriteLocal` of
`NoTrigger` for every stack id from `stackId` up to `StackCount - 1`. -/
theorem disable_all_triggers_loop_commands (K : Constants)
    (hcnt : K.StackCount < 256)
    (hreg : ∀ id, id < K.StackCount → K.get_trigger_register id < 65536)
    (hno : K.NoTrigger < 4294967296) :
    ∀ (fuel stackId : Nat) (sb : SuperCommandBuilder),
      stackId ≤ K.StackCount → K.StackCount - stackId < fuel →
      disable_all_triggers_loop K fuel stackId sb =
        some ⟨sb.m_commands ++ (List.range (K.StackCount - stackId)).map (fun i =>
          (⟨SuperCommandType.WriteLocal, K.get_trigger_register (stackId + i),
            K.NoTrigger⟩ : SuperCommand))⟩ := by
  intro fuel
  induction fuel with
  | zero => intro stackId sb _ h; omega
  | succ fuel ih =>
    intro stackId sb hle hfuel
    rw [disable_all_triggers_loop]
    by_cases hlt : stackId < K.StackCount
    · have hid : (stackId + 1) % 256 = stackId + 1 := Nat.mod_eq_of_lt (by omega)
      have hsub : K.StackCount - stackId = (K.StackCount - (stackId + 1)) + 1 := by omega
      simp only [hlt, if_true, hid]
      rw [ih (stackId + 1) _ (by omega) (by omega), hsub, List.range_succ_eq_map]
      simp only [SuperCommandBuilder.addWriteLocal, Nat.mod_eq_of_lt (hreg stackId hlt),
        Nat.mod_eq_of_lt hno, List.append_assoc, List.singleton_append, List.map_cons,
        List.map_map, Nat.add_zero]
      congr 3
      congr 1
      apply List.map_congr_left
      intro i _
      simp [Nat.add_assoc, Nat.add_comm 1 i]
    · have hz : K.StackCount - stackId = 0 := by omega
      simp [hlt, hz]

/-- C8: `disable_all_triggers_and_daq_mode` issues exactly one
`superTransaction` and no other device operation; its command sequence has
`StackCount + 2` commands: the reference word `0x1338`,
`WriteLocal(DAQModeEnableRegister, 0)`, then
`WriteLocal(get_trigger_register(id), NoTrigger)` for every stack id
`0 .. StackCount - 1` in increasing order, the immediate stack included; the
function returns the error code of that transaction.  The stack count fits a
`u8`, the register addresses a `u16` and `NoTrigger` a `u32`; the loop ends
within `StackCount + 1` iterations. -/
theorem disable_all_triggers_and_daq_mode_single_transaction {σ : Type} (K : Constants)
    (d : DialogAPI σ) (s : σ) (fuel : Nat)
    (hcnt : K.StackCount < 256)
    (hreg : ∀ id, id < K.StackCount → K.get_trigger_register id < 65536)
    (hdaq : K.DAQModeEnableRegister < 65536)
    (hno : K.NoTrigger < 4294967296)
    (hfuel : K.StackCount < fuel) :
    disable_all_triggers_and_daq_mode K d.recording (s, []) fuel
      = some ((d.superTransaction s ⟨disableAllCommands K⟩ []).1,
         ((d.superTransaction s ⟨disableAllCommands K⟩ []).2.2,
          [DeviceOp.superTransaction ⟨disableAllCommands K⟩])) ∧
    (disable_all_triggers_and_daq_mode K d s fuel).map (fun r => r.1)
      = some (d.superTransaction s ⟨disableAllCommands K⟩ []).1 ∧
    (disableAllCommands K).length = K.StackCount + 2 ∧
    (K.ImmediateStackID < K.StackCount →
      (⟨SuperCommandType.WriteLocal, K.get_trigger_register K.ImmediateStackID, K.NoTrigger⟩ :
        SuperCommand) ∈ disableAllCommands K) := by
  have hsb : disable_all_triggers_loop K fuel 0
      ((SuperCommandBuilder.addReferenceWord {} 0x1338).addWriteLocal K.DAQModeEnableRegister 0)
        = some ⟨disableAllCommands K⟩ := by
    rw [disable_all_triggers_loop_commands K hcnt hreg hno fuel 0 _ (Nat.zero_le _)
      (by omega)]
    simp [disableAllCommands, SuperCommandBuilder.addReferenceWord,
      SuperCommandBuilder.addWriteLocal, Nat.mod_eq_of_lt hdaq]
  refine ⟨?_, ?_, ?_, ?_⟩
  · simp only [disable_all_triggers_and_daq_mode, hsb]
    simp [DialogAPI.recording]
  · simp only [disable_all_triggers_and_daq_mode, hsb]
    simp
  · simp [disableAllCommands]
  · intro himm
    simp only [disableAllCommands, List.mem_cons, List.mem_map, List.mem_range]
    right; right
    exact ⟨K.ImmediateStackID, himm, rfl⟩

/-- C8 applies to `mvlcConstants` on `idleDevice` with fuel 9: one transaction
of ten commands. -/
theorem disable_all_triggers_and_daq_mode_single_transaction_witness :
    disable_all_triggers_and_daq_mode mvlcConstants idleDevice.recording ((), []) 9
      = some (ErrorCode.NoError, ((), [DeviceOp.superTransaction ⟨
          [⟨SuperCommandType.ReferenceWord, 0, 0x1338⟩,
           ⟨SuperCommandType.WriteLocal, 0x1300, 0⟩,
           ⟨SuperCommandType.WriteLocal, 0x1100, 0⟩, ⟨SuperCommandType.WriteLocal, 0x1104, 0⟩,
           ⟨SuperCommandType.WriteLocal, 0x1108, 0⟩, ⟨SuperCommandType.WriteLocal, 0x110C, 0⟩,
           ⟨SuperCommandType.WriteLocal, 0x1110, 0⟩, ⟨SuperCommandType.WriteLocal, 0x1114, 0⟩,
           ⟨SuperCommandType.WriteLocal, 0x1118, 0⟩,
           ⟨SuperCommandType.WriteLocal, 0x111C, 0⟩]⟩])) :=
  (disable_all_triggers_and_daq_mode_single_transaction mvlcConstants idleDevice () 9
    (by decide) (by intro id hid; simp only [mvlcConstants] at hid ⊢; omega)
    (by decide) (by decide) (by decide)).1


/-! ## C9 -/

/-- A run of the loop of `read_stack_contents` that ends without error has read
consecutive addresses from `addr` on, appended the words read to the contents,
and stopped at the first word carrying the StackEnd tag. -/
theorem read_stack_contents_loop_ok {σ : Type} (K : Constants) (d : DialogAPI σ)
    (hEnd : K.StackMemoryEnd ≤ 65536)
    (hAI : K.AddressIncrement + 65536 ≤ 4294967296) :
    ∀ (fuel addr value : Nat) (contents : List Nat) (s : σ) (log : List DeviceOp)
      (result : List Nat) (s' : σ) (log' : List DeviceOp),
      read_stack_contents_loop K d.recording fuel addr value contents (s, log)
        = some ((result, ErrorCode.NoError), (s', log')) →
      ∃ middle last, result = contents ++ (middle ++ [last]) ∧
        commandTag K last = K.StackEnd ∧
        (∀ w ∈ middle, commandTag K w ≠ K.StackEnd) ∧
        log' = log ++ List.zipWith DeviceOp.readRegister
          ((List.range (middle.length + 1)).map (fun i => addr + i * K.AddressIncrement))
          (middle ++ [last]) := by
  intro fuel
  induction fuel with
  | zero => intro addr value contents s log result s' log' h; simp [read_stack_contents_loop] at h
  | succ fuel ih =>
    intro addr value contents s log result s' log' h
    rw [read_stack_contents_loop] at h
    by_cases hge : addr ≥ K.StackMemoryEnd
    · simp [hge] at h
    · have haddr : addr % 65536 = addr := Nat.mod_eq_of_lt (by omega)
      have hnext : (addr + K.AddressIncrement) % 4294967296 = addr + K.AddressIncrement :=
        Nat.mod_eq_of_lt (by omega)
      simp only [hge, if_false, haddr, hnext] at h
      by_cases herr : (d.recording.readRegister (s, log) addr value).1.isError
      · simp only [herr, if_true, Option.some.injEq, Prod.mk.injEq] at h
        rw [h.1.2] at herr
        simp [ErrorCode.isError] at herr
      · simp only [herr] at h
        by_cases htag : commandTag K (d.recording.readRegister (s, log) addr value).2.1
            = K.StackEnd
        · simp only [htag, ne_eq, not_true_eq_false, if_false, Option.some.injEq,
            Prod.mk.injEq, Bool.false_eq_true, and_true] at h
          obtain ⟨hres, hst⟩ := h
          refine ⟨[], (d.readRegister s addr value).2.1, ?_, ?_, ?_, ?_⟩
          · rw [← hres]; simp [DialogAPI.recording]
          · simpa [DialogAPI.recording] using htag
          · intro w hw; simp at hw
          · have hlog : log' = log ++ [DeviceOp.readRegister addr (d.readRegister s addr value).2.1] := by
              have := congrArg Prod.snd hst
              simpa [DialogAPI.recording] using this.symm
            have hone : List.range 1 = [0] := rfl
            rw [hlog]; simp [hone]
        · simp only [ne_eq, htag, not_false_eq_true, if_true, Bool.false_eq_true, if_false] at h
          obtain ⟨middle, last, hres, hlast, hmid, hlog⟩ := ih _ _ _ _ _ _ _ _ h
          refine ⟨(d.readRegister s addr value).2.1 :: middle, last, ?_, hlast, ?_, ?_⟩
          · rw [hres]; simp [DialogAPI.recording]
          · intro w hw
            rcases List.mem_cons.1 hw with hw | hw
            · rw [hw]; simpa [DialogAPI.recording] using htag
            · exact hmid w hw
          · rw [hlog]
            simp only [DialogAPI.recording, List.length_cons, List.append_assoc,
              List.singleton_append, List.cons_append]
            have hmap : ∀ l : List Nat,
                List.map ((fun i => addr + i * K.AddressIncrement) ∘ Nat.succ) l
                  = List.map (fun i => addr + K.AddressIncrement + i * K.AddressIncrement) l := by
              intro l
              apply List.map_congr_left
              intro i _
              simp only [Function.comp, Nat.succ_mul]
              omega
            rw [List.range_succ_eq_map (middle.length + 1)]
            simp only [List.map_cons, List.map_map, Nat.zero_mul, Nat.add_zero,
              List.zipWith_cons_cons, hmap, List.nil_append]

/-- The command tag of a word is at most `CmdMask`. -/
theorem commandTag_le (K : Constants) (w : Nat) : commandTag K w ≤ K.CmdMask :=
  Nat.and_le_right

/-- Reading the example stack at `0x2204` gives its three words. -/
theorem read_stack_contents_eval_example :
    read_stack_contents mvlcConstants (staticDevice exampleStackMemory).recording ((), [])
        0x2204 10
      = some (([0xF3010000, 0x12345678, 0xF4000000], ErrorCode.NoError),
          ((), [DeviceOp.readRegister 0x2204 0xF3010000, DeviceOp.readRegister 0x2208 0x12345678,
                DeviceOp.readRegister 0x220C 0xF4000000])) := by
  decide

/-- C9: whenever `read_stack_contents` returns without error, the register
reads it made are those of the consecutive addresses `startAddress`,
`startAddress + AddressIncrement`, ... and the returned contents are the words
read, in order; the first word carries the StackStart tag, the last word the
StackEnd tag and no word strictly between them the StackEnd tag, so the result
has at least two words.  The start address is a `u16`, the stack memory ends
within the 16-bit address space, the address increment cannot wrap the 32-bit
loop address and the command tag fits a `u8`. -/
theorem read_stack_contents_ok {σ : Type} (K : Constants) (d : DialogAPI σ) (s : σ)
    (startAddress fuel : Nat) (contents : List Nat) (s' : σ) (trace : List DeviceOp)
    (hstart : startAddress < 65536)
    (hEnd : K.StackMemoryEnd ≤ 65536)
    (hAI : K.AddressIncrement + 65536 ≤ 4294967296)
    (hmask : K.CmdMask < 256)
    (h : read_stack_contents K d.recording (s, []) startAddress fuel
      = some ((contents, ErrorCode.NoError), (s', trace))) :
    ∃ header middle last, contents = header :: (middle ++ [last]) ∧
      commandTag K header = K.StackStart ∧
      commandTag K last = K.StackEnd ∧
      (∀ w ∈ middle, commandTag K w ≠ K.StackEnd) ∧
      2 ≤ contents.length ∧
      trace = List.zipWith DeviceOp.readRegister
        ((List.range contents.length).map (fun i => startAddress + i * K.AddressIncrement))
        contents := by
  unfold read_stack_contents at h
  have hnext : (startAddress + K.AddressIncrement) % 4294967296
      = startAddress + K.AddressIncrement := Nat.mod_eq_of_lt (by omega)
  by_cases herr : (d.recording.readRegister (s, []) startAddress 0).1.isError
  · simp only [herr, if_true, Option.some.injEq, Prod.mk.injEq] at h
    rw [h.1.2] at herr
    simp [ErrorCode.isError] at herr
  · simp only [herr, hnext] at h
    have htagmod : commandTag K (d.recording.readRegister (s, []) startAddress 0).2.1 % 256
        = commandTag K (d.recording.readRegister (s, []) startAddress 0).2.1 :=
      Nat.mod_eq_of_lt (lt_of_le_of_lt (commandTag_le K _) hmask)
    by_cases hhdr : commandTag K (d.recording.readRegister (s, []) startAddress 0).2.1
        = K.StackStart
    · rw [htagmod] at h
      simp only [hhdr, ne_eq, not_true_eq_false, if_false, Bool.false_eq_true] at h
      obtain ⟨middle, last, hres, hlast, hmid, hlog⟩ :=
        read_stack_contents_loop_ok K d hEnd hAI _ _ _ _ _ _ _ _ _ h
      refine ⟨(d.readRegister s startAddress 0).2.1, middle, last, ?_, ?_, hlast, hmid, ?_, ?_⟩
      · rw [hres]; simp [DialogAPI.recording]
      · simpa [DialogAPI.recording] using hhdr
      · rw [hres]; simp
      · have hmap : ∀ l : List Nat,
            List.map ((fun i => startAddress + i * K.AddressIncrement) ∘ Nat.succ) l
              = List.map
                  (fun i => startAddress + K.AddressIncrement + i * K.AddressIncrement) l := by
          intro l
          apply List.map_congr_left
          intro i _
          simp only [Function.comp, Nat.succ_mul]
          omega
        rw [hlog, hres]
        simp only [DialogAPI.recording, List.singleton_append, List.length_cons,
          List.length_append, List.length_singleton, List.nil_append, List.length_nil,
          Nat.zero_add]
        rw [List.range_succ_eq_map (middle.length + 1)]
        simp only [List.map_cons, List.map_map, Nat.zero_mul, Nat.add_zero,
          List.zipWith_cons_cons, hmap]
    · rw [htagmod] at h
      simp only [ne_eq, hhdr, not_false_eq_true, if_true, Option.some.injEq,
        Prod.mk.injEq, reduceCtorEq, and_false, false_and, Bool.false_eq_true, if_false] at h

/-- C9 applies to the example stack memory read from `0x2204`. -/
theorem read_stack_contents_ok_witness :
    read_stack_contents mvlcConstants (staticDevice exampleStackMemory).recording ((), [])
        0x2204 10
      = some (([0xF3010000, 0x12345678, 0xF4000000], ErrorCode.NoError),
          ((), [DeviceOp.readRegister 0x2204 0xF3010000, DeviceOp.readRegister 0x2208 0x12345678,
                DeviceOp.readRegister 0x220C 0xF4000000])) ∧
    ∃ header middle last,
      [0xF3010000, 0x12345678, 0xF4000000] = header :: (middle ++ [last]) ∧
      commandTag mvlcConstants header = mvlcConstants.StackStart ∧
      commandTag mvlcConstants last = mvlcConstants.StackEnd ∧
      (∀ w ∈ middle, commandTag mvlcConstants w ≠ mvlcConstants.StackEnd) ∧
      2 ≤ [0xF3010000, 0x12345678, 0xF4000000].length ∧
      [DeviceOp.readRegister 0x2204 0xF3010000, DeviceOp.readRegister 0x2208 0x12345678,
          DeviceOp.readRegister 0x220C 0xF4000000]
        = List.zipWith DeviceOp.readRegister
            ((List.range [0xF3010000, 0x12345678, 0xF4000000].length).map
              (fun i => 0x2204 + i * mvlcConstants.AddressIncrement))
            [0xF3010000, 0x12345678, 0xF4000000] :=
  ⟨read_stack_contents_eval_example,
   read_stack_contents_ok mvlcConstants (staticDevice exampleStackMemory) () 0x2204 10
    [0xF3010000, 0x12345678, 0xF4000000] ()
    [DeviceOp.readRegister 0x2204 0xF3010000, DeviceOp.readRegister 0x2208 0x12345678,
      DeviceOp.readRegister 0x220C 0xF4000000]
    (by decide) (by decide) (by decide) (by decide) read_stack_contents_eval_example⟩

/-! ## C10 -/

/-- C10: for every start address, if the register read at `startAddress`
succeeds with a word `w` whose command tag `(w >> CmdShift) & CmdMask` is not
StackStart, `read_stack_contents` returns `InvalidStackHeader` together with the
contents `[w]` and makes no further register read (for every amount of fuel,
the loop is not entered).  The command tag fits a `u8`. -/
theorem read_stack_contents_invalid_header {σ : Type} (K : Constants) (d : DialogAPI σ)
    (s : σ) (startAddress fuel : Nat) (ec : ErrorCode) (w : Nat) (s' : σ)
    (hmask : K.CmdMask < 256)
    (hread : d.readRegister s startAddress 0 = (ec, w, s'))
    (hok : ec.isError = false)
    (htag : commandTag K w ≠ K.StackStart) :
    read_stack_contents K d.recording (s, []) startAddress fuel
      = some (([w], ErrorCode.MVLC MVLCErrorCode.InvalidStackHeader),
          (s', [DeviceOp.readRegister startAddress w])) ∧
    read_stack_contents K d s startAddress fuel
      = some (([w], ErrorCode.MVLC MVLCErrorCode.InvalidStackHeader), s') := by
  have htagmod : commandTag K w % 256 = commandTag K w :=
    Nat.mod_eq_of_lt (lt_of_le_of_lt (commandTag_le K w) hmask)
  constructor
  · simp [read_stack_contents, DialogAPI.recording, hread, hok, htagmod, htag]
  · simp [read_stack_contents, hread, hok, htagmod, htag]

/-- C10 applies to the example stack memory read from `0x2208`, a data word. -/
theorem read_stack_contents_invalid_header_witness :
    read_stack_contents mvlcConstants (staticDevice exampleStackMemory).recording ((), [])
        0x2208 0
      = some (([0x12345678], ErrorCode.MVLC MVLCErrorCode.InvalidStackHeader),
          ((), [DeviceOp.readRegister 0x2208 0x12345678])) :=
  (read_stack_contents_invalid_header mvlcConstants (staticDevice exampleStackMemory) ()
    0x2208 0 ErrorCode.NoError 0x12345678 () (by decide) (by decide) (by decide)
    (by decide)).1


/-! ## C11 -/

/-- No address from `StackMemoryEnd` on is counted by `wordsBelowEnd`. -/
theorem wordsBelowEnd_of_ge (K : Constants) (addr : Nat) (hAI : 0 < K.AddressIncrement)
    (h : K.StackMemoryEnd ≤ addr) : wordsBelowEnd K addr = 0 := by
  unfold wordsBelowEnd
  have : K.StackMemoryEnd - addr = 0 := by omega
  rw [this, Nat.zero_add]
  exact Nat.div_eq_of_lt (by omega)

/-- An address below `StackMemoryEnd` is counted, together with the addresses
counted from the next one on. -/
theorem wordsBelowEnd_of_lt (K : Constants) (addr : Nat) (hAI : 0 < K.AddressIncrement)
    (h : addr < K.StackMemoryEnd) :
    wordsBelowEnd K addr = wordsBelowEnd K (addr + K.AddressIncrement) + 1 := by
  unfold wordsBelowEnd
  have h1 : K.StackMemoryEnd - addr + (K.AddressIncrement - 1)
      = (K.StackMemoryEnd - addr - 1) + K.AddressIncrement := by omega
  rw [h1, Nat.add_div_right _ hAI]
  congr 1
  by_cases hle : addr + K.AddressIncrement ≤ K.StackMemoryEnd
  · congr 1; omega
  · rw [Nat.div_eq_of_lt (by omega), Nat.div_eq_of_lt (by omega)]

/-- On a memory device whose words from `addr` on carry no StackEnd tag below
`StackMemoryEnd`, the loop of `read_stack_contents` reads every address below
`StackMemoryEnd` in steps of `AddressIncrement` and then ends with
`StackMemoryExceeded`, given fuel for one iteration more than there are words. -/
theorem read_stack_contents_loop_memory_exceeded (K : Constants) (mem : Nat → Nat)
    (hEnd : K.StackMemoryEnd ≤ 65536)
    (hAI0 : 0 < K.AddressIncrement)
    (hAI : K.AddressIncrement + 65536 ≤ 4294967296) :
    ∀ (fuel addr value : Nat) (contents : List Nat) (log : List DeviceOp),
      wordsBelowEnd K addr < fuel →
      (∀ j, addr + j * K.AddressIncrement < K.StackMemoryEnd →
        commandTag K (mem (addr + j * K.AddressIncrement)) ≠ K.StackEnd) →
      read_stack_contents_loop K (staticDevice mem).recording fuel addr value contents ((), log)
        = some ((contents ++ (List.range (wordsBelowEnd K addr)).map
                    (fun j => mem (addr + j * K.AddressIncrement)),
                  ErrorCode.MVLC MVLCErrorCode.StackMemoryExceeded),
                ((), log ++ (List.range (wordsBelowEnd K addr)).map
                    (fun j => DeviceOp.readRegister (addr + j * K.AddressIncrement)
                      (mem (addr + j * K.AddressIncrement))))) := by
  intro fuel
  induction fuel with
  | zero => intro addr value contents log h; omega
  | succ fuel ih =>
    intro addr value contents log hfuel hnoend
    rw [read_stack_contents_loop]
    by_cases hge : addr ≥ K.StackMemoryEnd
    · simp [hge, wordsBelowEnd_of_ge K addr hAI0 hge]
    · have hlt : addr < K.StackMemoryEnd := by omega
      have haddr : addr % 65536 = addr := Nat.mod_eq_of_lt (by omega)
      have hnext : (addr + K.AddressIncrement) % 4294967296 = addr + K.AddressIncrement :=
        Nat.mod_eq_of_lt (by omega)
      have hcount := wordsBelowEnd_of_lt K addr hAI0 hlt
      have htag : commandTag K (mem addr) ≠ K.StackEnd := by
        have := hnoend 0 (by simpa using hlt)
        simpa using this
      have hstep := ih (addr + K.AddressIncrement) (mem addr) (contents ++ [mem addr])
        (log ++ [DeviceOp.readRegister addr (mem addr)]) (by omega)
        (by
          intro j hj
          have := hnoend (j + 1) (by rw [Nat.succ_mul]; omega)
          rw [Nat.succ_mul] at this
          have e : addr + (j * K.AddressIncrement + K.AddressIncrement)
              = addr + K.AddressIncrement + j * K.AddressIncrement := by omega
          rw [e] at this
          exact this)
      have hmap : ∀ {β : Type} (f : Nat → β) (l : List Nat),
          List.map ((fun j => f (addr + j * K.AddressIncrement)) ∘ Nat.succ) l
            = List.map (fun j => f (addr + K.AddressIncrement + j * K.AddressIncrement)) l := by
        intro β f l
        apply List.map_congr_left
        intro j _
        simp only [Function.comp, Nat.succ_mul]
        congr 1
        omega
      simp only [hge, if_false, haddr, hnext, DialogAPI.recording, staticDevice,
        ErrorCode.isError, Bool.false_eq_true, htag, ne_eq, not_false_eq_true, if_true]
      simp only [DialogAPI.recording, staticDevice] at hstep
      rw [hstep, hcount, List.range_succ_eq_map]
      simp only [List.map_cons, List.map_map, Nat.zero_mul, Nat.add_zero, List.append_assoc,
        List.singleton_append]
      rw [hmap mem, hmap (fun a => DeviceOp.readRegister a (mem a))]

/-- C11: for every device memory whose word at `startAddress` carries the
StackStart tag and in which no word at the addresses
`startAddress + k * AddressIncrement` (`k >= 1`) below `StackMemoryEnd` carries
the StackEnd tag, `read_stack_contents` (every register read succeeding)
returns `StackMemoryExceeded` together with all words read up to that point, in
address order: the words of `startAddress` and of every such address.  The
start address is a `u16`, the stack memory ends within the 16-bit address
space, the address increment is positive and cannot wrap the 32-bit loop
address, the command tag fits a `u8`; the result is reached with fuel for one
loop iteration more than there are words to read. -/
theorem read_stack_contents_memory_exceeded (K : Constants) (mem : Nat → Nat)
    (startAddress fuel : Nat)
    (hstart : startAddress < 65536)
    (hEnd : K.StackMemoryEnd ≤ 65536)
    (hAI0 : 0 < K.AddressIncrement)
    (hAI : K.AddressIncrement + 65536 ≤ 4294967296)
    (hmask : K.CmdMask < 256)
    (hhdr : commandTag K (mem startAddress) = K.StackStart)
    (hnoend : ∀ k, 1 ≤ k → startAddress + k * K.AddressIncrement < K.StackMemoryEnd →
      commandTag K (mem (startAddress + k * K.AddressIncrement)) ≠ K.StackEnd)
    (hfuel : wordsBelowEnd K (startAddress + K.AddressIncrement) < fuel) :
    read_stack_contents K (staticDevice mem).recording ((), []) startAddress fuel
      = some (((List.range (wordsBelowEnd K (startAddress + K.AddressIncrement) + 1)).map
                  (fun k => mem (startAddress + k * K.AddressIncrement)),
                ErrorCode.MVLC MVLCErrorCode.StackMemoryExceeded),
              ((), (List.range (wordsBelowEnd K (startAddress + K.AddressIncrement) + 1)).map
                  (fun k => DeviceOp.readRegister (startAddress + k * K.AddressIncrement)
                    (mem (startAddress + k * K.AddressIncrement))))) := by
  have hnext : (startAddress + K.AddressIncrement) % 4294967296
      = startAddress + K.AddressIncrement := Nat.mod_eq_of_lt (by omega)
  have htagmod : commandTag K (mem startAddress) % 256 = commandTag K (mem startAddress) :=
    Nat.mod_eq_of_lt (lt_of_le_of_lt Nat.and_le_right hmask)
  have hloop := read_stack_contents_loop_memory_exceeded K mem hEnd hAI0 hAI fuel
    (startAddress + K.AddressIncrement) 0 [mem startAddress]
    [DeviceOp.readRegister startAddress (mem startAddress)] hfuel
    (by
      intro j hj
      have := hnoend (j + 1) (by omega) (by rw [Nat.succ_mul]; omega)
      rw [Nat.succ_mul] at this
      have e : startAddress + (j * K.AddressIncrement + K.AddressIncrement)
          = startAddress + K.AddressIncrement + j * K.AddressIncrement := by omega
      rw [e] at this
      exact this)
  have hmap : ∀ {β : Type} (f : Nat → β) (l : List Nat),
      List.map ((fun j => f (startAddress + j * K.AddressIncrement)) ∘ Nat.succ) l
        = List.map
            (fun j => f (startAddress + K.AddressIncrement + j * K.AddressIncrement)) l := by
    intro β f l
    apply List.map_congr_left
    intro j _
    simp only [Function.comp, Nat.succ_mul]
    congr 1
    omega
  have hS : K.StackStart % 256 = K.StackStart := by rw [← hhdr]; exact htagmod
  unfold read_stack_contents
  simp only [DialogAPI.recording, staticDevice, ErrorCode.isError, Bool.false_eq_true,
    if_false, hhdr, hS, ne_eq, not_true_eq_false, hnext, List.nil_append]
  simp only [DialogAPI.recording, staticDevice] at hloop
  rw [hloop, List.range_succ_eq_map]
  simp only [List.map_cons, List.map_map, Nat.zero_mul, Nat.add_zero, List.singleton_append]
  rw [hmap mem, hmap (fun a => DeviceOp.readRegister a (mem a))]

/-- C11 applies to a stack memory with a StackStart word at `0x2FF8` that is
followed by no StackEnd word: two words are read before the end of the stack
memory is reached. -/
theorem read_stack_contents_memory_exceeded_witness :
    read_stack_contents mvlcConstants (staticDevice unterminatedStackMemory).recording ((), [])
        0x2FF8 2
      = some (([0xF3000000, 0], ErrorCode.MVLC MVLCErrorCode.StackMemoryExceeded),
          ((), [DeviceOp.readRegister 0x2FF8 0xF3000000, DeviceOp.readRegister 0x2FFC 0])) :=
  read_stack_contents_memory_exceeded mvlcConstants unterminatedStackMemory 0x2FF8 2
    (by decide) (by decide) (by decide) (by decide) (by decide) (by decide)
    (by
      intro k hk hlt
      have hk1 : k = 1 := by
        simp only [mvlcConstants] at hlt
        omega
      subst hk1
      decide)
    (by decide)


/-! ## C12 -/

/-- C12: for every stack id `>= StackCount`, `read_stack_info` returns
`StackCountExceeded` with a zero-initialised `StackInfo` (triggers 0, offset 0,
startAddress 0, empty contents) and performs no register read on the device:
the device state and the log of device calls are returned as they were. -/
theorem read_stack_info_count_exceeded {σ : Type} (K : Constants) (d : DialogAPI σ) (s : σ)
    (id fuel : Nat) (h : id ≥ K.StackCount) :
    read_stack_info K d.recording (s, []) id fuel
      = some ((({ triggers := 0, offset := 0, startAddress := 0, contents := [] } : StackInfo),
          ErrorCode.MVLC MVLCErrorCode.StackCountExceeded), (s, [])) ∧
    read_stack_info K d s id fuel
      = some ((({ triggers := 0, offset := 0, startAddress := 0, contents := [] } : StackInfo),
          ErrorCode.MVLC MVLCErrorCode.StackCountExceeded), s) := by
  constructor <;> simp [read_stack_info, h]

/-- C12 applies to stack id 8 with `mvlcConstants` (8 stacks). -/
theorem read_stack_info_count_exceeded_witness :
    read_stack_info mvlcConstants idleDevice.recording ((), []) 8 0
      = some ((({ triggers := 0, offset := 0, startAddress := 0, contents := [] } : StackInfo),
          ErrorCode.MVLC MVLCErrorCode.StackCountExceeded), ((), [])) :=
  (read_stack_info_count_exceeded mvlcConstants idleDevice () 8 0 (by decide)).1

/-! ## C13 -/

/-- C13 as stated does not hold: with the offset register of stack 1 reading
`0xE000`, `read_stack_info` returns the offset `0xE000` and the start address
0, not `StackMemoryBegin + offset = 0x10000`. -/
theorem read_stack_info_startAddress_truncated :
    (read_stack_info mvlcConstants (staticDevice wideOffsetMemory) () 1 5).map
        (fun r => (r.1.1.offset, r.1.1.startAddress)) = some (0xE000, 0) ∧
    mvlcConstants.StackMemoryBegin + 0xE000 ≠ 0 := by
  decide

/-- C13 (amended): for every stack id `< StackCount` for which the
trigger-register and the offset-register read succeed, `read_stack_info`
returns a `StackInfo` whose `triggers` is the value read from
`get_trigger_register(id)`, whose `offset` is the value read from
`get_offset_register(id)`, whose `startAddress` is `StackMemoryBegin + offset`
reduced modulo 2^16 (the `u16` field), hence `StackMemoryBegin + offset`
whenever that sum is below 2^16, and whose contents and error code are those
of `read_stack_contents` at that start address, run on the device state the two
reads left.  The register addresses fit a `u16`. -/
theorem read_stack_info_ok {σ : Type} (K : Constants) (d : DialogAPI σ) (s : σ)
    (id fuel : Nat) (ec1 ec2 : ErrorCode) (triggers offset : Nat) (s1 s2 : σ)
    (hid : id < K.StackCount)
    (htreg : K.get_trigger_register id < 65536)
    (horeg : K.get_offset_register id < 65536)
    (hread1 : d.readRegister s (K.get_trigger_register id) 0 = (ec1, triggers, s1))
    (hok1 : ec1.isError = false)
    (hread2 : d.readRegister s1 (K.get_offset_register id) 0 = (ec2, offset, s2))
    (hok2 : ec2.isError = false) :
    read_stack_info K d s id fuel
      = (read_stack_contents K d s2 ((K.StackMemoryBegin + offset) % 65536) fuel).map
          (fun sc => ((({ triggers := triggers, offset := offset,
                           startAddress := (K.StackMemoryBegin + offset) % 65536,
                           contents := sc.1.1 } : StackInfo), sc.1.2), sc.2)) ∧
    (K.StackMemoryBegin + offset < 65536 →
      (K.StackMemoryBegin + offset) % 65536 = K.StackMemoryBegin + offset) := by
  refine ⟨?_, fun h => Nat.mod_eq_of_lt h⟩
  have hnot : ¬ id ≥ K.StackCount := by omega
  simp only [read_stack_info, hnot, if_false, Nat.mod_eq_of_lt htreg, Nat.mod_eq_of_lt horeg,
    hread1, hok1, hread2, hok2, Bool.false_eq_true]
  cases read_stack_contents K d s2 ((K.StackMemoryBegin + offset) % 65536) fuel <;> rfl

/-- C13 (amended) applies to stack 1 of the example device memory: trigger
word `0x42`, offset `0x204`, start address `0x2204` and the three words of the
stack stored there. -/
theorem read_stack_info_ok_witness :
    read_stack_info mvlcConstants (staticDevice exampleDeviceMemory) () 1 10
      = some ((({ triggers := 0x42, offset := 0x204, startAddress := 0x2204,
                  contents := [0xF3010000, 0x12345678, 0xF4000000] } : StackInfo),
                ErrorCode.NoError), ()) :=
  (read_stack_info_ok mvlcConstants (staticDevice exampleDeviceMemory) () 1 10
    ErrorCode.NoError ErrorCode.NoError 0x42 0x204 () ()
    (by decide) (by decide) (by decide) (by decide) (by decide) (by decide) (by decide)).1


/-! ## C14 -/

/-- C14: for every `StackCommandBuilder`, `empty()` is true if and only if the
builder has no groups or every group holds zero commands; equivalently, if and
only if the flattened command list, the concatenation of all groups' commands
in group order, is empty. -/
theorem StackCommandBuilder.empty_iff (b : StackCommandBuilder) :
    (b.empty = true ↔ (b.m_groups = [] ∨ ∀ group ∈ b.m_groups, group.commands = [])) ∧
    (b.empty = true ↔ b.getCommands = []) := by
  have hall : (b.m_groups.all (fun group => group.empty) = true)
      ↔ ∀ group ∈ b.m_groups, group.commands = [] := by
    simp [List.all_eq_true, StackCommandBuilder.Group.empty, List.isEmpty_iff]
  have hnil : b.m_groups = [] → ∀ group ∈ b.m_groups, group.commands = [] := by
    intro h group hg
    rw [h] at hg
    simp at hg
  have hflat : b.getCommands = [] ↔ ∀ group ∈ b.m_groups, group.commands = [] := by
    unfold StackCommandBuilder.getCommands
    induction b.m_groups with
    | nil => simp
    | cons g rest ih => simp [List.flatMap_cons, ih]
  have hempty : b.empty = true ↔ ∀ group ∈ b.m_groups, group.commands = [] := by
    unfold StackCommandBuilder.empty
    rw [Bool.or_eq_true, hall, List.isEmpty_iff]
    constructor
    · rintro (h | h)
      · exact hnil h
      · exact h
    · intro h; exact Or.inr h
  refine ⟨?_, ?_⟩
  · rw [hempty]
    constructor
    · intro h; exact Or.inr h
    · rintro (h | h)
      · exact hnil h
      · exact h
  · rw [hempty, hflat]

/-! ## C15 -/

/-- The length of a stack buffer is the sum of the lengths of the encoded
commands plus the two marker words. -/
theorem length_make_stack_buffer (K : Constants) (encode : StackCommand → List Nat)
    (b : StackCommandBuilder) :
    (make_stack_buffer K encode b).length
      = (b.getCommands.map (fun c => (encode c).length)).sum + 2 := by
  have h : ∀ l : List StackCommand,
      (l.flatMap encode).length = (l.map (fun c => (encode c).length)).sum := by
    intro l
    induction l with
    | nil => simp
    | cons c rest ih => simp [List.flatMap_cons, ih]
  simp only [make_stack_buffer, List.length_append, List.length_singleton, h]
  omega

/-- C15: for every `StackCommandBuilder` `b`, `get_encoded_stack_size(b)` equals
the length of `make_stack_buffer(b)`, and equals the sum of the encoded sizes of
the flattened commands of `b` plus 2 (for StackStart and StackEnd).  The size
of a command is the number of words its encoding has. -/
theorem get_encoded_stack_size_eq_length (K : Constants)
    (get_encoded_size : StackCommand → Nat)
    (encode : StackCommand → List Nat) (b : StackCommandBuilder)
    (hsize : ∀ c, get_encoded_size c = (encode c).length) :
    get_encoded_stack_size get_encoded_size b = (make_stack_buffer K encode b).length ∧
    get_encoded_stack_size get_encoded_size b
      = (b.getCommands.map get_encoded_size).sum + 2 := by
  have hfun : get_encoded_size = fun c => (encode c).length := funext hsize
  refine ⟨?_, rfl⟩
  rw [length_make_stack_buffer, hfun]
  rfl

/-- C15 applies to a stack of three marker commands with two words per
command: encoded stack size 8, a buffer of 8 words. -/
theorem get_encoded_stack_size_eq_length_witness :
    get_encoded_stack_size (fun _ => 2) (markerStack 3)
        = (make_stack_buffer mvlcConstants encodeTwoWords (markerStack 3)).length ∧
    get_encoded_stack_size (fun _ => 2) (markerStack 3)
        = ((markerStack 3).getCommands.map (fun _ => 2)).sum + 2 :=
  get_encoded_stack_size_eq_length mvlcConstants (fun _ => 2) encodeTwoWords (markerStack 3)
    (fun _ => rfl)

/-- The sizes of C15 on explicit builders: 2 for the builder without groups,
8 for three marker commands. -/
theorem get_encoded_stack_size_eval :
    get_encoded_stack_size (fun c => (encodeTwoWords c).length) {} = 2 ∧
    (make_stack_buffer mvlcConstants encodeTwoWords {}).length = 2 ∧
    get_encoded_stack_size (fun c => (encodeTwoWords c).length) (markerStack 3) = 8 ∧
    (make_stack_buffer mvlcConstants encodeTwoWords (markerStack 3)).length = 8 := by
  decide


/-! ## C17 -/

/-- C17: for all 16-bit packet numbers `last` and `current`,
`calc_packet_loss(last, current)` is the forward distance from `last + 1` to
`current` in the cyclic group of size 2^16: it is congruent to
`current - last - 1` modulo 2^16, and stepping that far from `last + 1` arrives
at `current`; in particular `calc_packet_loss(10, 12) = 1`,
`calc_packet_loss(65535, 1) = 1` and `calc_packet_loss(5, 5) = -1`. -/
theorem calc_packet_loss_forward_distance (last current : Nat)
    (hcurrent : current < 65536) :
    calc_packet_loss last current % 65536 = ((current : Int) - (last : Int) - 1) % 65536 ∧
    ((last : Int) + 1 + calc_packet_loss last current) % 65536 = (current : Int) ∧
    calc_packet_loss 10 12 = 1 ∧
    calc_packet_loss 65535 1 = 1 ∧
    calc_packet_loss 5 5 = -1 := by
  refine ⟨?_, ?_, by decide, by decide, by decide⟩
  · unfold calc_packet_loss
    simp only []
    split <;> omega
  · unfold calc_packet_loss
    simp only []
    split <;> omega

/-- C17 applies to the packet numbers 10 and 12. -/
theorem calc_packet_loss_forward_distance_witness :
    calc_packet_loss 10 12 % 65536 = (((12 : Nat) : Int) - ((10 : Nat) : Int) - 1) % 65536 ∧
    (((10 : Nat) : Int) + 1 + calc_packet_loss 10 12) % 65536 = ((12 : Nat) : Int) ∧
    calc_packet_loss 10 12 = 1 ∧
    calc_packet_loss 65535 1 = 1 ∧
    calc_packet_loss 5 5 = -1 :=
  calc_packet_loss_forward_distance 10 12 (by decide)


/-! ## C18 -/

/-- C18: `usb::Impl::connect()` on an `Impl` that is connected (`m_handle` is
not null) returns `IsConnected`; run on an instrumented driver and an
instrumented `post_connect_cleanup`, it returns the driver state and the log of
calls as they were, so it makes no driver call and no device operation, and the
`Impl`, with its open handle, is returned unchanged and still connected. -/
theorem usb_connect_when_connected {δ : Type} (win32 : Bool) (C : FTConstants)
    (f : FTDriver δ) (cleanup : usb.Impl → δ → ErrorCode × δ) (impl : usb.Impl) (x : δ)
    (log : List DriverOp) (hconnected : impl.isConnected = true) :
    usb.Impl.connect win32 C f.recording (recordCleanup cleanup) impl (x, log)
        = (ErrorCode.MVLC MVLCErrorCode.IsConnected, impl, (x, log))
      ∧ (usb.Impl.connect win32 C f.recording (recordCleanup cleanup) impl (x, log)).2.1.m_handle
          = impl.m_handle
      ∧ (usb.Impl.connect win32 C f.recording (recordCleanup cleanup) impl
          (x, log)).2.1.isConnected = true := by
  have h : usb.Impl.connect win32 C f.recording (recordCleanup cleanup) impl (x, log)
      = (ErrorCode.MVLC MVLCErrorCode.IsConnected, impl, (x, log)) := by
    unfold usb.Impl.connect
    rw [if_pos hconnected]
  rw [h]
  exact ⟨rfl, rfl, hconnected⟩

/-- Witness of C18: an `Impl` holding the handle 1, on a driver with an empty
log. -/
theorem usb_connect_when_connected_witness :
    usb.Impl.isConnected { m_handle := 1 } = true
      ∧ (usb.Impl.connect false ftConstants nullDriver.recording (recordCleanup nullCleanup)
            { m_handle := 1 } ((), [])
          = (ErrorCode.MVLC MVLCErrorCode.IsConnected, { m_handle := 1 }, ((), []))
        ∧ (usb.Impl.connect false ftConstants nullDriver.recording (recordCleanup nullCleanup)
            { m_handle := 1 } ((), [])).2.1.m_handle = (usb.Impl.m_handle { m_handle := 1 })
        ∧ (usb.Impl.connect false ftConstants nullDriver.recording (recordCleanup nullCleanup)
            { m_handle := 1 } ((), [])).2.1.isConnected = true) :=
  ⟨by decide, usb_connect_when_connected false ftConstants nullDriver nullCleanup
    { m_handle := 1 } () [] (by decide)⟩


/-- On a driver that lists no device, `connect` of an unconnected `Impl` in
mode `First` sets the transfer parameters, asks for the device list and returns
`FT_DEVICE_NOT_FOUND`; these two calls are the whole log. -/
theorem usb_connect_no_device_trace :
    usb.Impl.connect false ftConstants nullDriver.recording (recordCleanup nullCleanup)
        {} ((), [])
      = (ErrorCode.FT FT_STATUS.FT_DEVICE_NOT_FOUND, {},
          ((), [DriverOp.FT_SetTransferParams 1, DriverOp.get_device_info_list])) := by
  decide


/-! ## C23 -/

/-- C23: `FTErrorCategory::default_error_condition` sends `FT_OK` to
`Success`, `FT_TIMEOUT` to `Timeout` and every other enumerated FT status to
`ConnectionError`; so a USB error code is classified as `Timeout` if and only
if it is `FT_TIMEOUT` and as `Success` if and only if it is `FT_OK`. -/
theorem FTErrorCategory.default_error_condition_classes (E : ErrorCategories)
    (st : FT_STATUS) :
    FTErrorCategory.default_error_condition st
        = (if st = FT_STATUS.FT_OK then ErrorType.Success
           else if st = FT_STATUS.FT_TIMEOUT then ErrorType.Timeout
           else ErrorType.ConnectionError) ∧
    ((usb.make_error_code st).errorType E = some ErrorType.Timeout
        ↔ st = FT_STATUS.FT_TIMEOUT) ∧
    ((usb.make_error_code st).errorType E = some ErrorType.Success
        ↔ st = FT_STATUS.FT_OK) := by
  cases st <;>
    simp [FTErrorCategory.default_error_condition, usb.make_error_code, ErrorCode.errorType]


/-! ## C26 -/

/-- The handle after the device selection of `connect`: either no `FT_Create`
was made and `m_handle` is as before, or status and handle are those of one
`FT_Create` call. -/
theorem usb_openDevice_cases {δ : Type} (f : FTDriver δ) (impl : usb.Impl) (x : δ) :
    (usb.Impl.openDevice f impl x).2.2.1 = impl.m_handle ∨
    ∃ y i, (usb.Impl.openDevice f impl x).1 = (f.FT_Create y i impl.m_handle).1 ∧
      (usb.Impl.openDevice f impl x).2.2.1 = (f.FT_Create y i impl.m_handle).2.1 := by
  unfold usb.Impl.openDevice
  split
  · dsimp only
    split
    · left; rfl
    · right; exact ⟨_, _, rfl, rfl⟩
  · dsimp only
    split
    · left; rfl
    · right; exact ⟨_, _, rfl, rfl⟩
  · dsimp only
    split
    · right; exact ⟨_, _, rfl, rfl⟩
    · left; rfl

/-- With a driver whose failing `FT_Create` leaves the handle null, a failed
device selection on a disconnected `Impl` leaves `m_handle` null. -/
theorem usb_openDevice_error_handle {δ : Type} (f : FTDriver δ) (impl : usb.Impl) (x : δ)
    (hdisc : impl.m_handle = 0)
    (hcreate : ∀ y i h, (f.FT_Create y i h).1 ≠ FT_STATUS.FT_OK → (f.FT_Create y i h).2.1 = 0)
    (herr : (usb.make_error_code (usb.Impl.openDevice f impl x).1).isError = true) :
    (usb.Impl.openDevice f impl x).2.2.1 = 0 := by
  rcases usb_openDevice_cases f impl x with h | ⟨y, i, h1, h2⟩
  · rw [h, hdisc]
  · rw [h2]
    apply hcreate
    intro e
    rw [h1, e] at herr
    simp [usb.make_error_code, ErrorCode.isError] at herr

/-- After `closeHandle()` the `Impl` is not connected. -/
theorem usb_closeHandle_isConnected {δ : Type} (f : FTDriver δ) (impl : usb.Impl) (x : δ) :
    (usb.Impl.closeHandle f impl x).2.1.isConnected = false := by
  by_cases h : impl.m_handle = 0
  · simp [usb.Impl.closeHandle, usb.Impl.isConnected, h]
  · simp [usb.Impl.closeHandle, usb.Impl.isConnected, h]

set_option maxHeartbeats 400000 in
/-- The failure paths of `connect` other than the post-connect cleanup: when the
cleanup is switched off and a failing `FT_Create` leaves the handle null, a
`connect` on a disconnected `Impl` that returns an error leaves the `Impl`
disconnected. -/
theorem usb_connect_error_closes_handle {δ : Type} (win32 : Bool) (C : FTConstants)
    (f : FTDriver δ) (cleanup : usb.Impl → δ → ErrorCode × δ) (impl : usb.Impl) (x : δ)
    (hdisc : impl.isConnected = false)
    (hcreate : ∀ y i h, (f.FT_Create y i h).1 ≠ FT_STATUS.FT_OK → (f.FT_Create y i h).2.1 = 0)
    (hflag : impl.disableTriggersOnConnect = false)
    (herr : (usb.Impl.connect win32 C f cleanup impl x).1.isError = true) :
    (usb.Impl.connect win32 C f cleanup impl x).2.1.isConnected = false := by
  have h0 : impl.m_handle = 0 := by simpa [usb.Impl.isConnected] using hdisc
  have hflag2 : impl.m_disableTriggersOnConnect = false := hflag
  revert herr
  unfold usb.Impl.connect
  simp only [hdisc, Bool.false_eq_true, if_false, usb.Impl.disableTriggersOnConnect, hflag2]
  cases win32 <;> simp only [Bool.false_eq_true, if_false, if_true] <;>
    split_ifs <;> intro herr <;>
    first
    | exact usb_closeHandle_isConnected _ _ _
    | exact hdisc
    | (simp only [usb.Impl.isConnected]
       simp [usb_openDevice_error_handle f impl _ h0 hcreate (by assumption)])
    | (exfalso; simp [ErrorCode.isError, usb.make_error_code] at herr)

/-- C26 fails on the code: on a driver whose calls all succeed, `connect` of a
disconnected `Impl` with `disableTriggersOnConnect` set and a failing
`post_connect_cleanup` returns the error of the cleanup without a call of
`FT_Close`, and the `Impl` keeps the open handle 1: `isConnected()` is true
after the failed `connect`. -/
theorem usb_connect_failed_cleanup_keeps_handle :
    usb.Impl.isConnected { m_disableTriggersOnConnect := true } = false ∧
    usb.Impl.connect false ftConstants oneDeviceDriver.recording (recordCleanup failingCleanup)
        { m_disableTriggersOnConnect := true } ((), [])
      = (ErrorCode.FT FT_STATUS.FT_DEVICE_NOT_CONNECTED,
          { m_handle := 1,
            m_deviceInfo := { index := 0, serial := "0001", description := "MVLC" },
            m_disableTriggersOnConnect := true },
          ((), [DriverOp.FT_SetTransferParams 1, DriverOp.get_device_info_list,
                DriverOp.FT_Create 0, DriverOp.FT_GetChipConfiguration 1,
                DriverOp.FT_SetPipeTimeout 1 0x82 100, DriverOp.FT_SetPipeTimeout 1 0x83 100,
                DriverOp.post_connect_cleanup])) ∧
    (usb.Impl.connect false ftConstants oneDeviceDriver.recording (recordCleanup failingCleanup)
        { m_disableTriggersOnConnect := true } ((), [])).2.1.isConnected = true := by
  decide

/-! ## C27 -/

/-- C27: after `usb::Impl::disconnect()` returns, `isConnected()` is false
whatever `FT_Close` reported; `disconnect()` returns `IsDisconnected` exactly
when the `Impl` was not connected at the time of the call, and otherwise the
code of the one `FT_Close` call it makes; a second consecutive `disconnect()`
returns `IsDisconnected` and leaves the `Impl`, the driver state and the log of
driver calls as they were. -/
theorem usb_disconnect_then_disconnected {δ : Type} (f : FTDriver δ) (impl : usb.Impl) (x : δ)
    (log : List DriverOp) :
    (usb.Impl.disconnect f.recording impl (x, log)).2.1.isConnected = false ∧
    ((usb.Impl.disconnect f.recording impl (x, log)).1
        = ErrorCode.MVLC MVLCErrorCode.IsDisconnected ↔ impl.isConnected = false) ∧
    (usb.Impl.disconnect f.recording impl (x, log)).1
      = (if impl.isConnected then usb.make_error_code (f.FT_Close x impl.m_handle).1
         else ErrorCode.MVLC MVLCErrorCode.IsDisconnected) ∧
    (usb.Impl.disconnect f.recording impl (x, log)).2.2.2
      = (if impl.isConnected then log ++ [DriverOp.FT_Close impl.m_handle] else log) ∧
    usb.Impl.disconnect f.recording (usb.Impl.disconnect f.recording impl (x, log)).2.1
        (usb.Impl.disconnect f.recording impl (x, log)).2.2
      = (ErrorCode.MVLC MVLCErrorCode.IsDisconnected,
          (usb.Impl.disconnect f.recording impl (x, log)).2.1,
          (usb.Impl.disconnect f.recording impl (x, log)).2.2) := by
  by_cases h : impl.m_handle = 0
  · simp [usb.Impl.disconnect, usb.Impl.isConnected, h]
  · simp [usb.Impl.disconnect, usb.Impl.isConnected, usb.Impl.closeHandle, h,
      usb.make_error_code, FTDriver.recording]


/-! ## C21 -/

/-- C21: in an iteration of `stack_error_poller` the shared counters are
updated, once and with the buffer just read, if and only if the buffer is
non-empty after the read, whatever error code the read returned; an iteration
whose read leaves the buffer empty leaves the counters unchanged.  On the
instrumented surroundings the list of buffers folded into the counters grows by
that one buffer or not at all. -/
theorem stack_error_poller_iteration_counters {σ κ : Type} (E : ErrorCategories)
    (P : PollerAPI σ κ) (st : PollerState σ κ) (w : σ × List PollerOp)
    (c : κ × List (List Nat)) (buffer : List Nat) (ec : ErrorCode) :
    (stack_error_poller_iteration E P st).buffer = (P.readKnownBuffer st.world st.buffer).2.1 ∧
    (stack_error_poller_iteration E P st).ec = (P.readKnownBuffer st.world st.buffer).1 ∧
    (stack_error_poller_iteration E P st).counters
      = (if (P.readKnownBuffer st.world st.buffer).2.1 = [] then st.counters
         else P.update_stack_error_counters st.counters
           (P.readKnownBuffer st.world st.buffer).2.1) ∧
    (stack_error_poller_iteration E P.recording
        { world := w, counters := c, buffer := buffer, ec := ec }).counters
      = (if (P.readKnownBuffer w.1 buffer).2.1 = [] then c
         else (P.update_stack_error_counters c.1 (P.readKnownBuffer w.1 buffer).2.1,
               c.2 ++ [(P.readKnownBuffer w.1 buffer).2.1])) := by
  refine ⟨rfl, rfl, ?_, ?_⟩
  · by_cases h : (P.readKnownBuffer st.world st.buffer).2.1 = []
    · simp [stack_error_poller_iteration, h]
    · simp [stack_error_poller_iteration, h, List.isEmpty_iff]
  · by_cases h : (P.readKnownBuffer w.1 buffer).2.1 = []
    · simp [stack_error_poller_iteration, PollerAPI.recording, h]
    · simp [stack_error_poller_iteration, PollerAPI.recording, h, List.isEmpty_iff]

/-! ## C22 -/

/-- The loop of the poller returns only states in which the quit flag reads as
set. -/
theorem stack_error_poller_loop_quit {σ κ : Type} (E : ErrorCategories) (P : PollerAPI σ κ) :
    ∀ (fuel : Nat) (st st' : PollerState σ κ),
      stack_error_poller_loop E P fuel st = some st' → P.quit st'.world = true := by
  intro fuel
  induction fuel with
  | zero => intro st st' h; simp [stack_error_poller_loop] at h
  | succ fuel ih =>
    intro st st' h
    rw [stack_error_poller_loop] at h
    by_cases hq : P.quit st.world = true
    · simp only [hq, not_true_eq_false, if_false, Option.some.injEq] at h
      rw [← h]; exact hq
    · simp only [hq, not_false_eq_true, if_true] at h
      exact ih _ _ h

/-- When the quit flag reads as clear before each of the first `n` iterations
and as set after them, the loop of the poller runs these `n` iterations and
returns, given fuel for `n + 1` evaluations of the loop condition. -/
theorem stack_error_poller_loop_iterate {σ κ : Type} (E : ErrorCategories)
    (P : PollerAPI σ κ) :
    ∀ (n fuel : Nat) (st : PollerState σ κ),
      (∀ k, k < n → P.quit ((stack_error_poller_iteration E P)^[k] st).world = false) →
      P.quit ((stack_error_poller_iteration E P)^[n] st).world = true →
      n < fuel →
      stack_error_poller_loop E P fuel st
        = some ((stack_error_poller_iteration E P)^[n] st) := by
  intro n
  induction n with
  | zero =>
    intro fuel st _ hq hfuel
    obtain ⟨fuel, rfl⟩ : ∃ m, fuel = m + 1 := ⟨fuel - 1, by omega⟩
    rw [stack_error_poller_loop]
    simp only [Function.iterate_zero, id_eq] at hq ⊢
    simp [hq]
  | succ n ih =>
    intro fuel st hrun hq hfuel
    obtain ⟨fuel, rfl⟩ : ∃ m, fuel = m + 1 := ⟨fuel - 1, by omega⟩
    rw [stack_error_poller_loop]
    have h0 : P.quit st.world = false := by simpa using hrun 0 (by omega)
    simp only [h0, Bool.false_eq_true, not_false_eq_true, if_true, Function.iterate_succ_apply]
    apply ih
    · intro k hk
      have := hrun (k + 1) (by omega)
      rwa [Function.iterate_succ_apply] at this
    · rwa [Function.iterate_succ_apply] at hq
    · omega

/-- C22: an iteration of `stack_error_poller` sleeps, for the poll interval of
1000 ms, if and only if the read returned an error of type `ConnectionError` or
left the buffer empty; after a non-empty read with any other result nothing
follows the read and the next iteration starts.  No read error ends the loop:
whatever the reads return, while the quit flag reads as clear before each of
the first `n` iterations and as set after them, the loop runs exactly these `n`
iterations and then returns, and a state it returns has the quit flag set. -/
theorem stack_error_poller_backoff {σ κ : Type} (E : ErrorCategories) (P : PollerAPI σ κ)
    (w : σ × List PollerOp) (c : κ × List (List Nat)) (buffer : List Nat) (ec : ErrorCode)
    (st : PollerState σ κ) (n fuel : Nat)
    (hrun : ∀ k, k < n → P.quit ((stack_error_poller_iteration E P)^[k] st).world = false)
    (hquit : P.quit ((stack_error_poller_iteration E P)^[n] st).world = true)
    (hfuel : n < fuel) :
    (stack_error_poller_iteration E P.recording
        { world := w, counters := c, buffer := buffer, ec := ec }).world.2
      = w.2 ++ PollerOp.readKnownBuffer (P.readKnownBuffer w.1 buffer).1
            (P.readKnownBuffer w.1 buffer).2.1 ::
          (if (P.readKnownBuffer w.1 buffer).1.isConnectionError E = true
              ∨ (P.readKnownBuffer w.1 buffer).2.1 = []
           then [PollerOp.sleep_for 1000] else []) ∧
    stack_error_poller_loop E P fuel st = some ((stack_error_poller_iteration E P)^[n] st) ∧
    (∀ fuel2 st2, stack_error_poller_loop E P fuel2 st = some st2 → P.quit st2.world = true) := by
  refine ⟨?_, stack_error_poller_loop_iterate E P n fuel st hrun hquit hfuel,
    fun fuel2 st2 h => stack_error_poller_loop_quit E P fuel2 st st2 h⟩
  by_cases h : (P.readKnownBuffer w.1 buffer).1.isConnectionError E = true
      ∨ (P.readKnownBuffer w.1 buffer).2.1 = []
  · rw [if_pos h]
    simp only [stack_error_poller_iteration, PollerAPI.recording, List.isEmpty_iff,
      Default_PollInterval, if_pos h]
    simp
  · rw [if_neg h]
    simp only [stack_error_poller_iteration, PollerAPI.recording, List.isEmpty_iff,
      Default_PollInterval, if_neg h]

/-- C22 applies to four scripted reads: a timeout with an empty buffer (sleep),
a connection error with a word (sleep), a timeout with a word (no sleep) and a
success with two words (no sleep), after which the quit flag is set. -/
theorem stack_error_poller_backoff_witness :
    (stack_error_poller_loop exampleCategories scriptedPoller.recording 5
        { world := (0, []), counters := (0, []) }).map (fun st => (st.world, st.counters))
      = some ((4, [PollerOp.readKnownBuffer (ErrorCode.FT FT_STATUS.FT_TIMEOUT) [],
                   PollerOp.sleep_for 1000,
                   PollerOp.readKnownBuffer (ErrorCode.FT FT_STATUS.FT_DEVICE_NOT_CONNECTED)
                     [0xF7000001],
                   PollerOp.sleep_for 1000,
                   PollerOp.readKnownBuffer (ErrorCode.FT FT_STATUS.FT_TIMEOUT) [0xF7000002],
                   PollerOp.readKnownBuffer ErrorCode.NoError [0xF7000003, 0xF7000004]]),
                (4, [[0xF7000001], [0xF7000002], [0xF7000003, 0xF7000004]])) := by
  rw [(stack_error_poller_backoff exampleCategories scriptedPoller.recording
    ((0, []), []) ((0, []), []) [] ErrorCode.NoError
    { world := (0, []), counters := (0, []) } 4 5 (by decide) (by decide) (by decide)).2.1]
  decide


/-! ## C24 -/

/-- On every device `disable_all_triggers_and_daq_mode` is the one transaction
of `disableAllCommands`, given a `u8` stack count, `u16` register addresses, a
`u32` `NoTrigger` and fuel for its loop. -/
theorem disable_all_triggers_and_daq_mode_eq {σ : Type} (K : Constants)
    (d : DialogAPI σ) (s : σ) (fuel : Nat)
    (hcnt : K.StackCount < 256)
    (hreg : ∀ id, id < K.StackCount → K.get_trigger_register id < 65536)
    (hdaq : K.DAQModeEnableRegister < 65536)
    (hno : K.NoTrigger < 4294967296)
    (hfuel : K.StackCount < fuel) :
    disable_all_triggers_and_daq_mode K d s fuel
      = some ((d.superTransaction s ⟨disableAllCommands K⟩ []).1,
          (d.superTransaction s ⟨disableAllCommands K⟩ []).2.2) := by
  have hsb : disable_all_triggers_loop K fuel 0
      ((SuperCommandBuilder.addReferenceWord {} 0x1338).addWriteLocal K.DAQModeEnableRegister 0)
        = some ⟨disableAllCommands K⟩ := by
    rw [disable_all_triggers_loop_commands K hcnt hreg hno fuel 0 _ (Nat.zero_le _)
      (by omega)]
    simp [disableAllCommands, SuperCommandBuilder.addReferenceWord,
      SuperCommandBuilder.addWriteLocal, Nat.mod_eq_of_lt hdaq]
  simp only [disable_all_triggers_and_daq_mode, hsb]

/-- One round of the lambda while `try_` is below the retry count: the call,
and what its error code decides. -/
theorem disableTriggersStep_eq {σ : Type} (K : Constants) (E : ErrorCategories)
    (d : DialogAPI σ) (s : σ) (fuel try_ : Nat)
    (hcnt : K.StackCount < 256)
    (hreg : ∀ id, id < K.StackCount → K.get_trigger_register id < 65536)
    (hdaq : K.DAQModeEnableRegister < 65536)
    (hno : K.NoTrigger < 4294967296)
    (hfuel : K.StackCount < fuel)
    (htry : try_ < DisableTriggerRetryCount) :
    disableTriggersStep K E d fuel try_ s
      = some (if (attemptResult K d s 0).isFatal E then
                TaskState.returned (attemptResult K d s 0)
              else if (attemptResult K d s 0).isIgnored E then TaskState.running (try_ + 1)
              else TaskState.returned ErrorCode.NoError,
              attemptState K d s 1) := by
  unfold disableTriggersStep
  rw [if_pos htry, disable_all_triggers_and_daq_mode_eq K d s fuel hcnt hreg hdaq hno hfuel]
  simp only [attemptResult, attemptState, ErrorCode.isFatal, ErrorCode.isIgnored]
  by_cases h1 : (d.superTransaction s ⟨disableAllCommands K⟩ []).1.isError = true <;>
    by_cases h2 :
      (d.superTransaction s ⟨disableAllCommands K⟩ []).1.isConnectionError E = true <;>
    simp [h1, h2]

/-- Consecutive calls counted from the state the first call left. -/
theorem attemptState_succ {σ : Type} (K : Constants) (d : DialogAPI σ) (s : σ) (k : Nat) :
    attemptState K d (attemptState K d s 1) k = attemptState K d s (k + 1) := by
  induction k with
  | zero => rfl
  | succ k ih =>
    show (d.superTransaction (attemptState K d (attemptState K d s 1) k) _ []).2.2 = _
    rw [ih]
    rfl

/-- The error codes of consecutive calls counted from the state the first call
left. -/
theorem attemptResult_succ {σ : Type} (K : Constants) (d : DialogAPI σ) (s : σ) (k : Nat) :
    attemptResult K d (attemptState K d s 1) k = attemptResult K d s (k + 1) := by
  unfold attemptResult
  rw [attemptState_succ]

/-- Consecutive calls on an instrumented device: the states of the device
itself, with one transaction logged per call. -/
theorem attemptState_recording {σ : Type} (K : Constants) (d : DialogAPI σ) (s : σ)
    (log : List DeviceOp) (k : Nat) :
    attemptState K d.recording (s, log) k
      = (attemptState K d s k,
          log ++ List.replicate k (DeviceOp.superTransaction ⟨disableAllCommands K⟩)) := by
  induction k with
  | zero => simp [attemptState]
  | succ k ih =>
    show (d.recording.superTransaction (attemptState K d.recording (s, log) k) _ []).2.2 = _
    rw [ih]
    simp [DialogAPI.recording, attemptState, List.replicate_succ', List.append_assoc]

/-- The error codes of consecutive calls on an instrumented device are those of
the device itself. -/
theorem attemptResult_recording {σ : Type} (K : Constants) (d : DialogAPI σ) (s : σ)
    (log : List DeviceOp) (k : Nat) :
    attemptResult K d.recording (s, log) k = attemptResult K d s k := by
  unfold attemptResult
  rw [attemptState_recording]
  simp [DialogAPI.recording]

/-- An error code is fatal or ignored only when it is an error, and not both. -/
theorem ErrorCode.isFatal_of_isIgnored (E : ErrorCategories) (ec : ErrorCode)
    (h : ec.isIgnored E = true) : ec.isFatal E = false := by
  unfold ErrorCode.isIgnored at h
  unfold ErrorCode.isFatal
  cases h1 : ec.isError <;> cases h2 : ec.isConnectionError E <;> simp_all

/-- The lambda run from the round `try_` on with `m + 1` rounds left before the
retry count is reached: it makes `n + 1` calls for some `n <= m`, every call
before the last fails with an ignored error, the last one is not ignored unless
it is the call that exhausts the retries, and the lambda returns the error of
the last call when that is fatal and no error otherwise. -/
theorem disableTriggersTask_loop_attempts {σ : Type} (K : Constants) (E : ErrorCategories)
    (d : DialogAPI σ) (fuel : Nat)
    (hcnt : K.StackCount < 256)
    (hreg : ∀ id, id < K.StackCount → K.get_trigger_register id < 65536)
    (hdaq : K.DAQModeEnableRegister < 65536)
    (hno : K.NoTrigger < 4294967296)
    (hfuel : K.StackCount < fuel) :
    ∀ (m try_ steps : Nat) (s : σ),
      try_ + (m + 1) = DisableTriggerRetryCount → m + 1 < steps →
      ∃ n, n ≤ m ∧
        (∀ k, k < n → (attemptResult K d s k).isIgnored E = true) ∧
        (n < m → (attemptResult K d s n).isIgnored E = false) ∧
        disableTriggersTask_loop K E d fuel steps (TaskState.running try_) s
          = some (if (attemptResult K d s n).isFatal E then attemptResult K d s n
                  else ErrorCode.NoError,
                  attemptState K d s (n + 1)) := by
  intro m
  induction m with
  | zero =>
    intro try_ steps s htry hsteps
    obtain ⟨steps, rfl⟩ : ∃ j, steps = j + 2 := ⟨steps - 2, by omega⟩
    refine ⟨0, le_refl _, fun k hk => absurd hk (Nat.not_lt_zero k), fun h => absurd h (by omega), ?_⟩
    rw [disableTriggersTask_loop,
      disableTriggersStep_eq K E d s fuel try_ hcnt hreg hdaq hno hfuel (by omega)]
    by_cases hf : (attemptResult K d s 0).isFatal E = true
    · simp [hf, disableTriggersTask_loop]
    · by_cases hi : (attemptResult K d s 0).isIgnored E = true
      · have h5 : ¬ try_ + 1 < DisableTriggerRetryCount := by omega
        simp [hf, hi, disableTriggersTask_loop, disableTriggersStep, h5]
      · simp [hf, hi, disableTriggersTask_loop]
  | succ m ih =>
    intro try_ steps s htry hsteps
    obtain ⟨steps, rfl⟩ : ∃ j, steps = j + 1 := ⟨steps - 1, by omega⟩
    rw [disableTriggersTask_loop,
      disableTriggersStep_eq K E d s fuel try_ hcnt hreg hdaq hno hfuel (by omega)]
    by_cases hf : (attemptResult K d s 0).isFatal E = true
    · have hni : (attemptResult K d s 0).isIgnored E = false := by
        unfold ErrorCode.isFatal at hf
        unfold ErrorCode.isIgnored
        cases h1 : (attemptResult K d s 0).isError <;>
          cases h2 : (attemptResult K d s 0).isConnectionError E <;> simp_all
      refine ⟨0, Nat.zero_le _, fun k hk => absurd hk (Nat.not_lt_zero k), fun _ => hni, ?_⟩
      simp [hf, disableTriggersTask_loop]
    · by_cases hi : (attemptResult K d s 0).isIgnored E = true
      · obtain ⟨n, hn, hbefore, hlast, hrun⟩ :=
          ih (try_ + 1) steps (attemptState K d s 1) (by omega) (by omega)
        refine ⟨n + 1, by omega, ?_, ?_, ?_⟩
        · intro k hk
          cases k with
          | zero => exact hi
          | succ k =>
            rw [← attemptResult_succ]
            exact hbefore k (by omega)
        · intro hlt
          rw [← attemptResult_succ]
          exact hlast (by omega)
        · simp only [hf, hi, if_true, Bool.false_eq_true, if_false]
          rw [hrun, attemptResult_succ, attemptState_succ]
      · refine ⟨0, Nat.zero_le _, fun k hk => absurd hk (Nat.not_lt_zero k),
          fun _ => by simpa using hi, ?_⟩
        simp [hf, hi, disableTriggersTask_loop]

/-- C24: the trigger-disabling task of `post_connect_cleanup` calls
`disable_all_triggers_and_daq_mode` `n + 1` times for some
`n < DisableTriggerRetryCount` (5), so at most five times: every call before
the last failed with an error that is not of type `ConnectionError`, and the
last call is a success, a failure of type `ConnectionError`, or the fifth call.
The task returns the error of the last call when it failed with type
`ConnectionError` and no error otherwise, so it returns an error if and only if
an attempt failed with an error of type `ConnectionError`, and five
consecutive failures of other types yield success after five calls.  Each call
is one transaction in the log of the instrumented device.  The stack count
fits a `u8`, the register addresses a `u16`, `NoTrigger` a `u32`; `fuel` covers
the loop over the stacks. -/
theorem disableTriggersTask_attempts {σ : Type} (K : Constants) (E : ErrorCategories)
    (d : DialogAPI σ) (s : σ) (fuel : Nat)
    (hcnt : K.StackCount < 256)
    (hreg : ∀ id, id < K.StackCount → K.get_trigger_register id < 65536)
    (hdaq : K.DAQModeEnableRegister < 65536)
    (hno : K.NoTrigger < 4294967296)
    (hfuel : K.StackCount < fuel) :
    ∃ n, n < DisableTriggerRetryCount ∧
      (∀ k, k < n → (attemptResult K d s k).isIgnored E = true) ∧
      (n + 1 < DisableTriggerRetryCount → (attemptResult K d s n).isIgnored E = false) ∧
      disableTriggersTask K E d.recording fuel (s, [])
        = some (if (attemptResult K d s n).isFatal E then attemptResult K d s n
                else ErrorCode.NoError,
                (attemptState K d s (n + 1),
                  List.replicate (n + 1)
                    (DeviceOp.superTransaction ⟨disableAllCommands K⟩))) ∧
      (if (attemptResult K d s n).isFatal E then attemptResult K d s n
        else ErrorCode.NoError).isError = (attemptResult K d s n).isFatal E ∧
      ((∀ k, k < DisableTriggerRetryCount → (attemptResult K d s k).isIgnored E = true) →
        n + 1 = DisableTriggerRetryCount ∧ (attemptResult K d s n).isFatal E = false) := by
  obtain ⟨n, hn, hbefore, hlast, hrun⟩ :=
    disableTriggersTask_loop_attempts K E d.recording fuel hcnt hreg hdaq hno hfuel
      4 0 (DisableTriggerRetryCount + 1) (s, []) (by decide) (by decide)
  simp only [attemptResult_recording, attemptState_recording, List.nil_append] at hbefore hlast hrun
  refine ⟨n, by unfold DisableTriggerRetryCount; omega, hbefore, ?_, hrun, ?_, ?_⟩
  · intro h
    exact hlast (by unfold DisableTriggerRetryCount at h; omega)
  · by_cases hf : (attemptResult K d s n).isFatal E = true
    · rw [if_pos hf, hf]
      unfold ErrorCode.isFatal at hf
      cases h1 : (attemptResult K d s n).isError <;> simp_all
    · simp [hf, ErrorCode.isError]
  · intro hall
    have h5 : ¬ n < 4 := by
      intro hlt
      have := hlast hlt
      rw [hall n (by unfold DisableTriggerRetryCount; omega)] at this
      exact absurd this (by decide)
    refine ⟨by unfold DisableTriggerRetryCount; omega, ?_⟩
    exact ErrorCode.isFatal_of_isIgnored E _
      (hall n (by unfold DisableTriggerRetryCount; omega))

/-- C24 applies to a device whose transactions all time out: five calls, five
ignored failures, and the task returns no error. -/
theorem disableTriggersTask_attempts_witness :
    ∃ n, n < DisableTriggerRetryCount ∧
      (∀ k, k < n →
        (attemptResult mvlcConstants (timeoutDevice 5) 0 k).isIgnored exampleCategories = true) ∧
      (n + 1 < DisableTriggerRetryCount →
        (attemptResult mvlcConstants (timeoutDevice 5) 0 n).isIgnored exampleCategories = false) ∧
      disableTriggersTask mvlcConstants exampleCategories (timeoutDevice 5).recording 9 (0, [])
        = some (if (attemptResult mvlcConstants (timeoutDevice 5) 0 n).isFatal exampleCategories
                then attemptResult mvlcConstants (timeoutDevice 5) 0 n
                else ErrorCode.NoError,
                (attemptState mvlcConstants (timeoutDevice 5) 0 (n + 1),
                  List.replicate (n + 1)
                    (DeviceOp.superTransaction ⟨disableAllCommands mvlcConstants⟩))) ∧
      (if (attemptResult mvlcConstants (timeoutDevice 5) 0 n).isFatal exampleCategories
        then attemptResult mvlcConstants (timeoutDevice 5) 0 n
        else ErrorCode.NoError).isError
          = (attemptResult mvlcConstants (timeoutDevice 5) 0 n).isFatal exampleCategories ∧
      ((∀ k, k < DisableTriggerRetryCount →
          (attemptResult mvlcConstants (timeoutDevice 5) 0 k).isIgnored exampleCategories = true) →
        n + 1 = DisableTriggerRetryCount ∧
          (attemptResult mvlcConstants (timeoutDevice 5) 0 n).isFatal exampleCategories = false) :=
  disableTriggersTask_attempts mvlcConstants exampleCategories (timeoutDevice 5) 0 9
    (by decide) (by intro id hid; simp only [mvlcConstants] at hid ⊢; omega)
    (by decide) (by decide) (by decide)

/-- Five timeouts in a row: the task makes five calls and returns no error. -/
theorem disableTriggersTask_eval_timeouts :
    disableTriggersTask mvlcConstants exampleCategories (timeoutDevice 5).recording 9 (0, [])
      = some (ErrorCode.NoError,
          (5, List.replicate 5 (DeviceOp.superTransaction ⟨disableAllCommands mvlcConstants⟩))) ∧
    disableTriggersTask mvlcConstants exampleCategories (timeoutDevice 2).recording 9 (0, [])
      = some (ErrorCode.NoError,
          (3, List.replicate 3
            (DeviceOp.superTransaction ⟨disableAllCommands mvlcConstants⟩))) := by
  decide


/-! ## C25 -/

/-- A round of the lambda that returns, returns no error or the error of type
`ConnectionError` that its call of `disable_all_triggers_and_daq_mode` gave. -/
theorem disableTriggersStep_returned {σ : Type} (K : Constants) (E : ErrorCategories)
    (dlg : DialogAPI σ) (fuel try_ : Nat) (s s' : σ) (ec : ErrorCode)
    (h : disableTriggersStep K E dlg fuel try_ s = some (TaskState.returned ec, s')) :
    ec = ErrorCode.NoError ∨
      (ec.isFatal E = true ∧ disable_all_triggers_and_daq_mode K dlg s fuel = some (ec, s')) := by
  unfold disableTriggersStep at h
  by_cases htry : try_ < DisableTriggerRetryCount
  · rw [if_pos htry] at h
    cases hd : disable_all_triggers_and_daq_mode K dlg s fuel with
    | none => rw [hd] at h; simp at h
    | some r =>
      rw [hd] at h
      simp only [] at h
      by_cases h1 : r.1.isError = true
      · by_cases h2 : r.1.isConnectionError E = true
        · simp only [h1, h2, if_true, Option.some.injEq, Prod.mk.injEq,
            TaskState.returned.injEq] at h
          right
          obtain ⟨he, hs⟩ := h
          refine ⟨?_, ?_⟩
          · rw [← he]; simp [ErrorCode.isFatal, h1, h2]
          · rw [← he, ← hs]
        · simp [h1, h2] at h
      · simp only [h1, Bool.false_eq_true, if_false, Option.some.injEq, Prod.mk.injEq,
          TaskState.returned.injEq] at h
        left; exact h.1.symm
  · rw [if_neg htry] at h
    simp only [Option.some.injEq, Prod.mk.injEq, TaskState.returned.injEq] at h
    left; exact h.1.symm

/-- One step of the interleaved threads. -/
theorem post_connect_cleanup_run_succ {σ : Type} (K : Constants) (E : ErrorCategories)
    (A : CleanupAPI σ) (DataBufferSize fuel steps : Nat) (schedule : List Bool)
    (task : TaskState) (m : DrainState) (s : σ) :
    post_connect_cleanup_run K E A DataBufferSize fuel (steps + 1) schedule task m s
      = match task with
        | TaskState.returned ec =>
          if m.finished then some (ec, s)
          else
            post_connect_cleanup_run K E A DataBufferSize fuel steps schedule.tail task
              (drainStep E A DataBufferSize m s).1 (drainStep E A DataBufferSize m s).2
        | TaskState.running try_ =>
          if m.finished ∨ schedule.headD false then
            match disableTriggersStep K E A.dlg fuel try_ s with
            | none => none
            | some r =>
              post_connect_cleanup_run K E A DataBufferSize fuel steps schedule.tail r.1 m r.2
          else
            post_connect_cleanup_run K E A DataBufferSize fuel steps schedule.tail task
              (drainStep E A DataBufferSize m s).1 (drainStep E A DataBufferSize m s).2 := by
  rfl

/-- Under every interleaving of its two threads, what `post_connect_cleanup`
returns is what the lambda returned: no error, or an error of type
`ConnectionError` given by a call of `disable_all_triggers_and_daq_mode`.  The
error code of the draining loop does not enter the result. -/
theorem post_connect_cleanup_run_result {σ : Type} (K : Constants) (E : ErrorCategories)
    (A : CleanupAPI σ) (DataBufferSize fuel : Nat) :
    ∀ (steps : Nat) (schedule : List Bool) (task : TaskState) (m : DrainState) (s : σ)
      (r : ErrorCode × σ),
      (∀ ec, task = TaskState.returned ec → ec = ErrorCode.NoError ∨
        (ec.isFatal E = true ∧
          ∃ s0 s1, disable_all_triggers_and_daq_mode K A.dlg s0 fuel = some (ec, s1))) →
      post_connect_cleanup_run K E A DataBufferSize fuel steps schedule task m s = some r →
      r.1 = ErrorCode.NoError ∨
        (r.1.isFatal E = true ∧
          ∃ s0 s1, disable_all_triggers_and_daq_mode K A.dlg s0 fuel = some (r.1, s1)) := by
  intro steps
  induction steps with
  | zero => intro schedule task m s r _ h; simp [post_connect_cleanup_run] at h
  | succ steps ih =>
    intro schedule task m s r htask h
    rw [post_connect_cleanup_run_succ] at h
    cases task with
    | returned ec =>
      simp only [] at h
      by_cases hfin : m.finished = true
      · simp only [hfin, if_true, Option.some.injEq] at h
        rw [← h]
        exact htask ec rfl
      · simp only [hfin, Bool.false_eq_true, if_false] at h
        exact ih _ _ _ _ _ htask h
    | running try_ =>
      simp only [] at h
      by_cases hsel : m.finished = true ∨ schedule.headD false = true
      · rw [if_pos hsel] at h
        cases hstep : disableTriggersStep K E A.dlg fuel try_ s with
        | none => rw [hstep] at h; simp at h
        | some q =>
          rw [hstep] at h
          simp only [] at h
          refine ih _ _ _ _ _ ?_ h
          intro ec hq
          have hq2 : disableTriggersStep K E A.dlg fuel try_ s
              = some (TaskState.returned ec, q.2) := by rw [hstep, ← hq]
          rcases disableTriggersStep_returned K E A.dlg fuel try_ s q.2 ec hq2 with h1 | ⟨h1, h2⟩
          · left; exact h1
          · right; exact ⟨h1, s, q.2, h2⟩
      · rw [if_neg hsel] at h
        exact ih _ _ _ _ _ htask h

/-- C25 fails on the code: with a data pipe whose reads fail with
`FT_IO_ERROR`, an error of type `ConnectionError`, the draining loop is left
after the first read and `post_connect_cleanup` returns no error, both when the
transaction of the lambda succeeds and when it times out five times. -/
theorem post_connect_cleanup_drops_drain_error :
    (ErrorCode.FT FT_STATUS.FT_IO_ERROR).isConnectionError exampleCategories = true ∧
    post_connect_cleanup mvlcConstants exampleCategories
        (dataPipeFailingImpl ErrorCode.NoError) 65536 9 10 [] []
      = some (ErrorCode.NoError,
          [CleanupOp.now,
           CleanupOp.read_unbuffered Pipe.Data (ErrorCode.FT FT_STATUS.FT_IO_ERROR) 0,
           CleanupOp.now,
           CleanupOp.superTransaction ErrorCode.NoError]) ∧
    post_connect_cleanup mvlcConstants exampleCategories
        (dataPipeFailingImpl (ErrorCode.FT FT_STATUS.FT_TIMEOUT)) 65536 9 20
        [true, false, false] []
      = some (ErrorCode.NoError,
          [CleanupOp.superTransaction (ErrorCode.FT FT_STATUS.FT_TIMEOUT),
           CleanupOp.now,
           CleanupOp.read_unbuffered Pipe.Data (ErrorCode.FT FT_STATUS.FT_IO_ERROR) 0,
           CleanupOp.now,
           CleanupOp.superTransaction (ErrorCode.FT FT_STATUS.FT_TIMEOUT),
           CleanupOp.superTransaction (ErrorCode.FT FT_STATUS.FT_TIMEOUT),
           CleanupOp.superTransaction (ErrorCode.FT FT_STATUS.FT_TIMEOUT),
           CleanupOp.superTransaction (ErrorCode.FT FT_STATUS.FT_TIMEOUT)]) := by
  decide


/-! ## C28 -/

/-- With the constants of `mvlcConstants`, masking with `StackOffsetBitMaskBytes`
leaves every word-aligned offset inside the stack memory (fewer than 1024
words from `StackMemoryBegin`) as it is. -/
theorem uploadAddress_mask_inside_window (q : Nat) (h : q < 1024) :
    (q * mvlcConstants.AddressIncrement) &&& mvlcConstants.StackOffsetBitMaskBytes
      = q * mvlcConstants.AddressIncrement := by
  have h1 : q * mvlcConstants.AddressIncrement = q <<< 2 := by
    rw [Nat.shiftLeft_eq]; rfl
  have h2 : mvlcConstants.StackOffsetBitMaskBytes = (2 ^ 10 - 1) <<< 2 := by decide
  rw [h1, h2]
  apply Nat.eq_of_testBit_eq
  intro i
  rw [Nat.testBit_and, Nat.testBit_shiftLeft, Nat.testBit_shiftLeft, Nat.testBit_two_pow_sub_one]
  by_cases hi : i - 2 < 10
  · simp only [hi, decide_True, Bool.and_true]
    cases decide (i ≥ 2) <;> cases q.testBit (i - 2) <;> rfl
  · have hpow : (2 : Nat) ^ 10 ≤ 2 ^ (i - 2) :=
      Nat.pow_le_pow_right (by decide) (by omega)
    have hq : q.testBit (i - 2) = false :=
      Nat.testBit_lt_two_pow (lt_of_lt_of_le h hpow)
    simp [hq]

/-- C28 fails on the code: a stack of 2000 encoded words followed by one of two
words passes the stack-memory check; the second stack is uploaded at the offset
8520 (`0x2148`) and the value written to its offset register is
`8520 & 0x0FFC = 328`, not its upload address. -/
theorem setup_readout_stacks_offset_register_masked :
    setup_readout_stacks mvlcConstants mvlcStackBuffer idleDevice.recording ((), [])
        [markerStack 999, markerStack 0]
      = (ErrorCode.NoError,
          ((), [DeviceOp.uploadStack 1 516 (markerStack 999),
                DeviceOp.writeRegister 0x1204 516,
                DeviceOp.uploadStack 1 8520 (markerStack 0),
                DeviceOp.writeRegister 0x1208 328])) ∧
    (mvlcStackBuffer (markerStack 999)).length = 2000 ∧
    (mvlcStackBuffer (markerStack 0)).length = 2 ∧
    endAddressAt mvlcConstants (129 + 2000 + 1) 2 < mvlcConstants.StackMemoryEnd ∧
    uploadAddressAt mvlcConstants (129 + 2000 + 1) = 8520 ∧
    8520 &&& mvlcConstants.StackOffsetBitMaskBytes = 328 := by
  refine ⟨?_, ?_, ?_, by decide, by decide, by decide⟩
  · exact setup_readout_stacks_eval_pair (markerStack 999) (markerStack 0) 2000 2 8520 328
      (by rw [length_mvlcStackBuffer_markerStack]) (by rw [length_mvlcStackBuffer_markerStack])
      (markerStack_suppressPipeOutput _) (markerStack_suppressPipeOutput _)
      (by decide) (by decide) (by decide) (by decide)
  · rw [length_mvlcStackBuffer_markerStack]
  · rw [length_mvlcStackBuffer_markerStack]

/-! ## C29 -/

/-- On every device the loop of `read_stack_contents` started at `addr` ends,
given fuel for one iteration more than there are addresses below
`StackMemoryEnd`: it reads the addresses `addr`, `addr + AddressIncrement`, ...
one after the other, each below `StackMemoryEnd` and passed on untruncated, and
at most `wordsBelowEnd K addr` of them. -/
theorem read_stack_contents_loop_terminates {σ : Type} (K : Constants) (d : DialogAPI σ)
    (hEnd : K.StackMemoryEnd ≤ 65536)
    (hAI0 : 0 < K.AddressIncrement)
    (hAI : K.AddressIncrement + 65536 ≤ 4294967296) :
    ∀ (fuel addr value : Nat) (contents : List Nat) (s : σ) (log : List DeviceOp),
      wordsBelowEnd K addr < fuel →
      ∃ r s' values,
        read_stack_contents_loop K d.recording fuel addr value contents (s, log)
          = some (r, (s', log ++ List.zipWith DeviceOp.readRegister
              ((List.range values.length).map (fun k => addr + k * K.AddressIncrement))
              values)) ∧
        values.length ≤ wordsBelowEnd K addr ∧
        ∀ k, k < values.length → addr + k * K.AddressIncrement < K.StackMemoryEnd := by
  intro fuel
  induction fuel with
  | zero => intro addr value contents s log h; omega
  | succ fuel ih =>
    intro addr value contents s log hfuel
    rw [read_stack_contents_loop]
    by_cases hge : addr ≥ K.StackMemoryEnd
    · refine ⟨(contents, ErrorCode.MVLC MVLCErrorCode.StackMemoryExceeded), s, [], ?_,
        Nat.zero_le _, fun k hk => absurd hk (Nat.not_lt_zero k)⟩
      simp [hge]
    · have hlt : addr < K.StackMemoryEnd := by omega
      have haddr : addr % 65536 = addr := Nat.mod_eq_of_lt (by omega)
      have hnext : (addr + K.AddressIncrement) % 4294967296 = addr + K.AddressIncrement :=
        Nat.mod_eq_of_lt (by omega)
      have hcount := wordsBelowEnd_of_lt K addr hAI0 hlt
      have hone : List.range 1 = [0] := rfl
      simp only [hge, if_false, haddr, hnext]
      by_cases herr : (d.readRegister s addr value).1.isError = true
      · refine ⟨(contents, (d.readRegister s addr value).1), (d.readRegister s addr value).2.2,
          [(d.readRegister s addr value).2.1], ?_, by simp; omega, ?_⟩
        · simp [DialogAPI.recording, herr, hone]
        · intro k hk
          have hk0 : k = 0 := by simpa using hk
          rw [hk0]; simpa using hlt
      · by_cases htag : commandTag K (d.readRegister s addr value).2.1 = K.StackEnd
        · refine ⟨(contents ++ [(d.readRegister s addr value).2.1], ErrorCode.NoError),
            (d.readRegister s addr value).2.2,
            [(d.readRegister s addr value).2.1], ?_, by simp; omega, ?_⟩
          · simp [DialogAPI.recording, herr, htag, hone]
          · intro k hk
            have hk0 : k = 0 := by simpa using hk
            rw [hk0]; simpa using hlt
        · obtain ⟨r, s', values, hrun, hlen, hbelow⟩ :=
            ih (addr + K.AddressIncrement) (d.readRegister s addr value).2.1
              (contents ++ [(d.readRegister s addr value).2.1]) (d.readRegister s addr value).2.2
              (log ++ [DeviceOp.readRegister addr (d.readRegister s addr value).2.1])
              (by omega)
          refine ⟨r, s', (d.readRegister s addr value).2.1 :: values, ?_, by simp; omega, ?_⟩
          · simp only [DialogAPI.recording, herr, htag, ne_eq, not_false_eq_true, if_true,
              Bool.false_eq_true, if_false]
            simp only [DialogAPI.recording] at hrun
            rw [hrun]
            have hmap : ∀ l : List Nat,
                List.map ((fun i => addr + i * K.AddressIncrement) ∘ Nat.succ) l
                  = List.map (fun i => addr + K.AddressIncrement + i * K.AddressIncrement) l := by
              intro l
              apply List.map_congr_left
              intro i _
              simp only [Function.comp, Nat.succ_mul]
              omega
            rw [List.length_cons, List.range_succ_eq_map values.length]
            simp only [List.map_cons, List.map_map, Nat.zero_mul, Nat.add_zero,
              List.zipWith_cons_cons, hmap, List.append_assoc, List.singleton_append]
          · intro k hk
            cases k with
            | zero => simpa using hlt
            | succ k =>
              have := hbelow k (by simpa using hk)
              rw [Nat.succ_mul]
              omega

/-- C29: `read_stack_contents` terminates for every start address and every
device behaviour: with a positive `AddressIncrement` it returns for every fuel
above the number of words to read.  After the header read at `startAddress` it
makes at most `ceil((StackMemoryEnd - startAddress - AddressIncrement) /
AddressIncrement)` further register reads; the `k`-th read uses the address
`startAddress + k * AddressIncrement`, which for `k >= 1` lies strictly below
`StackMemoryEnd` and is passed to `readRegister` untruncated.  The stack memory
ends within the 16-bit address space and the address increment cannot wrap the
32-bit loop address. -/
theorem read_stack_contents_terminates {σ : Type} (K : Constants) (d : DialogAPI σ) (s : σ)
    (startAddress fuel : Nat)
    (hstart : startAddress < 65536)
    (hEnd : K.StackMemoryEnd ≤ 65536)
    (hAI0 : 0 < K.AddressIncrement)
    (hAI : K.AddressIncrement + 65536 ≤ 4294967296)
    (hfuel : (K.StackMemoryEnd - startAddress - K.AddressIncrement + (K.AddressIncrement - 1))
      / K.AddressIncrement < fuel) :
    ∃ r s' values,
      read_stack_contents K d.recording (s, []) startAddress fuel
        = some (r, (s', List.zipWith DeviceOp.readRegister
            ((List.range values.length).map (fun k => startAddress + k * K.AddressIncrement))
            values)) ∧
      1 ≤ values.length ∧
      values.length - 1 ≤
        (K.StackMemoryEnd - startAddress - K.AddressIncrement + (K.AddressIncrement - 1))
          / K.AddressIncrement ∧
      ∀ k, 1 ≤ k → k < values.length →
        startAddress + k * K.AddressIncrement < K.StackMemoryEnd ∧
        (startAddress + k * K.AddressIncrement) % 65536
          = startAddress + k * K.AddressIncrement := by
  have hw : (K.StackMemoryEnd - startAddress - K.AddressIncrement + (K.AddressIncrement - 1))
      / K.AddressIncrement = wordsBelowEnd K (startAddress + K.AddressIncrement) := by
    unfold wordsBelowEnd
    rw [Nat.sub_sub]
  rw [hw] at hfuel ⊢
  have hone : List.range 1 = [0] := rfl
  unfold read_stack_contents
  by_cases herr : (d.readRegister s startAddress 0).1.isError = true
  · refine ⟨([], (d.readRegister s startAddress 0).1), (d.readRegister s startAddress 0).2.2,
      [(d.readRegister s startAddress 0).2.1], ?_, by simp, by simp, ?_⟩
    · simp [DialogAPI.recording, herr, hone]
    · intro k hk1 hk
      simp at hk
      omega
  · by_cases hhdr : commandTag K (d.readRegister s startAddress 0).2.1 % 256 = K.StackStart
    · have hwrap : startAddress + K.AddressIncrement < 4294967296 := by omega
      · have hnext : (startAddress + K.AddressIncrement) % 4294967296
            = startAddress + K.AddressIncrement := Nat.mod_eq_of_lt hwrap
        obtain ⟨r, s', values, hrun, hlen, hbelow⟩ :=
          read_stack_contents_loop_terminates K d hEnd hAI0 hAI fuel
            (startAddress + K.AddressIncrement) 0 [(d.readRegister s startAddress 0).2.1]
            (d.readRegister s startAddress 0).2.2
            [DeviceOp.readRegister startAddress (d.readRegister s startAddress 0).2.1] hfuel
        refine ⟨r, s', (d.readRegister s startAddress 0).2.1 :: values, ?_, by simp,
          by simpa using hlen, ?_⟩
        · simp only [DialogAPI.recording, herr, hhdr, ne_eq, not_true_eq_false, if_false,
            Bool.false_eq_true, hnext, List.nil_append]
          simp only [DialogAPI.recording] at hrun
          rw [hrun]
          have hmap : ∀ l : List Nat,
              List.map ((fun i => startAddress + i * K.AddressIncrement) ∘ Nat.succ) l
                = List.map
                    (fun i => startAddress + K.AddressIncrement + i * K.AddressIncrement) l := by
            intro l
            apply List.map_congr_left
            intro i _
            simp only [Function.comp, Nat.succ_mul]
            omega
          rw [List.length_cons, List.range_succ_eq_map values.length]
          simp only [List.map_cons, List.map_map, Nat.zero_mul, Nat.add_zero,
            List.zipWith_cons_cons, hmap, List.singleton_append]
        · intro k hk1 hk
          obtain ⟨j, rfl⟩ : ∃ j, k = j + 1 := ⟨k - 1, by omega⟩
          have := hbelow j (by simpa using hk)
          rw [Nat.succ_mul]
          constructor
          · omega
          · apply Nat.mod_eq_of_lt; omega
    · refine ⟨([(d.readRegister s startAddress 0).2.1],
          ErrorCode.MVLC MVLCErrorCode.InvalidStackHeader),
        (d.readRegister s startAddress 0).2.2,
        [(d.readRegister s startAddress 0).2.1], ?_, by simp, by simp, ?_⟩
      · simp [DialogAPI.recording, herr, hhdr, hone]
      · intro k hk1 hk
        simp at hk
        omega

/-- C29 applies to the stack memory with a StackStart word at `0x2FF8` and no
StackEnd word: the run ends for fuel 2, with the header read and at most one
further read. -/
theorem read_stack_contents_terminates_witness :
    ∃ r s' values,
      read_stack_contents mvlcConstants (staticDevice unterminatedStackMemory).recording
          ((), []) 0x2FF8 2
        = some (r, (s', List.zipWith DeviceOp.readRegister
            ((List.range values.length).map
              (fun k => 0x2FF8 + k * mvlcConstants.AddressIncrement))
            values)) ∧
      1 ≤ values.length ∧
      values.length - 1 ≤
        (mvlcConstants.StackMemoryEnd - 0x2FF8 - mvlcConstants.AddressIncrement
            + (mvlcConstants.AddressIncrement - 1)) / mvlcConstants.AddressIncrement ∧
      ∀ k, 1 ≤ k → k < values.length →
        0x2FF8 + k * mvlcConstants.AddressIncrement < mvlcConstants.StackMemoryEnd ∧
        (0x2FF8 + k * mvlcConstants.AddressIncrement) % 65536
          = 0x2FF8 + k * mvlcConstants.AddressIncrement :=
  read_stack_contents_terminates mvlcConstants (staticDevice unterminatedStackMemory) ()
    0x2FF8 2 (by decide) (by decide) (by decide) (by decide) (by decide)


/-! ## C30 -/

/-- Every run of the loop of `setup_readout_stacks` is determined by how far it
gets: it completes the iterations of a front part of its stacks and then either
the input is used up and it returns no error, or the next stack finds no slot
or fails the check against `StackMemoryEnd` (nothing more is issued, `t = 0`),
or the upload of the next stack fails (`t = 1`), or that upload succeeds and the
write of its offset register fails (`t = 2`); the code returned is that of the
step that ended the run.  With a `u8` stack count the stacks that reach an
upload are at most `StackCount - stackId`. -/
theorem setup_readout_stacks_loop_trace {σ : Type} (K : Constants)
    (msb : StackCommandBuilder → List Nat) (d : DialogAPI σ)
    (hcnt : K.StackCount ≤ 255) (rs : List StackCommandBuilder) :
    ∀ (stackId off : Nat) (s : σ) (log : List DeviceOp),
      ∃ front rest t, rs = front ++ rest ∧ t ≤ 2 ∧
        (setup_readout_stacks_loop K msb d.recording rs stackId off (s, log)).2.2
          = log ++ (readoutOps K msb front stackId off
              ++ (readoutOps K msb (rest.take 1) (stackId + front.length)
                    (wordOffsetAfter msb front off)).take t) ∧
        front.length + (if t = 0 then 0 else 1) ≤ K.StackCount - stackId ∧
        iterationsComplete K msb d front stackId off s = true ∧
        (rest = [] → t = 0 ∧
          (setup_readout_stacks_loop K msb d.recording rs stackId off (s, log)).1
            = ErrorCode.NoError) ∧
        (∀ b rest', rest = b :: rest' →
          (t = 0 ∧ K.StackCount ≤ stackId + front.length ∧
            (setup_readout_stacks_loop K msb d.recording rs stackId off (s, log)).1
              = ErrorCode.MVLC MVLCErrorCode.StackCountExceeded) ∨
          (t = 0 ∧ stackId + front.length < K.StackCount ∧
            K.StackMemoryEnd ≤ endAddressAt K (wordOffsetAfter msb front off) (msb b).length ∧
            (setup_readout_stacks_loop K msb d.recording rs stackId off (s, log)).1
              = ErrorCode.MVLC MVLCErrorCode.StackMemoryExceeded) ∨
          (t = 1 ∧ stackId + front.length < K.StackCount ∧
            endAddressAt K (wordOffsetAfter msb front off) (msb b).length < K.StackMemoryEnd ∧
            (pendingUpload K msb d front b stackId off s).1.isError = true ∧
            (setup_readout_stacks_loop K msb d.recording rs stackId off (s, log)).1
              = (pendingUpload K msb d front b stackId off s).1) ∨
          (t = 2 ∧ stackId + front.length < K.StackCount ∧
            endAddressAt K (wordOffsetAfter msb front off) (msb b).length < K.StackMemoryEnd ∧
            (pendingUpload K msb d front b stackId off s).1.isError = false ∧
            (pendingWrite K msb d front b stackId off s).1.isError = true ∧
            (setup_readout_stacks_loop K msb d.recording rs stackId off (s, log)).1
              = (pendingWrite K msb d front b stackId off s).1)) := by
  induction rs with
  | nil =>
    intro stackId off s log
    refine ⟨[], [], 0, rfl, by omega, ?_, by simp, rfl, fun _ => ⟨rfl, rfl⟩, ?_⟩
    · simp [setup_readout_stacks_loop, readoutOps]
    · intro b rest' h
      exact absurd h (by simp)
  | cons b rest ih =>
    intro stackId off s log
    rw [setup_readout_stacks_loop_recording_cons]
    by_cases hcount : K.StackCount ≤ stackId
    · refine ⟨[], b :: rest, 0, rfl, by omega, ?_, by simp, rfl,
        fun h => absurd h (by simp), ?_⟩
      · simp [hcount, readoutOps]
      · intro b2 rest2 h
        left
        exact ⟨rfl, by simpa using hcount, by simp [hcount]⟩
    · by_cases hmem : K.StackMemoryEnd ≤ endAddressAt K off (msb b).length
      · refine ⟨[], b :: rest, 0, rfl, by omega, ?_, by simp, rfl,
          fun h => absurd h (by simp), ?_⟩
        · simp [hcount, hmem, readoutOps]
        · intro b2 rest2 h
          obtain ⟨hb, _⟩ := List.cons.inj h
          subst hb
          right; left
          exact ⟨rfl, by simpa using Nat.lt_of_not_le hcount,
            by simpa [wordOffsetAfter] using hmem, by simp [hcount, hmem]⟩
      · by_cases hu : (d.uploadStack s (outputPipeOf K b) (uploadAddressAt K off) b).1.isError
            = true
        · refine ⟨[], b :: rest, 1, rfl, by omega, ?_, by simp; omega, rfl,
            fun h => absurd h (by simp), ?_⟩
          · simp [hcount, hmem, hu, readoutOps, wordOffsetAfter, stackOps]
          · intro b2 rest2 h
            obtain ⟨hb, _⟩ := List.cons.inj h
            subst hb
            right; right; left
            exact ⟨rfl, by simpa using Nat.lt_of_not_le hcount,
              by simpa [wordOffsetAfter] using Nat.lt_of_not_le hmem,
              by simpa [pendingUpload, stateAfterIterations, wordOffsetAfter] using hu,
              by simp [hcount, hmem, hu, pendingUpload, stateAfterIterations, wordOffsetAfter]⟩
        · by_cases hw : (d.writeRegister
              (d.uploadStack s (outputPipeOf K b) (uploadAddressAt K off) b).2
              (K.get_offset_register stackId % 65536)
              ((uploadAddressAt K off &&& K.StackOffsetBitMaskBytes) % 4294967296)).1.isError
              = true
          · refine ⟨[], b :: rest, 2, rfl, by omega, ?_, by simp; omega, rfl,
              fun h => absurd h (by simp), ?_⟩
            · simp [hcount, hmem, hu, hw, readoutOps, wordOffsetAfter, stackOps]
            · intro b2 rest2 h
              obtain ⟨hb, _⟩ := List.cons.inj h
              subst hb
              right; right; right
              exact ⟨rfl, by simpa using Nat.lt_of_not_le hcount,
                by simpa [wordOffsetAfter] using Nat.lt_of_not_le hmem,
                by simpa [pendingUpload, stateAfterIterations, wordOffsetAfter] using hu,
                by simpa [pendingWrite, pendingUpload, stateAfterIterations, wordOffsetAfter]
                  using hw,
                by simp [hcount, hmem, hu, hw, pendingWrite, pendingUpload,
                  stateAfterIterations, wordOffsetAfter]⟩
          · have hid : (stackId + 1) % 256 = stackId + 1 := Nat.mod_eq_of_lt (by omega)
            have hlt : stackId < K.StackCount := Nat.lt_of_not_le hcount
            have hwin : endAddressAt K off (msb b).length < K.StackMemoryEnd :=
              Nat.lt_of_not_le hmem
            obtain ⟨front, rest2, t, hsplit, ht, hlog, hbound, hacc, hnil, hcons⟩ :=
              ih (stackId + 1) ((off + (msb b).length + 1) % 65536)
                (d.writeRegister
                  (d.uploadStack s (outputPipeOf K b) (uploadAddressAt K off) b).2
                  (K.get_offset_register stackId % 65536)
                  ((uploadAddressAt K off &&& K.StackOffsetBitMaskBytes) % 4294967296)).2
                (log ++ stackOps K b stackId off)
            have hlen : stackId + 1 + front.length = stackId + (b :: front).length := by
              simp only [List.length_cons]; omega
            simp only [hcount, hmem, hu, hw, if_false, Bool.false_eq_true, hid]
            have hpu : ∀ b2, pendingUpload K msb d (b :: front) b2 stackId off s
                = pendingUpload K msb d front b2 (stackId + 1)
                    ((off + (msb b).length + 1) % 65536)
                    (d.writeRegister
                      (d.uploadStack s (outputPipeOf K b) (uploadAddressAt K off) b).2
                      (K.get_offset_register stackId % 65536)
                      ((uploadAddressAt K off &&& K.StackOffsetBitMaskBytes) % 4294967296)).2 := by
              intro b2
              simp only [pendingUpload, stateAfterIterations, wordOffsetAfter, hid]
            have hpw : ∀ b2, pendingWrite K msb d (b :: front) b2 stackId off s
                = pendingWrite K msb d front b2 (stackId + 1)
                    ((off + (msb b).length + 1) % 65536)
                    (d.writeRegister
                      (d.uploadStack s (outputPipeOf K b) (uploadAddressAt K off) b).2
                      (K.get_offset_register stackId % 65536)
                      ((uploadAddressAt K off &&& K.StackOffsetBitMaskBytes) % 4294967296)).2 := by
              intro b2
              unfold pendingWrite
              rw [hpu, hlen]
              rfl
            have hwo : wordOffsetAfter msb (b :: front) off
                = wordOffsetAfter msb front ((off + (msb b).length + 1) % 65536) := rfl
            refine ⟨b :: front, rest2, t, by simp [hsplit], ht, ?_, ?_, ?_, hnil, ?_⟩
            · rw [hlog, hlen]
              simp [readoutOps, wordOffsetAfter, hid, List.append_assoc]
            · simp only [List.length_cons]
              omega
            · simp only [iterationsComplete, hu, hw, hacc, hlt, hwin, decide_True,
                Bool.not_false, Bool.and_self, hid]
            · intro b2 rest3 hr
              simp only [hpu, hpw, hwo, ← hlen]
              exact hcons b2 rest3 hr

/-- While the stack ids stay below a `u8` stack count and the offset registers
fit a `u16`, the device calls of the completed iterations are those the
specification words: consecutive stack ids from `ImmediateStackID + 1 + k`
on. -/
theorem readoutOps_eq_consecutiveOps (K : Constants) (msb : StackCommandBuilder → List Nat)
    (hcnt : K.StackCount ≤ 255)
    (hreg : ∀ id, id < K.StackCount → K.get_offset_register id < 65536)
    (front : List StackCommandBuilder) :
    ∀ (k off : Nat), K.ImmediateStackID + 1 + k + front.length ≤ K.StackCount →
      readoutOps K msb front (K.ImmediateStackID + 1 + k) off = consecutiveOps K msb front k off := by
  induction front with
  | nil => intro k off _; rfl
  | cons b rest ih =>
    intro k off h
    simp only [List.length_cons] at h
    have hid : (K.ImmediateStackID + 1 + k + 1) % 256 = K.ImmediateStackID + 1 + (k + 1) :=
      Nat.mod_eq_of_lt (by omega)
    have hr : K.get_offset_register (K.ImmediateStackID + 1 + k) % 65536
        = K.get_offset_register (K.ImmediateStackID + 1 + k) :=
      Nat.mod_eq_of_lt (hreg _ (by omega))
    simp only [readoutOps, consecutiveOps, stackOps, hid, hr]
    rw [ih (k + 1) _ (by omega)]

/-- The registers written by the device calls that the specification words are
the offset registers of the stack ids `ImmediateStackID + 1 + j` with `j` from
`k` on, one per stack. -/
theorem consecutiveOps_writeRegister (K : Constants) (msb : StackCommandBuilder → List Nat)
    (l : List StackCommandBuilder) :
    ∀ (k off a v : Nat), DeviceOp.writeRegister a v ∈ consecutiveOps K msb l k off →
      ∃ j, k ≤ j ∧ j < k + l.length ∧
        a = K.get_offset_register (K.ImmediateStackID + 1 + j) := by
  induction l with
  | nil => intro k off a v h; simp [consecutiveOps] at h
  | cons b rest ih =>
    intro k off a v h
    simp only [consecutiveOps, List.cons_append, List.nil_append, List.mem_cons] at h
    rcases h with h | h | h
    · exact absurd h (by simp)
    · simp only [DeviceOp.writeRegister.injEq] at h
      exact ⟨k, le_refl _, by simp, h.1⟩
    · obtain ⟨j, hj1, hj2, hj3⟩ := ih _ _ _ _ h
      exact ⟨j, by omega, by simp only [List.length_cons]; omega, hj3⟩

/-- C30: `setup_readout_stacks` assigns stack ids consecutively starting at
`ImmediateStackID + 1`.  Every run completes the iterations of a front part of
the input: for the stack counted `k` from 0 the upload, then the write of its
offset to `get_offset_register(ImmediateStackID + 1 + k)`, every stack having
found a slot and passed the memory check and every upload and write having
succeeded.  The run ends there in one of five ways, which fixes the code it
returns: the input is used up (no error); the next stack finds no slot
(`StackCountExceeded`) or fails the memory check (`StackMemoryExceeded`), with
nothing more issued; its upload fails, with the upload the last call and its
offset register not written; or its upload succeeds and the write of its offset
register fails.  So an offset register is written after, and only after, the
upload of its own stack succeeded.  At most `StackCount - 1` stacks are uploaded
and the offset register of the immediate stack is never written.  The stack
count fits a `u8` and counts the immediate stack, the offset registers fit a
`u16` and that of the immediate stack is shared with no other stack. -/
theorem setup_readout_stacks_stack_ids {σ : Type} (K : Constants)
    (msb : StackCommandBuilder → List Nat) (d : DialogAPI σ) (s : σ)
    (rs : List StackCommandBuilder)
    (hcnt : K.StackCount ≤ 255)
    (himm : K.ImmediateStackID < K.StackCount)
    (hreg : ∀ id, id < K.StackCount → K.get_offset_register id < 65536)
    (hinj : ∀ id, K.ImmediateStackID < id → id < K.StackCount →
      K.get_offset_register id ≠ K.get_offset_register K.ImmediateStackID) :
    ∃ front rest t, rs = front ++ rest ∧ t ≤ 2 ∧
      (setup_readout_stacks K msb d.recording (s, []) rs).2.2
        = consecutiveOps K msb front 0 (firstUploadWordOffset K)
            ++ (consecutiveOps K msb (rest.take 1) front.length
                  (wordOffsetAfter msb front (firstUploadWordOffset K))).take t ∧
      iterationsComplete K msb d front (K.ImmediateStackID + 1) (firstUploadWordOffset K) s
        = true ∧
      (rest = [] → t = 0 ∧
        (setup_readout_stacks K msb d.recording (s, []) rs).1 = ErrorCode.NoError) ∧
      (∀ b rest', rest = b :: rest' →
        (t = 0 ∧ K.StackCount ≤ K.ImmediateStackID + 1 + front.length ∧
          (setup_readout_stacks K msb d.recording (s, []) rs).1
            = ErrorCode.MVLC MVLCErrorCode.StackCountExceeded) ∨
        (t = 0 ∧ K.ImmediateStackID + 1 + front.length < K.StackCount ∧
          K.StackMemoryEnd ≤
            endAddressAt K (wordOffsetAfter msb front (firstUploadWordOffset K)) (msb b).length ∧
          (setup_readout_stacks K msb d.recording (s, []) rs).1
            = ErrorCode.MVLC MVLCErrorCode.StackMemoryExceeded) ∨
        (t = 1 ∧ K.ImmediateStackID + 1 + front.length < K.StackCount ∧
          endAddressAt K (wordOffsetAfter msb front (firstUploadWordOffset K)) (msb b).length
            < K.StackMemoryEnd ∧
          (pendingUpload K msb d front b (K.ImmediateStackID + 1)
            (firstUploadWordOffset K) s).1.isError = true ∧
          (setup_readout_stacks K msb d.recording (s, []) rs).1
            = (pendingUpload K msb d front b (K.ImmediateStackID + 1)
                (firstUploadWordOffset K) s).1) ∨
        (t = 2 ∧ K.ImmediateStackID + 1 + front.length < K.StackCount ∧
          endAddressAt K (wordOffsetAfter msb front (firstUploadWordOffset K)) (msb b).length
            < K.StackMemoryEnd ∧
          (pendingUpload K msb d front b (K.ImmediateStackID + 1)
            (firstUploadWordOffset K) s).1.isError = false ∧
          (pendingWrite K msb d front b (K.ImmediateStackID + 1)
            (firstUploadWordOffset K) s).1.isError = true ∧
          (setup_readout_stacks K msb d.recording (s, []) rs).1
            = (pendingWrite K msb d front b (K.ImmediateStackID + 1)
                (firstUploadWordOffset K) s).1)) ∧
      front.length + (if t = 0 then 0 else 1) ≤ K.StackCount - 1 ∧
      (∀ v, DeviceOp.writeRegister (K.get_offset_register K.ImmediateStackID) v
        ∉ (setup_readout_stacks K msb d.recording (s, []) rs).2.2) := by
  have hfirst : firstReadoutStackId K = K.ImmediateStackID + 1 := by
    unfold firstReadoutStackId
    exact Nat.mod_eq_of_lt (by omega)
  obtain ⟨front, rest, t, hsplit, ht, hlog, hbound, hacc, hnil, hcons⟩ :=
    setup_readout_stacks_loop_trace K msb d hcnt rs (firstReadoutStackId K)
      (firstUploadWordOffset K) s []
  rw [hfirst] at hlog hbound hacc hnil hcons
  have hfl : front.length ≤ K.StackCount - (K.ImmediateStackID + 1) := by
    have h1 : front.length ≤ front.length + (if t = 0 then 0 else 1) := Nat.le_add_right _ _
    omega
  have hfront : readoutOps K msb front (K.ImmediateStackID + 1) (firstUploadWordOffset K)
      = consecutiveOps K msb front 0 (firstUploadWordOffset K) := by
    have := readoutOps_eq_consecutiveOps K msb hcnt hreg front 0 (firstUploadWordOffset K)
      (by omega)
    simpa using this
  have hpending : (readoutOps K msb (rest.take 1) (K.ImmediateStackID + 1 + front.length)
        (wordOffsetAfter msb front (firstUploadWordOffset K))).take t
      = (consecutiveOps K msb (rest.take 1) front.length
        (wordOffsetAfter msb front (firstUploadWordOffset K))).take t := by
    by_cases ht0 : t = 0
    · rw [ht0]; rfl
    · have hb : front.length + 1 ≤ K.StackCount - (K.ImmediateStackID + 1) := by
        simpa [ht0] using hbound
      have hl : (rest.take 1).length ≤ 1 := by simp [List.length_take]
      rw [readoutOps_eq_consecutiveOps K msb hcnt hreg (rest.take 1) front.length _ (by omega)]
  have hlog2 : (setup_readout_stacks K msb d.recording (s, []) rs).2.2
      = consecutiveOps K msb front 0 (firstUploadWordOffset K)
          ++ (consecutiveOps K msb (rest.take 1) front.length
                (wordOffsetAfter msb front (firstUploadWordOffset K))).take t := by
    unfold setup_readout_stacks
    rw [hfirst, hlog, hfront, hpending]
    simp
  have hres : setup_readout_stacks K msb d.recording (s, []) rs
      = setup_readout_stacks_loop K msb d.recording rs (K.ImmediateStackID + 1)
          (firstUploadWordOffset K) (s, []) := by
    unfold setup_readout_stacks
    rw [hfirst]
  refine ⟨front, rest, t, hsplit, ht, hlog2, hacc, ?_, ?_, ?_, ?_⟩
  · rw [hres]; exact hnil
  · rw [hres]; exact hcons
  · have : front.length + (if t = 0 then 0 else 1) ≤ K.StackCount - (K.ImmediateStackID + 1) :=
      hbound
    omega
  · intro v hmem
    rw [hlog2] at hmem
    rcases List.mem_append.1 hmem with h | h
    · obtain ⟨j, _, hj2, hj3⟩ := consecutiveOps_writeRegister K msb front 0 _ _ _ h
      exact hinj (K.ImmediateStackID + 1 + j) (by omega) (by omega) hj3.symm
    · have ht0 : t ≠ 0 := by
        intro h0
        rw [h0] at h
        simp at h
      have hb : front.length + 1 ≤ K.StackCount - (K.ImmediateStackID + 1) := by
        simpa [ht0] using hbound
      obtain ⟨j, _, hj2, hj3⟩ :=
        consecutiveOps_writeRegister K msb (rest.take 1) front.length _ _ _
          (List.mem_of_mem_take h)
      have hl : (rest.take 1).length ≤ 1 := by simp [List.length_take]
      exact hinj (K.ImmediateStackID + 1 + j) (by omega) (by omega) hj3.symm

/-- C30 applies to a stack of two words followed by one of four words on the
accepting device with `mvlcConstants`: the run returns no error, so it has
completed both iterations, and its calls are the upload of the first stack at
offset 516, the write of 516 to the offset register `0x1204` of stack 1, the
upload of the second stack at offset 528 and the write of 528 to the offset
register `0x1208` of stack 2; the offset register `0x1200` of the immediate
stack is not written. -/
theorem setup_readout_stacks_stack_ids_witness :
    (setup_readout_stacks mvlcConstants mvlcStackBuffer idleDevice.recording ((), [])
        [markerStack 0, markerStack 1]).1 = ErrorCode.NoError ∧
    (setup_readout_stacks mvlcConstants mvlcStackBuffer idleDevice.recording ((), [])
        [markerStack 0, markerStack 1]).2.2
      = [DeviceOp.uploadStack 1 516 (markerStack 0), DeviceOp.writeRegister 0x1204 516,
         DeviceOp.uploadStack 1 528 (markerStack 1), DeviceOp.writeRegister 0x1208 528] ∧
    iterationsComplete mvlcConstants mvlcStackBuffer idleDevice [markerStack 0, markerStack 1]
      (mvlcConstants.ImmediateStackID + 1) (firstUploadWordOffset mvlcConstants) () = true ∧
    (∀ v, DeviceOp.writeRegister 0x1200 v
      ∉ (setup_readout_stacks mvlcConstants mvlcStackBuffer idleDevice.recording ((), [])
          [markerStack 0, markerStack 1]).2.2) := by
  have hok : (setup_readout_stacks mvlcConstants mvlcStackBuffer idleDevice.recording ((), [])
      [markerStack 0, markerStack 1]).1 = ErrorCode.NoError := by decide
  obtain ⟨front, rest, t, hsplit, _, hlog, hacc, hnil, hcons, _, hnot⟩ :=
    setup_readout_stacks_stack_ids mvlcConstants mvlcStackBuffer idleDevice ()
      [markerStack 0, markerStack 1] (by decide) (by decide)
      (by intro id hid; simp only [mvlcConstants] at hid ⊢; omega)
      (by intro id h1 h2; simp only [mvlcConstants] at h1 h2 ⊢; omega)
  cases rest with
  | nil =>
    obtain ⟨ht0, _⟩ := hnil rfl
    have hfront : front = [markerStack 0, markerStack 1] := by simpa using hsplit.symm
    subst hfront
    subst ht0
    refine ⟨hok, ?_, hacc, hnot⟩
    rw [hlog]
    decide
  | cons b rest' =>
    exfalso
    rcases hcons b rest' rfl with h | h | h | h
    · rw [hok] at h; exact absurd h.2.2 (by decide)
    · rw [hok] at h; exact absurd h.2.2.2 (by decide)
    · obtain ⟨_, _, _, herr, heq⟩ := h
      rw [← heq, hok] at herr
      exact absurd herr (by decide)
    · obtain ⟨_, _, _, _, herr, heq⟩ := h
      rw [← heq, hok] at herr
      exact absurd herr (by decide)


/-! ## C19 -/

/-- Every command-pipe method of `MVLC` takes the guard of the command-pipe
mutex, calls the dialog on the world the guard left, and destroys the guard on
the world the call left: on instrumented surroundings the log grows by these
three events in this order. -/
theorem MVLC.perform_recording {σ : Type} (P : PrivateAPI σ) (w : σ) (log : List ThreadOp)
    (c : DialogCall) :
    MVLC.perform P.recording (w, log) c
      = ((P.dialog (P.lock w MutexId.cmd) c).1,
          (P.unlock (P.dialog (P.lock w MutexId.cmd) c).2 MutexId.cmd,
            log ++ [ThreadOp.lock MutexId.cmd, ThreadOp.dialog c.method,
              ThreadOp.unlock MutexId.cmd])) := by
  cases c <;>
    simp [MVLC.perform, MVLC.readRegister, MVLC.writeRegister, MVLC.vmeRead, MVLC.vmeWrite,
      MVLC.vmeBlockRead, MVLC.uploadStack, MVLC.execImmediateStack, MVLC.readResponse,
      MVLC.mirrorTransaction, MVLC.stackTransaction, MVLC.readKnownBuffer,
      MVLC.getResponseBuffer, PrivateAPI.recording, DialogCall.method]

/-- The events of an iteration of the poller with its guards, on instrumented
surroundings: the suspend guard, the command-pipe guard, the read, the end of
the command-pipe guard, the sleep if there is one, the end of the suspend
guard. -/
theorem stack_error_poller_iteration_guarded_recording {σ κ : Type} (E : ErrorCategories)
    (L : PrivateAPI σ) (P : PollerAPI σ κ) (w : σ) (log : List ThreadOp) (c : κ)
    (buffer : List Nat) (ec : ErrorCode) :
    (stack_error_poller_iteration_guarded E L.recording P.threadRecording
        { world := (w, log), counters := c, buffer := buffer, ec := ec }).world.2
      = log ++ ([ThreadOp.lock MutexId.suspend, ThreadOp.lock MutexId.cmd,
            ThreadOp.dialog DialogMethod.readKnownBuffer, ThreadOp.unlock MutexId.cmd]
          ++ (if ErrorCode.isConnectionError E
                  (P.readKnownBuffer (L.lock (L.lock w MutexId.suspend) MutexId.cmd) buffer).1
                  = true
                ∨ (P.readKnownBuffer (L.lock (L.lock w MutexId.suspend) MutexId.cmd) buffer).2.1
                  = []
              then [ThreadOp.sleep_for 1000] else [])
          ++ [ThreadOp.unlock MutexId.suspend]) := by
  by_cases h : ErrorCode.isConnectionError E
        (P.readKnownBuffer (L.lock (L.lock w MutexId.suspend) MutexId.cmd) buffer).1 = true
      ∨ (P.readKnownBuffer (L.lock (L.lock w MutexId.suspend) MutexId.cmd) buffer).2.1 = []
  · rw [if_pos h]
    simp only [stack_error_poller_iteration_guarded, PrivateAPI.recording,
      PollerAPI.threadRecording, List.isEmpty_iff, Default_PollInterval, if_pos h]
    simp
  · rw [if_neg h]
    simp only [stack_error_poller_iteration_guarded, PrivateAPI.recording,
      PollerAPI.threadRecording, List.isEmpty_iff, Default_PollInterval, if_neg h]
    simp

/-- With guards that have no effect on the world, the iteration of the poller
with its guards is the iteration without them. -/
theorem stack_error_poller_iteration_guarded_noLocks {σ κ : Type} (E : ErrorCategories)
    (dialog : σ → DialogCall → (ErrorCode × List Nat) × σ) (P : PollerAPI σ κ)
    (st : PollerState σ κ) :
    stack_error_poller_iteration_guarded E (noLocks dialog) P st
      = stack_error_poller_iteration E P st := by
  rfl

/-- Changing a function at a point and reading it there. -/
theorem setAt_same {α β : Type} [DecidableEq α] (f : α → β) (a : α) (b : β) :
    setAt f a b a = b := by
  simp [setAt]

/-- Changing a function at a point and reading it elsewhere. -/
theorem setAt_other {α β : Type} [DecidableEq α] (f : α → β) (a x : α) (b : β) (h : x ≠ a) :
    setAt f a b x = f x := by
  simp [setAt, h]

/-- Steps that respect the guards, one stretch after the other. -/
theorem guarded_append (req : MutexId → Bool) (p q : List Action) :
    ∀ held, guarded req held (p ++ q)
      ↔ guarded req held p ∧ guarded req (heldAfter held p) q := by
  induction p with
  | nil => intro held; simp [guarded, heldAfter]
  | cons a p ih =>
    intro held
    cases a <;> simp [guarded, heldAfter, ih, and_assoc]

/-- The mutexes owned after two stretches of steps. -/
theorem heldAfter_append (p q : List Action) :
    ∀ held, heldAfter held (p ++ q) = heldAfter (heldAfter held p) q := by
  induction p with
  | nil => intro held; rfl
  | cons a p ih =>
    intro held
    cases a <;> simp [heldAfter, ih]

/-- Taking a guard on a mutex that is not owned and destroying it leaves the
mutexes owned as they were. -/
theorem setAt_restore (held : MutexId → Bool) (m : MutexId) (b : Bool) (h : held m = false) :
    setAt (setAt held m b) m false = held := by
  funext x
  by_cases hx : x = m
  · subst hx; simp [setAt, h]
  · simp [setAt, hx]

/-- The steps of a command-pipe method respect the guards when the thread does
not own the command-pipe mutex before them and owns, with it, every mutex its
dialog calls need; they leave the mutexes owned as they were. -/
theorem methodActions_guarded (req : MutexId → Bool) (held : MutexId → Bool)
    (m : DialogMethod) (hcmd : held MutexId.cmd = false)
    (hreq : ∀ x, req x = true → x = MutexId.cmd ∨ held x = true) :
    guarded req held (methodActions m) ∧ heldAfter held (methodActions m) = held := by
  have hall : ∀ x, req x = true → setAt held MutexId.cmd true x = true := by
    intro x hx
    rcases hreq x hx with h | h
    · subst h; exact setAt_same _ _ _
    · by_cases hxc : x = MutexId.cmd
      · subst hxc; exact setAt_same _ _ _
      · rw [setAt_other _ _ _ _ hxc]; exact h
  refine ⟨?_, ?_⟩
  · simp only [methodActions, guarded, hcmd, setAt_same, and_true, true_and]
    exact ⟨hall, hall⟩
  · simp only [methodActions, heldAfter]
    exact setAt_restore held MutexId.cmd true hcmd

/-- A stretch of command-pipe methods respects the guards under the conditions
of a single one and leaves the mutexes owned as they were. -/
theorem methods_guarded (req : MutexId → Bool) (held : MutexId → Bool)
    (hcmd : held MutexId.cmd = false)
    (hreq : ∀ x, req x = true → x = MutexId.cmd ∨ held x = true)
    (methods : List DialogMethod) :
    guarded req held (methods.flatMap methodActions)
      ∧ heldAfter held (methods.flatMap methodActions) = held := by
  induction methods with
  | nil => simp [guarded, heldAfter]
  | cons m rest ih =>
    obtain ⟨h1, h2⟩ := methodActions_guarded req held m hcmd hreq
    rw [List.flatMap_cons, guarded_append, heldAfter_append, h2]
    exact ⟨⟨h1, ih.1⟩, ih.2⟩

/-- The steps of an iteration of the poller respect the guards when the thread
owns neither the command-pipe nor the suspend mutex before them and its dialog
calls need no mutex beyond these two; they leave the mutexes owned as they
were. -/
theorem pollerActions_guarded (req : MutexId → Bool) (held : MutexId → Bool) (sleeps : Bool)
    (hcmd : held MutexId.cmd = false) (hsusp : held MutexId.suspend = false)
    (hreq : ∀ x, req x = true → x = MutexId.cmd ∨ x = MutexId.suspend) :
    guarded req held (pollerActions sleeps) ∧ heldAfter held (pollerActions sleeps) = held := by
  have hall : ∀ x, req x = true →
      setAt (setAt held MutexId.suspend true) MutexId.cmd true x = true := by
    intro x hx
    rcases hreq x hx with h | h
    · subst h; exact setAt_same _ _ _
    · subst h
      rw [setAt_other _ _ _ _ (by decide)]
      exact setAt_same _ _ _
  have hc : setAt held MutexId.suspend true MutexId.cmd = false := by
    rw [setAt_other _ _ _ _ (by decide)]; exact hcmd
  have hs : setAt (setAt (setAt held MutexId.suspend true) MutexId.cmd true) MutexId.cmd false
      MutexId.suspend = true := by
    rw [setAt_other _ _ _ _ (by decide), setAt_other _ _ _ _ (by decide)]
    exact setAt_same _ _ _
  have hback : setAt (setAt (setAt (setAt held MutexId.suspend true) MutexId.cmd true)
      MutexId.cmd false) MutexId.suspend false = held := by
    rw [setAt_restore (setAt held MutexId.suspend true) MutexId.cmd true hc]
    exact setAt_restore held MutexId.suspend true hsusp
  cases sleeps
  · refine ⟨?_, ?_⟩
    · simp only [pollerActions, guarded, hsusp, hc, setAt_same, hs, and_true, true_and,
        Bool.false_eq_true, if_false, List.append_nil, List.cons_append, List.nil_append]
      exact ⟨hall, hall⟩
    · simp only [pollerActions, heldAfter, Bool.false_eq_true, if_false, List.append_nil,
        List.cons_append, List.nil_append]
      exact hback
  · refine ⟨?_, ?_⟩
    · simp only [pollerActions, guarded, hsusp, hc, setAt_same, hs, and_true, true_and,
        if_true, List.cons_append, List.nil_append]
      exact ⟨hall, hall⟩
    · simp only [pollerActions, heldAfter, if_true, List.cons_append, List.nil_append]
      exact hback

/-- The steps of a stretch of methods made while holding the guard of
`suspendStackErrorPolling()` respect the guards under the conditions of an
iteration of the poller and leave the mutexes owned as they were. -/
theorem suspendedActions_guarded (req : MutexId → Bool) (held : MutexId → Bool)
    (methods : List DialogMethod)
    (hcmd : held MutexId.cmd = false) (hsusp : held MutexId.suspend = false)
    (hreq : ∀ x, req x = true → x = MutexId.cmd ∨ x = MutexId.suspend) :
    guarded req held (ThreadItem.suspended methods).actions
      ∧ heldAfter held (ThreadItem.suspended methods).actions = held := by
  have hc : setAt held MutexId.suspend true MutexId.cmd = false := by
    rw [setAt_other _ _ _ _ (by decide)]; exact hcmd
  have hreq2 : ∀ x, req x = true →
      x = MutexId.cmd ∨ setAt held MutexId.suspend true x = true := by
    intro x hx
    rcases hreq x hx with h | h
    · left; exact h
    · right; subst h; exact setAt_same _ _ _
  obtain ⟨h1, h2⟩ := methods_guarded req (setAt held MutexId.suspend true) hc hreq2 methods
  have hshape : (ThreadItem.suspended methods).actions
      = Action.lock MutexId.suspend ::
        (methods.flatMap methodActions ++ [Action.unlock MutexId.suspend]) := rfl
  rw [hshape]
  simp only [guarded, heldAfter, hsusp, true_and]
  rw [guarded_append, heldAfter_append, h2]
  refine ⟨⟨h1, ?_⟩, ?_⟩
  · simp only [guarded, setAt_same, and_true]
  · simp only [heldAfter]
    exact setAt_restore held MutexId.suspend true hsusp

/-- The steps of a piece of a thread respect the guards when the thread owns
neither the command-pipe nor the suspend mutex before them and its dialog calls
need the command-pipe mutex only, or also the suspend mutex when the piece is
not a bare method; they leave the mutexes owned as they were. -/
theorem itemActions_guarded (req : MutexId → Bool) (held : MutexId → Bool) (item : ThreadItem)
    (hcmd : held MutexId.cmd = false) (hsusp : held MutexId.suspend = false)
    (hreq : ∀ x, req x = true →
      x = MutexId.cmd ∨ (x = MutexId.suspend ∧ ∀ m, item ≠ ThreadItem.method m)) :
    guarded req held item.actions ∧ heldAfter held item.actions = held := by
  cases item with
  | method m =>
    refine methodActions_guarded req held m hcmd ?_
    intro x hx
    rcases hreq x hx with h | h
    · left; exact h
    · exact absurd rfl (h.2 m)
  | pollerIteration sleeps =>
    refine pollerActions_guarded req held sleeps hcmd hsusp ?_
    intro x hx
    rcases hreq x hx with h | h
    · left; exact h
    · right; exact h.1
  | suspended methods =>
    refine suspendedActions_guarded req held methods hcmd hsusp ?_
    intro x hx
    rcases hreq x hx with h | h
    · left; exact h
    · right; exact h.1

/-- The steps of the pieces of a thread respect the guards under the conditions
of a single piece. -/
theorem itemsActions_guarded (req : MutexId → Bool) (held : MutexId → Bool)
    (hcmd : held MutexId.cmd = false) (hsusp : held MutexId.suspend = false)
    (items : List ThreadItem)
    (hreq : ∀ item, item ∈ items → ∀ x, req x = true →
      x = MutexId.cmd ∨ (x = MutexId.suspend ∧ ∀ m, item ≠ ThreadItem.method m)) :
    guarded req held (items.flatMap ThreadItem.actions) := by
  induction items with
  | nil => simp [guarded]
  | cons item rest ih =>
    obtain ⟨h1, h2⟩ := itemActions_guarded req held item hcmd hsusp
      (hreq item (List.mem_cons_self _ _))
    rw [List.flatMap_cons, guarded_append, h2]
    exact ⟨h1, ih (fun it hit => hreq it (List.mem_cons_of_mem _ hit))⟩

/-- At their start the threads respect the guards. -/
theorem Threads.start_guardedAll (req : Nat → MutexId → Bool) (items : Nat → List ThreadItem)
    (hreq : ∀ t item, item ∈ items t → ∀ x, req t x = true →
      x = MutexId.cmd ∨ (x = MutexId.suspend ∧ ∀ m, item ≠ ThreadItem.method m)) :
    (Threads.start items).guardedAll req := by
  intro t
  exact itemsActions_guarded (req t) _ (by simp [Threads.heldBy, Threads.start])
    (by simp [Threads.heldBy, Threads.start]) (items t) (hreq t)

/-- A turn of a thread keeps the threads respecting the guards. -/
theorem Threads.step_guardedAll (req : Nat → MutexId → Bool) (T : Threads) (u : Nat)
    (h : T.guardedAll req) : (T.step u).guardedAll req := by
  unfold Threads.step
  cases hp : T.programs u with
  | nil => simpa using h
  | cons a rest =>
    have hu := h u
    rw [hp] at hu
    cases a with
    | lock m =>
      simp only []
      by_cases hfree : T.owner m = none
      · rw [if_pos hfree]
        intro t
        by_cases htu : t = u
        · subst htu
          have hheld : Threads.heldBy
              { owner := setAt T.owner m (some t), programs := setAt T.programs t rest } t
              = setAt (T.heldBy t) m true := by
            funext x
            by_cases hx : x = m
            · subst hx; simp [Threads.heldBy, setAt]
            · simp [Threads.heldBy, setAt, hx]
          rw [hheld]
          simp only [setAt_same]
          exact hu.2
        · have hheld : Threads.heldBy
              { owner := setAt T.owner m (some u), programs := setAt T.programs u rest } t
              = T.heldBy t := by
            funext x
            by_cases hx : x = m
            · subst hx
              have : ¬ u = t := fun e => htu e.symm
              simp [Threads.heldBy, setAt, hfree, this]
            · simp [Threads.heldBy, setAt, hx]
          rw [hheld]
          simp only [setAt_other _ _ _ _ htu]
          exact h t
      · rw [if_neg hfree]
        exact h
    | unlock m =>
      simp only []
      have hown : T.owner m = some u := by
        have := hu.1
        simpa [Threads.heldBy] using this
      intro t
      by_cases htu : t = u
      · subst htu
        have hheld : Threads.heldBy
            { owner := setAt T.owner m none, programs := setAt T.programs t rest } t
            = setAt (T.heldBy t) m false := by
          funext x
          by_cases hx : x = m
          · subst hx; simp [Threads.heldBy, setAt]
          · simp [Threads.heldBy, setAt, hx]
        rw [hheld]
        simp only [setAt_same]
        exact hu.2
      · have hheld : Threads.heldBy
            { owner := setAt T.owner m none, programs := setAt T.programs u rest } t
            = T.heldBy t := by
          funext x
          by_cases hx : x = m
          · subst hx
            have : ¬ u = t := fun e => htu e.symm
            simp [Threads.heldBy, setAt, hown, this]
          · simp [Threads.heldBy, setAt, hx]
        rw [hheld]
        simp only [setAt_other _ _ _ _ htu]
        exact h t
    | call method =>
      simp only []
      intro t
      by_cases htu : t = u
      · subst htu
        simp only [setAt_same]
        exact hu.2
      · simp only [setAt_other _ _ _ _ htu]
        exact h t
    | ret method =>
      simp only []
      intro t
      by_cases htu : t = u
      · subst htu
        simp only [setAt_same]
        exact hu.2
      · simp only [setAt_other _ _ _ _ htu]
        exact h t
    | sleep =>
      simp only []
      intro t
      by_cases htu : t = u
      · subst htu
        simp only [setAt_same]
        exact hu
      · simp only [setAt_other _ _ _ _ htu]
        exact h t

/-- The turns of a schedule keep the threads respecting the guards. -/
theorem Threads.run_guardedAll (req : Nat → MutexId → Bool) (schedule : List Nat) :
    ∀ T : Threads, T.guardedAll req → (T.run schedule).guardedAll req := by
  induction schedule with
  | nil => intro T h; exact h
  | cons u rest ih =>
    intro T h
    exact ih (T.step u) (Threads.step_guardedAll req T u h)

/-- A thread that respects the guards and is about to start a dialog call, or
to return from one, owns every mutex its dialog calls need. -/
theorem Threads.owner_of_dialog (req : Nat → MutexId → Bool) (T : Threads)
    (h : T.guardedAll req) (t : Nat) (method : DialogMethod) (rest : List Action)
    (hnext : T.programs t = Action.call method :: rest
      ∨ T.programs t = Action.ret method :: rest)
    (x : MutexId) (hx : req t x = true) : T.owner x = some t := by
  have ht := h t
  rcases hnext with hp | hp
  · rw [hp] at ht
    have := ht.1 x hx
    simpa [Threads.heldBy] using this
  · rw [hp] at ht
    have := ht.1 x hx
    simpa [Threads.heldBy] using this

/-- The steps of a command-pipe method are the steps of the events it logs. -/
theorem methodActions_eq_events (m : DialogMethod) :
    methodActions m
      = [ThreadOp.lock MutexId.cmd, ThreadOp.dialog m,
          ThreadOp.unlock MutexId.cmd].flatMap ThreadOp.actions := by
  rfl

/-- The steps of an iteration of the poller are the steps of the events it
logs. -/
theorem pollerActions_eq_events (sleeps : Bool) :
    pollerActions sleeps
      = ([ThreadOp.lock MutexId.suspend, ThreadOp.lock MutexId.cmd,
            ThreadOp.dialog DialogMethod.readKnownBuffer, ThreadOp.unlock MutexId.cmd]
          ++ (if sleeps = true then [ThreadOp.sleep_for 1000] else [])
          ++ [ThreadOp.unlock MutexId.suspend]).flatMap ThreadOp.actions := by
  cases sleeps <;> rfl

/-- C19: every command-pipe method of `MVLC` takes the guard of the command-pipe
mutex, then makes its dialog call on the world the guard left, then destroys
the guard on the world the call left, and the poller makes its read after
taking its guard of that mutex and before destroying it, with no other dialog
call in the iteration.  Hence, whatever pieces the threads of the process are
made of (command-pipe methods of `MVLC`, iterations of the poller, methods made
under the guard of `suspendStackErrorPolling()`) and however they are
scheduled, a thread that is about to start a dialog call, or is inside one,
owns the command-pipe mutex, and every other thread in that position is the
same thread. -/
theorem MVLC.dialog_calls_hold_cmd_lock {σ κ : Type} (E : ErrorCategories) (P : PrivateAPI σ)
    (Q : PollerAPI σ κ) (w : σ) (log : List ThreadOp) (c : DialogCall) (counters : κ)
    (buffer : List Nat) (ec : ErrorCode) (items : Nat → List ThreadItem) :
    MVLC.perform P.recording (w, log) c
        = ((P.dialog (P.lock w MutexId.cmd) c).1,
            (P.unlock (P.dialog (P.lock w MutexId.cmd) c).2 MutexId.cmd,
              log ++ [ThreadOp.lock MutexId.cmd, ThreadOp.dialog c.method,
                ThreadOp.unlock MutexId.cmd]))
    ∧ methodActions c.method
        = [ThreadOp.lock MutexId.cmd, ThreadOp.dialog c.method,
            ThreadOp.unlock MutexId.cmd].flatMap ThreadOp.actions
    ∧ (∃ before after : List ThreadOp,
        (stack_error_poller_iteration_guarded E P.recording Q.threadRecording
            { world := (w, log), counters := counters, buffer := buffer, ec := ec }).world.2
          = log ++ (before ++ [ThreadOp.lock MutexId.cmd,
              ThreadOp.dialog DialogMethod.readKnownBuffer, ThreadOp.unlock MutexId.cmd]
              ++ after)
        ∧ (∀ method, ThreadOp.dialog method ∉ before)
        ∧ (∀ method, ThreadOp.dialog method ∉ after)
        ∧ ∃ sleeps, pollerActions sleeps = (before ++ [ThreadOp.lock MutexId.cmd,
              ThreadOp.dialog DialogMethod.readKnownBuffer, ThreadOp.unlock MutexId.cmd]
              ++ after).flatMap ThreadOp.actions)
    ∧ ∀ (schedule : List Nat) (t : Nat) (method : DialogMethod) (rest : List Action),
        (((Threads.start items).run schedule).programs t = Action.call method :: rest
          ∨ ((Threads.start items).run schedule).programs t = Action.ret method :: rest) →
        ((Threads.start items).run schedule).owner MutexId.cmd = some t
        ∧ ∀ (u : Nat) (method' : DialogMethod) (rest' : List Action),
            (((Threads.start items).run schedule).programs u = Action.call method' :: rest'
              ∨ ((Threads.start items).run schedule).programs u = Action.ret method' :: rest') →
            u = t := by
  refine ⟨MVLC.perform_recording P w log c, methodActions_eq_events c.method, ?_, ?_⟩
  · refine ⟨[ThreadOp.lock MutexId.suspend],
      (if ErrorCode.isConnectionError E
            (Q.readKnownBuffer (P.lock (P.lock w MutexId.suspend) MutexId.cmd) buffer).1 = true
          ∨ (Q.readKnownBuffer (P.lock (P.lock w MutexId.suspend) MutexId.cmd) buffer).2.1 = []
        then [ThreadOp.sleep_for 1000] else []) ++ [ThreadOp.unlock MutexId.suspend],
      ?_, ?_, ?_, ?_⟩
    · rw [stack_error_poller_iteration_guarded_recording]
      simp
    · intro method; simp
    · intro method
      split <;> simp
    · by_cases h : ErrorCode.isConnectionError E
            (Q.readKnownBuffer (P.lock (P.lock w MutexId.suspend) MutexId.cmd) buffer).1 = true
          ∨ (Q.readKnownBuffer (P.lock (P.lock w MutexId.suspend) MutexId.cmd) buffer).2.1 = []
      · refine ⟨true, ?_⟩
        rw [if_pos h]; rfl
      · refine ⟨false, ?_⟩
        rw [if_neg h]; rfl
  · intro schedule t method rest hnext
    have hinv : ((Threads.start items).run schedule).guardedAll (fun _ => needsCmd) :=
      Threads.run_guardedAll _ schedule _
        (Threads.start_guardedAll _ items (by
          intro u item _ x hx
          left
          simpa [needsCmd] using hx))
    refine ⟨Threads.owner_of_dialog _ _ hinv t method rest hnext MutexId.cmd (by decide), ?_⟩
    intro u method' rest' hu
    have h1 := Threads.owner_of_dialog _ _ hinv t method rest hnext MutexId.cmd (by decide)
    have h2 := Threads.owner_of_dialog _ _ hinv u method' rest' hu MutexId.cmd (by decide)
    rw [h1] at h2
    exact (Option.some.inj h2).symm

/-- The statement on the threads of C19 for thread 0 calling
`MVLC::readRegister`, thread 1 in an iteration of the poller and thread 2
calling `MVLC::writeRegister` under the guard of `suspendStackErrorPolling()`:
after the turns 1, 1, 0, 1 the poller is inside its read and owns the
command-pipe mutex, and thread 0 still waits for its guard. -/
theorem MVLC.dialog_calls_hold_cmd_lock_witness :
    ((Threads.start exampleThreads).run [1, 1, 0, 1]).programs 1
      = [Action.ret DialogMethod.readKnownBuffer, Action.unlock MutexId.cmd, Action.sleep,
          Action.unlock MutexId.suspend]
    ∧ ((Threads.start exampleThreads).run [1, 1, 0, 1]).programs 0
      = methodActions DialogMethod.readRegister
    ∧ ((Threads.start exampleThreads).run [1, 1, 0, 1]).owner MutexId.cmd = some 1
    ∧ (MVLC.perform idleSurroundings.recording (0, []) (DialogCall.readRegister 0x1300 0)).2.2
      = [ThreadOp.lock MutexId.cmd, ThreadOp.dialog DialogMethod.readRegister,
          ThreadOp.unlock MutexId.cmd] :=
  ⟨rfl, rfl,
    ((MVLC.dialog_calls_hold_cmd_lock exampleCategories idleSurroundings scriptedPoller 0
      [] (DialogCall.readRegister 0x1300 0) 0 [] ErrorCode.NoError exampleThreads).2.2.2
      [1, 1, 0, 1] 1 DialogMethod.readKnownBuffer
      [Action.unlock MutexId.cmd, Action.sleep, Action.unlock MutexId.suspend]
      (Or.inr rfl)).1,
    congrArg (fun r => r.2.2)
      (MVLC.dialog_calls_hold_cmd_lock exampleCategories idleSurroundings scriptedPoller 0
        [] (DialogCall.readRegister 0x1300 0) 0 [] ErrorCode.NoError exampleThreads).1⟩

/-! ## C20 -/

/-- C20: an iteration of `stack_error_poller` takes the guard of the suspend
mutex first, then the guard of the command-pipe mutex, then makes its read, and
destroys the guard of the suspend mutex last.  Hence, for a thread made of
iterations of the poller among threads made of any pieces (command-pipe methods
of `MVLC`, iterations of the poller, methods made under the guard of
`suspendStackErrorPolling()`) and under every schedule, when the poller is
about to start its read, or is inside it, it owns the suspend mutex itself, so
no other thread holds the lock of `suspendStackErrorPolling()`; and while
another thread holds that lock the poller is neither about to start a read nor
inside one. -/
theorem stack_error_poller_read_under_suspend_lock {σ κ : Type} (E : ErrorCategories)
    (L : PrivateAPI σ) (P : PollerAPI σ κ) (w : σ) (log : List ThreadOp) (counters : κ)
    (buffer : List Nat) (ec : ErrorCode) (items : Nat → List ThreadItem) (t : Nat)
    (hpoller : ∀ item, item ∈ items t → ∃ sleeps, item = ThreadItem.pollerIteration sleeps) :
    (stack_error_poller_iteration_guarded E L.recording P.threadRecording
        { world := (w, log), counters := counters, buffer := buffer, ec := ec }).world.2
      = log ++ ([ThreadOp.lock MutexId.suspend, ThreadOp.lock MutexId.cmd,
            ThreadOp.dialog DialogMethod.readKnownBuffer, ThreadOp.unlock MutexId.cmd]
          ++ (if ErrorCode.isConnectionError E
                  (P.readKnownBuffer (L.lock (L.lock w MutexId.suspend) MutexId.cmd) buffer).1
                  = true
                ∨ (P.readKnownBuffer (L.lock (L.lock w MutexId.suspend) MutexId.cmd) buffer).2.1
                  = []
              then [ThreadOp.sleep_for 1000] else [])
          ++ [ThreadOp.unlock MutexId.suspend])
    ∧ (∀ sleeps, pollerActions sleeps
        = ([ThreadOp.lock MutexId.suspend, ThreadOp.lock MutexId.cmd,
              ThreadOp.dialog DialogMethod.readKnownBuffer, ThreadOp.unlock MutexId.cmd]
            ++ (if sleeps = true then [ThreadOp.sleep_for 1000] else [])
            ++ [ThreadOp.unlock MutexId.suspend]).flatMap ThreadOp.actions)
    ∧ (∀ (schedule : List Nat) (method : DialogMethod) (rest : List Action),
        (((Threads.start items).run schedule).programs t = Action.call method :: rest
          ∨ ((Threads.start items).run schedule).programs t = Action.ret method :: rest) →
        ((Threads.start items).run schedule).owner MutexId.suspend = some t
        ∧ ((Threads.start items).run schedule).owner MutexId.cmd = some t)
    ∧ ∀ (schedule : List Nat) (u : Nat), u ≠ t →
        ((Threads.start items).run schedule).owner MutexId.suspend = some u →
        ∀ (method : DialogMethod) (rest : List Action),
          ((Threads.start items).run schedule).programs t ≠ Action.call method :: rest
          ∧ ((Threads.start items).run schedule).programs t ≠ Action.ret method :: rest := by
  have hinv : ∀ schedule : List Nat, ((Threads.start items).run schedule).guardedAll
      (fun u => if u = t then needsCmdAndSuspend else needsCmd) := by
    intro schedule
    refine Threads.run_guardedAll _ schedule _ (Threads.start_guardedAll _ items ?_)
    intro u item hitem x hx
    by_cases hut : u = t
    · subst hut
      obtain ⟨sleeps, hs⟩ := hpoller item hitem
      simp only [if_true, needsCmdAndSuspend, decide_eq_true_eq] at hx
      rcases hx with hx | hx
      · left; exact hx
      · right
        refine ⟨hx, ?_⟩
        intro m hm
        rw [hs] at hm
        exact ThreadItem.noConfusion hm
    · left
      simpa [hut, needsCmd] using hx
  have hown : ∀ (schedule : List Nat) (method : DialogMethod) (rest : List Action),
      (((Threads.start items).run schedule).programs t = Action.call method :: rest
        ∨ ((Threads.start items).run schedule).programs t = Action.ret method :: rest) →
      ((Threads.start items).run schedule).owner MutexId.suspend = some t
      ∧ ((Threads.start items).run schedule).owner MutexId.cmd = some t := by
    intro schedule method rest hnext
    exact ⟨Threads.owner_of_dialog _ _ (hinv schedule) t method rest hnext MutexId.suspend
        (by simp [needsCmdAndSuspend]),
      Threads.owner_of_dialog _ _ (hinv schedule) t method rest hnext MutexId.cmd
        (by simp [needsCmdAndSuspend])⟩
  refine ⟨stack_error_poller_iteration_guarded_recording E L P w log counters buffer ec,
    pollerActions_eq_events, hown, ?_⟩
  intro schedule u hut hu method rest
  refine ⟨?_, ?_⟩
  · intro hcall
    have h := (hown schedule method rest (Or.inl hcall)).1
    rw [hu] at h
    exact hut (Option.some.inj h)
  · intro hret
    have h := (hown schedule method rest (Or.inr hret)).1
    rw [hu] at h
    exact hut (Option.some.inj h)

/-- The statement of C20 for thread 0 calling `MVLC::readRegister`, thread 1 in
an iteration of the poller and thread 2 calling `MVLC::writeRegister` under the
guard of `suspendStackErrorPolling()`: after the turns 1, 1 the poller is about
to start its read and owns the suspend mutex; after the turns 2, 1, 1 thread 2
owns the suspend mutex and the poller still waits for its first guard. -/
theorem stack_error_poller_read_under_suspend_lock_witness :
    (∀ item, item ∈ exampleThreads 1 → ∃ sleeps, item = ThreadItem.pollerIteration sleeps)
    ∧ ((Threads.start exampleThreads).run [1, 1]).programs 1
      = [Action.call DialogMethod.readKnownBuffer, Action.ret DialogMethod.readKnownBuffer,
          Action.unlock MutexId.cmd, Action.sleep, Action.unlock MutexId.suspend]
    ∧ ((Threads.start exampleThreads).run [1, 1]).owner MutexId.suspend = some 1
    ∧ ((Threads.start exampleThreads).run [2, 1, 1]).owner MutexId.suspend = some 2
    ∧ ((Threads.start exampleThreads).run [2, 1, 1]).programs 1 = pollerActions true
    ∧ (stack_error_poller_iteration_guarded exampleCategories idleSurroundings.recording
        scriptedPoller.threadRecording
        { world := (0, []), counters := 0, buffer := [], ec := ErrorCode.NoError }).world.2
      = [ThreadOp.lock MutexId.suspend, ThreadOp.lock MutexId.cmd,
          ThreadOp.dialog DialogMethod.readKnownBuffer, ThreadOp.unlock MutexId.cmd,
          ThreadOp.sleep_for 1000, ThreadOp.unlock MutexId.suspend] :=
  ⟨fun item hitem => ⟨true, by simpa [exampleThreads] using hitem⟩, rfl,
    ((stack_error_poller_read_under_suspend_lock exampleCategories idleSurroundings
      scriptedPoller 0 [] 0 [] ErrorCode.NoError exampleThreads 1
      (fun item hitem => ⟨true, by simpa [exampleThreads] using hitem⟩)).2.2.1
      [1, 1] DialogMethod.readKnownBuffer
      [Action.ret DialogMethod.readKnownBuffer, Action.unlock MutexId.cmd, Action.sleep,
        Action.unlock MutexId.suspend] (Or.inl rfl)).1,
    rfl, rfl, rfl⟩

end mesytec.mvlc
